import Mathlib

/-!
Shallow embedding of the pg_variables session-scoped transactional
key-value store (pg_variables.c) and proofs about its transactional
state engine.

Modelling conventions:
* Memory management (MemoryContext, palloc/pfree, datumCopy,
  MemoryContextDelete) is modelled by pure value copying and by
  dropping/overwriting fields; scalar `typlen`/`typbyval` (used only to
  drive datum copying and freeing) are dropped.
* The PGPRO_EE autonomous-transaction code (`#ifdef PGPRO_EE`) is omitted:
  this is the standard build, where every `Levels` value is just the
  subtransaction nest level.
* The `LastPackage`/`LastVariable` lookup cache is omitted: it is a pure
  lookup optimisation, and its transactionality check raises the same
  error as the uncached `createVariableInternal` path.
* Hash tables (`HTAB`) are modelled as association lists keyed by name in
  insertion order (`HASH_ENTER` appends, `HASH_REMOVE` deletes); a NULL
  `HTAB *` is `Option.none`.
* `ereport(ERROR, ...)` is modelled with `Except`: an erroring call
  returns no store.  (In the C code the longjmp is followed by the host's
  abort processing; the claims below only concern calls whose C
  counterpart raises before mutating, or calls that succeed.)
* The row-table internals (`pg_variables_record.c`: `init_record`,
  `check_attributes`, `check_record_key`, `insert_record`,
  `delete_record`) are not part of the sources under review; they are
  modelled from the spec, section 4.2, as a keyed row list (see the
  doc comments on the corresponding definitions).
-/

namespace PgVariables

/-- `NAMEDATALEN` from the host (postgres_ext.h): identifier buffer size. -/
def NAMEDATALEN : Nat := 64

/-- `InvalidOid`. -/
def InvalidOid : Nat := 0

/-- `RECORDOID`, the type id used for record variables. -/
def RECORDOID : Nat := 2249

/-- The distinct user-visible error conditions raised by the C code
(`ereport(ERROR, ...)` sites), identified by their message shape. -/
inductive PgvError
  | packageNameNull
  | variableNameNull
  | recordArgumentNull
  /-- "name \"%s\" is too long" (getKeyFromName) -/
  | nameTooLong (name : String)
  /-- "unrecognized package \"%s\"" (getPackage, strict) -/
  | unrecognizedPackage (key : String)
  /-- "unrecognized variable \"%s\"" (getVariableInternal, strict) -/
  | unrecognizedVariable (key : String)
  /-- "variable \"%s\" requires \"%s\" value" (type id mismatch) -/
  | wrongType (key : String)
  /-- "\"%s\" isn't a record/scalar variable" (kind mismatch) -/
  | wrongKind (key : String) (want_record : Bool)
  /-- "variable \"%s\" already created as [NOT ]TRANSACTIONAL"
  (the flag records the existing variable's transactionality) -/
  | transactionalityConflict (key : String) (existing_is_transactional : Bool)
  /-- duplicate key on row insertion (record table, modelled from the spec:
  the row table is keyed by the first column) -/
  | duplicateKeyRow (key : Option Int)
deriving Repr, DecidableEq

/-- `ScalarVar`: a scalar value body (datum + null flag; `typlen`/`typbyval`
dropped, see the module comment). -/
structure ScalarVar where
  value : Int
  is_null : Bool
deriving Repr, DecidableEq

/-- `RecordVar`: a record value body.  The keyed row hash table is modelled
from the spec, section 4.2, as a list of (first-column key, row payload)
pairs; `tupdesc` is the cached row descriptor id (`none` = not yet
initialised, as after `initObjectHistory` zeroing). -/
structure RecordVar where
  tupdesc : Option Nat
  rows : List (Option Int × Int)
deriving Repr, DecidableEq

/-- The value body of a variable state (the `value` union in `VarState`). -/
inductive VarValue
  | scalar (s : ScalarVar)
  | record (r : RecordVar)
deriving Repr, DecidableEq

/-- `VarState`: one entry of a transactional variable's savepoint stack.
`level` is `levels.level` (subtransaction nest level; the PGPRO_EE
`atxlevel` is omitted). -/
structure VarState where
  level : Nat
  is_valid : Bool
  value : VarValue
deriving Repr, DecidableEq

/-- `PackState`: one entry of a package's savepoint stack. -/
structure PackState where
  level : Nat
  is_valid : Bool
  trans_var_num : Int
deriving Repr, DecidableEq

/-- `Variable` (a `HashVariableEntry`): a named entry of a package's
regular or transactional table.  `states` is the savepoint stack,
head first (the head is the "actual" state, `GetActualState`). -/
structure Variable where
  name : String
  typid : Nat
  is_record : Bool
  is_transactional : Bool
  is_deleted : Bool
  states : List VarState
deriving Repr, DecidableEq

/-- `Package`: a named container with two variable tables (a `none` table
is a NULL `HTAB *`) and its own savepoint stack, head first. -/
structure Package where
  name : String
  varHashRegular : Option (List Variable)
  varHashTransact : Option (List Variable)
  states : List PackState
deriving Repr, DecidableEq

/-- `ChangesStackNode`: one frame of the changes stack; two lists of
changed-object references, most recently added first (`dlist_push_head`).
A changed variable is referenced by (package name, variable name) inside
the package's transactional table; a changed package by its name. -/
structure ChangesStackNode where
  changedVarsList : List (String × String)
  changedPacksList : List String
deriving Repr, DecidableEq

/-- `VariableStatEntry`: one registered record-variable scan.
`status` identifies the `HASH_SEQ_STATUS` allocation; `user_fctx` is the
index of the consumer's `funcctx->user_fctx` slot. -/
structure VariableStatEntry where
  status : Nat
  package : String
  varname : String
  level : Nat
  user_fctx : Nat
deriving Repr, DecidableEq

/-- `PackageStatEntry`: one registered package-hash scan. -/
structure PackageStatEntry where
  status : Nat
  level : Nat
  user_fctx : Nat
deriving Repr, DecidableEq

/-- The whole session store: the module globals of pg_variables.c.
`packagesHash = none` models a NULL `packagesHash` (no `ModuleContext`);
`changesStack = none` models a NULL `changesStack`.  `currentLevel` is the
host's `GetCurrentTransactionNestLevel()` (1 at top level).
`user_fctx_slots` models the consumers' `funcctx->user_fctx` cells
(`true` = still points at its scan state, `false` = NULL);
`terminated_scans` records which scan ids `hash_seq_term` has been called
on. -/
structure Store where
  packagesHash : Option (List Package)
  changesStack : Option (List ChangesStackNode)
  currentLevel : Nat
  variables_stats : List VariableStatEntry
  packages_stats : List PackageStatEntry
  user_fctx_slots : List (Nat × Bool)
  terminated_scans : List Nat
deriving Repr, DecidableEq

/-- The session store before any pg_variables activity, at top level. -/
def emptyStore : Store where
  packagesHash := none
  changesStack := none
  currentLevel := 1
  variables_stats := []
  packages_stats := []
  user_fctx_slots := []
  terminated_scans := []

/-! ### Table primitives (the `HTAB` interface as used by the code) -/

/-- `hash_search(htab, key, HASH_FIND, ...)` on a variable table. -/
def findVar (tbl : List Variable) (key : String) : Option Variable :=
  tbl.find? (fun v => v.name == key)

/-- Point update of the entry named `key` (the C code mutates through the
entry pointer). -/
def modifyVar (tbl : List Variable) (key : String) (f : Variable → Variable) :
    List Variable :=
  tbl.map (fun v => if v.name == key then f v else v)

/-- `hash_search(htab, key, HASH_REMOVE, ...)` on a variable table. -/
def removeVar (tbl : List Variable) (key : String) : List Variable :=
  tbl.filter (fun v => v.name != key)

/-- `hash_search(packagesHash, key, HASH_FIND, ...)`. -/
def findPack (s : Store) (key : String) : Option Package :=
  (s.packagesHash.getD []).find? (fun p => p.name == key)

/-- Point update of the package named `key`. -/
def modifyPack (s : Store) (key : String) (f : Package → Package) : Store :=
  { s with packagesHash :=
      s.packagesHash.map (fun tbl => tbl.map (fun p => if p.name == key then f p else p)) }

/-- The `pack_htab` macro: select a package's table by transactionality. -/
def pack_htab (p : Package) (is_trans : Bool) : Option (List Variable) :=
  if is_trans then p.varHashTransact else p.varHashRegular

/-- Write back the table selected by `pack_htab`. -/
def set_pack_htab (p : Package) (is_trans : Bool) (tbl : Option (List Variable)) :
    Package :=
  if is_trans then { p with varHashTransact := tbl } else { p with varHashRegular := tbl }

/-- Point update of a variable in the table of the given flavor of the
given package. -/
def modifyVarIn (s : Store) (pkey : String) (is_trans : Bool) (vkey : String)
    (f : Variable → Variable) : Store :=
  modifyPack s pkey (fun p =>
    set_pack_htab p is_trans ((pack_htab p is_trans).map (fun tbl => modifyVar tbl vkey f)))

/-- Find a variable in the table of the given flavor of the given package. -/
def findVarIn (s : Store) (pkey : String) (is_trans : Bool) (vkey : String) :
    Option Variable :=
  match findPack s pkey with
  | none => none
  | some p => match pack_htab p is_trans with
    | none => none
    | some tbl => findVar tbl vkey

/-! ### Reading the head ("actual") state: the `GetActualState`,
`GetPackState`, `GetActualValue` macros.  The C code only ever reads the
head of a non-empty stack; the defaults below are for totality only. -/

/-- Head state of a variable (`GetActualState` on a variable). -/
def varHeadState (v : Variable) : VarState :=
  v.states.headD { level := 0, is_valid := false, value := .scalar { value := 0, is_null := true } }

/-- Head state of a package (`GetActualState`/`GetPackState` on a package). -/
def packHeadState (p : Package) : PackState :=
  p.states.headD { level := 0, is_valid := false, trans_var_num := 0 }

/-- Mutate the head state of a variable in place (writes through
`GetActualState`); no-op on an empty stack (never reached by the code). -/
def varMutateHead (f : VarState → VarState) (v : Variable) : Variable :=
  match v.states with
  | [] => v
  | h :: t => { v with states := f h :: t }

/-- Mutate the head state of a package in place. -/
def packMutateHead (f : PackState → PackState) (p : Package) : Package :=
  match p.states with
  | [] => p
  | h :: t => { p with states := f h :: t }

/-- `numOfRegVars`: number of entries of the regular table (0 when the
table does not exist). -/
def numOfRegVars (p : Package) : Int :=
  match p.varHashRegular with
  | some tbl => (tbl.length : Int)
  | none => 0

/-- `isPackageEmpty`: the head state's valid-transactional-variable count
plus the regular-table entry count is zero. -/
def isPackageEmpty (p : Package) : Bool :=
  (packHeadState p).trans_var_num + numOfRegVars p == 0

/-! ### Cursor registry helpers (the `list_remove_if` instantiations) -/

/-- Null one consumer `funcctx->user_fctx` cell (the `clear_fctx`
callback). -/
def clearSlot (slots : List (Nat × Bool)) (id : Nat) : List (Nat × Bool) :=
  slots.map (fun sl => if sl.1 == id then (sl.1, false) else sl)

/-- Remove every `variables_stats` entry satisfying `pred`; `hash_seq_term`
each removed scan when `term`, and null each removed entry's consumer
back-pointer (`clear_fctx` runs on every removal path of
`list_remove_if`). -/
def removeVariableStatsIf (s : Store) (pred : VariableStatEntry → Bool)
    (term : Bool) : Store :=
  let gone := s.variables_stats.filter pred
  { s with
    variables_stats := s.variables_stats.filter (fun e => !(pred e))
    terminated_scans :=
      (if term then gone.map (fun e => e.status) else []) ++ s.terminated_scans
    user_fctx_slots := gone.foldl (fun sl e => clearSlot sl e.user_fctx) s.user_fctx_slots }

/-- Remove every `packages_stats` entry satisfying `pred` (same shape). -/
def removePackageStatsIf (s : Store) (pred : PackageStatEntry → Bool)
    (term : Bool) : Store :=
  let gone := s.packages_stats.filter pred
  { s with
    packages_stats := s.packages_stats.filter (fun e => !(pred e))
    terminated_scans :=
      (if term then gone.map (fun e => e.status) else []) ++ s.terminated_scans
    user_fctx_slots := gone.foldl (fun sl e => clearSlot sl e.user_fctx) s.user_fctx_slots }

/-- `remove_variables_variable`: drop (and terminate) every scan over the
given variable (pointer equality modelled by the name pair). -/
def remove_variables_variable (s : Store) (pkey vkey : String) : Store :=
  removeVariableStatsIf s (fun e => e.package == pkey && e.varname == vkey) true

/-- `remove_variables_package`: drop (and terminate) every scan over a
variable of the given package. -/
def remove_variables_package (s : Store) (pkey : String) : Store :=
  removeVariableStatsIf s (fun e => e.package == pkey) true

/-- `remove_variables_level`: drop every variable scan opened at the given
level (`term = false` in the C code: the scan is not terminated here). -/
def remove_variables_level (s : Store) (lvl : Nat) : Store :=
  removeVariableStatsIf s (fun e => e.level == lvl) false

/-- `remove_packages_level`: drop (and terminate) every package scan opened
at the given level. -/
def remove_packages_level (s : Store) (lvl : Nat) : Store :=
  removePackageStatsIf s (fun e => e.level == lvl) true

/-- `freeStatsLists`: on executor end / top-level commit / top-level abort,
`hash_seq_term` every registered scan and reset both registry lists.
Note: unlike the `list_remove_if` paths, this function does not touch the
consumers' `funcctx->user_fctx` cells. -/
def freeStatsLists (s : Store) : Store :=
  { s with
    variables_stats := []
    packages_stats := []
    terminated_scans :=
      s.variables_stats.map (fun e => e.status)
        ++ s.packages_stats.map (fun e => e.status)
        ++ s.terminated_scans }

/-! ### Decision helpers of the savepoint history -/

/-- `isObjectChangedInCurrentTrans` for a variable: the changes stack
exists and the head state's level is the current nest level. -/
def isObjectChangedInCurrentTransVar (s : Store) (v : Variable) : Bool :=
  s.changesStack.isSome && (varHeadState v).level == s.currentLevel

/-- `isObjectChangedInCurrentTrans` for a package. -/
def isObjectChangedInCurrentTransPack (s : Store) (p : Package) : Bool :=
  s.changesStack.isSome && (packHeadState p).level == s.currentLevel

/-- `isObjectChangedInUpperTrans` on the stack of state levels (head
first): if there is a second state and the head is at the current level,
test the second state's level against `current - 1`; otherwise test the
head's level against `current - 1`. -/
def isObjectChangedInUpperTransLevels (cur : Nat) (levels : List Nat) : Bool :=
  match levels with
  | [] => false
  | l0 :: rest =>
    match rest with
    | [] => l0 == cur - 1
    | l1 :: _ => if l0 == cur then l1 == cur - 1 else l0 == cur - 1

/-- `isObjectChangedInUpperTrans` for a variable. -/
def isObjectChangedInUpperTransVar (s : Store) (v : Variable) : Bool :=
  isObjectChangedInUpperTransLevels s.currentLevel (v.states.map (fun st => st.level))

/-- `isObjectChangedInUpperTrans` for a package. -/
def isObjectChangedInUpperTransPack (s : Store) (p : Package) : Bool :=
  isObjectChangedInUpperTransLevels s.currentLevel (p.states.map (fun st => st.level))

/-! ### Savepoint creation (`createSavepoint`, `initObjectHistory`) -/

/-- `copyValue`: deep copy of a value body (`datumCopy` for scalars,
`init_record` + re-insertion of every row for records); pure copy here. -/
def copyValue (value : VarValue) : VarValue := value

/-- `createSavepoint` on a variable: push a zero-allocated state carrying a
copy of the head's value and validity (the level is left zeroed; it is
assigned by `addToChangesStack`). -/
def createSavepointVarObj (v : Variable) : Variable :=
  match v.states with
  | [] => v
  | h :: t =>
    { v with states := { level := 0, is_valid := h.is_valid, value := copyValue h.value } :: h :: t }

/-- `createSavepoint` on a package. -/
def createSavepointPackObj (p : Package) : Package :=
  match p.states with
  | [] => p
  | h :: t =>
    { p with states :=
        { level := 0, is_valid := h.is_valid, trans_var_num := h.trans_var_num } :: h :: t }

/-- Store-level `createSavepoint(&variable->transObject, TRANS_VARIABLE)`
(only ever called on transactional variables). -/
def createSavepointVar (s : Store) (pkey vkey : String) : Store :=
  modifyVarIn s pkey true vkey createSavepointVarObj

/-- Store-level `createSavepoint(&package->transObject, TRANS_PACKAGE)`. -/
def createSavepointPack (s : Store) (pkey : String) : Store :=
  modifyPack s pkey createSavepointPackObj

/-- `initObjectHistory` for a variable: the initial (zero-allocated, valid)
state. -/
def initObjectHistoryVarState (is_record : Bool) : VarState :=
  { level := 0, is_valid := true,
    value := if is_record then .record { tupdesc := none, rows := [] }
             else .scalar { value := 0, is_null := true } }

/-- `initObjectHistory` for a package. -/
def initObjectHistoryPackState : PackState :=
  { level := 0, is_valid := true, trans_var_num := 0 }

/-! ### The changes stack -/

/-- A freshly pushed `ChangesStackNode`. -/
def emptyChangesStackNode : ChangesStackNode :=
  { changedVarsList := [], changedPacksList := [] }

/-- `pushChangesStack`: create the stack if absent and push one empty
frame. -/
def pushChangesStack (s : Store) : Store :=
  { s with changesStack := some (emptyChangesStackNode :: s.changesStack.getD []) }

/-- `prepareChangesStack`: if the stack is absent, push one frame per
active nesting level. -/
def prepareChangesStack (s : Store) : Store :=
  match s.changesStack with
  | some _ => s
  | none => { s with changesStack := some (List.replicate s.currentLevel emptyChangesStackNode) }

/-- `addToChangesStack(&variable->transObject, TRANS_VARIABLE)`: prepare
the stack, and if the variable is not yet changed at the current level,
push it onto the current frame and give its head state the current
level. -/
def addToChangesStackVar (s : Store) (pkey vkey : String) : Store :=
  let s := prepareChangesStack s
  match findVarIn s pkey true vkey with
  | none => s
  | some v =>
    if isObjectChangedInCurrentTransVar s v then s
    else
      let s := match s.changesStack with
        | some (fr :: rest) =>
          let fr' := { fr with changedVarsList := (pkey, vkey) :: fr.changedVarsList }
          { s with changesStack := some (fr' :: rest) }
        | _ => s
      modifyVarIn s pkey true vkey (varMutateHead (fun h => { h with level := s.currentLevel }))

/-- `addToChangesStack(&package->transObject, TRANS_PACKAGE)`. -/
def addToChangesStackPack (s : Store) (pkey : String) : Store :=
  let s := prepareChangesStack s
  match findPack s pkey with
  | none => s
  | some p =>
    if isObjectChangedInCurrentTransPack s p then s
    else
      let s := match s.changesStack with
        | some (fr :: rest) =>
          let fr' := { fr with changedPacksList := pkey :: fr.changedPacksList }
          { s with changesStack := some (fr' :: rest) }
        | _ => s
      modifyPack s pkey (packMutateHead (fun h => { h with level := s.currentLevel }))

/-- `addToChangesStackUpperLevel` for a variable: push onto the head frame
of the (already popped) changes stack, i.e. the parent frame. -/
def addToChangesStackUpperLevelVar (s : Store) (pkey vkey : String) : Store :=
  match s.changesStack with
  | some (fr :: rest) =>
    let fr' := { fr with changedVarsList := (pkey, vkey) :: fr.changedVarsList }
    { s with changesStack := some (fr' :: rest) }
  | _ => s

/-- `addToChangesStackUpperLevel` for a package. -/
def addToChangesStackUpperLevelPack (s : Store) (pkey : String) : Store :=
  match s.changesStack with
  | some (fr :: rest) =>
    let fr' := { fr with changedPacksList := pkey :: fr.changedPacksList }
    { s with changesStack := some (fr' :: rest) }
  | _ => s

/-! ### Object removal (`removeObject`) -/

/-- Drop the second state of a stack (the `dlist_next_node` of the head),
used by `releaseSavepoint`. -/
def dropSecondVarState (v : Variable) : Variable :=
  match v.states with
  | h :: _ :: t => { v with states := h :: t }
  | _ => v

/-- Drop the second state of a package stack. -/
def dropSecondPackState (p : Package) : Package :=
  match p.states with
  | h :: _ :: t => { p with states := h :: t }
  | _ => p

/-- `removeObject(&variable->transObject, TRANS_VARIABLE)`: remove the
entry from its table (with its states), terminate every scan over it,
and invalidate the package's head state if the package became empty. -/
def removeObjectVar (s : Store) (pkey : String) (var_is_trans : Bool) (vkey : String) :
    Store :=
  let s := modifyPack s pkey (fun p =>
    set_pack_htab p var_is_trans ((pack_htab p var_is_trans).map (fun tbl => removeVar tbl vkey)))
  let s := remove_variables_variable s pkey vkey
  match findPack s pkey with
  | none => s
  | some p =>
    if isPackageEmpty p then
      modifyPack s pkey (packMutateHead (fun h => { h with is_valid := false }))
    else s

/-- `removeObject(&package->transObject, TRANS_PACKAGE)`: delete both
variable tables (their memory contexts) and remove the package entry.
(The C code calls `remove_variables_variable` with the package pointer
cast to `Variable *`; that pointer never equals a registered variable
pointer, so the call is a no-op and is omitted here.) -/
def removeObjectPack (s : Store) (pkey : String) : Store :=
  { s with packagesHash := s.packagesHash.map (fun tbl => tbl.filter (fun p => p.name != pkey)) }

/-! ### `rollbackSavepoint` / `releaseSavepoint` (the PGPRO_EE `sub`-only
uses of the `sub` argument are omitted with the EE code) -/

/-- `rollbackSavepoint` on a variable: pop the head state; destroy the
variable if it has no states (before or after the pop). -/
def rollbackSavepointVar (s : Store) (pkey vkey : String) : Store :=
  match findVarIn s pkey true vkey with
  | none => s
  | some v =>
    if v.states.isEmpty then removeObjectVar s pkey true vkey
    else
      let s := modifyVarIn s pkey true vkey (fun v => { v with states := v.states.tail })
      match findVarIn s pkey true vkey with
      | none => s
      | some v' =>
        if v'.states.isEmpty then removeObjectVar s pkey true vkey else s

/-- `rollbackSavepoint` on a package: pop the head state; if the stack
emptied, either synthesize a fresh valid state at the parent level (when
regular variables remain) or destroy the package; if states remain but the
package is empty, mark it invalid (destroying it at top level), creating a
parent-level savepoint when the parent had not touched it. -/
def rollbackSavepointPack (s : Store) (pkey : String) : Store :=
  match findPack s pkey with
  | none => s
  | some p =>
    if p.states.isEmpty then removeObjectPack s pkey
    else
      let s := modifyPack s pkey (fun p => { p with states := p.states.tail })
      match findPack s pkey with
      | none => s
      | some p' =>
        if p'.states.isEmpty then
          if numOfRegVars p' > 0 then
            let s := modifyPack s pkey (fun p => { p with states := [initObjectHistoryPackState] })
            let s := modifyPack s pkey
              (packMutateHead (fun h => { h with level := s.currentLevel - 1 }))
            if (s.changesStack.getD []).isEmpty then s
            else addToChangesStackUpperLevelPack s pkey
          else removeObjectPack s pkey
        else if isPackageEmpty p' then
          if (s.changesStack.getD []).isEmpty then removeObjectPack s pkey
          else
            let s :=
              if !(isObjectChangedInUpperTransPack s p')
                  && !(s.changesStack.getD []).isEmpty then
                let s := createSavepointPack s pkey
                let s := addToChangesStackUpperLevelPack s pkey
                modifyPack s pkey
                  (packMutateHead (fun h => { h with level := s.currentLevel - 1 }))
              else s
            modifyPack s pkey (packMutateHead (fun h => { h with is_valid := false }))
        else s

/-- `releaseSavepoint` on a variable: destroy it when invalid with no
older state (or at top level); otherwise fold the head into the parent
level (discarding the parent state if one exists, else recording the
object in the parent frame) and decrement the head's level. -/
def releaseSavepointVar (s : Store) (pkey vkey : String) : Store :=
  match findVarIn s pkey true vkey with
  | none => s
  | some v =>
    if !(varHeadState v).is_valid
        && (v.states.length == 1 || (s.changesStack.getD []).isEmpty) then
      removeObjectVar s pkey true vkey
    else
      let s :=
        if isObjectChangedInUpperTransVar s v then
          modifyVarIn s pkey true vkey dropSecondVarState
        else if !(s.changesStack.getD []).isEmpty then
          addToChangesStackUpperLevelVar s pkey vkey
        else s
      modifyVarIn s pkey true vkey (varMutateHead (fun h => { h with level := h.level - 1 }))

/-- `releaseSavepoint` on a package. -/
def releaseSavepointPack (s : Store) (pkey : String) : Store :=
  match findPack s pkey with
  | none => s
  | some p =>
    if !(packHeadState p).is_valid
        && (p.states.length == 1 || (s.changesStack.getD []).isEmpty) then
      removeObjectPack s pkey
    else
      let s :=
        if isObjectChangedInUpperTransPack s p then
          modifyPack s pkey dropSecondPackState
        else if !(s.changesStack.getD []).isEmpty then
          addToChangesStackUpperLevelPack s pkey
        else s
      modifyPack s pkey (packMutateHead (fun h => { h with level := h.level - 1 }))

/-! ### `processChanges` and the transaction callbacks -/

/-- The two savepoint actions. -/
inductive Action
  | release
  | rollback
deriving Repr, DecidableEq

/-- One step of `applyAction` over the changed-variables list.  On release,
a variable whose package was removed at the current level is first marked
invalid. -/
def applyActionVar (s : Store) (action : Action) (r : String × String) : Store :=
  match action with
  | .rollback => rollbackSavepointVar s r.1 r.2
  | .release =>
    let s :=
      match findPack s r.1 with
      | some p =>
        if !(packHeadState p).is_valid then
          modifyVarIn s r.1 true r.2 (varMutateHead (fun h => { h with is_valid := false }))
        else s
      | none => s
    releaseSavepointVar s r.1 r.2

/-- One step of `applyAction` over the changed-packages list. -/
def applyActionPack (s : Store) (action : Action) (pkey : String) : Store :=
  match action with
  | .rollback => rollbackSavepointPack s pkey
  | .release => releaseSavepointPack s pkey

/-- `processChanges`: pop the current frame, apply the action to its
changed variables (first) and changed packages (in list order, i.e. most
recently added first), then drop the stack when it emptied, and drop the
whole module state when no packages remain. -/
def processChanges (s : Store) (action : Action) : Store :=
  match s.changesStack with
  | none => s
  | some [] => s
  | some (fr :: rest) =>
    let s := { s with changesStack := some rest }
    let s := fr.changedVarsList.foldl (fun st r => applyActionVar st action r) s
    let s := fr.changedPacksList.foldl (fun st pk => applyActionPack st action pk) s
    let s := if (s.changesStack.getD []).isEmpty then { s with changesStack := none } else s
    if (s.packagesHash.getD []).isEmpty then
      { s with packagesHash := none, changesStack := none }
    else s

/-- `pgvSubTransCallback(SUBXACT_EVENT_START_SUB)` (runs with
`currentLevel` already at the new, deeper level). -/
def pgvSubTransCallbackStart (s : Store) : Store :=
  let s := if s.changesStack.isSome then pushChangesStack s else s
  remove_packages_level (remove_variables_level s s.currentLevel) s.currentLevel

/-- `pgvSubTransCallback(SUBXACT_EVENT_COMMIT_SUB)` (runs while still at
the finished subtransaction's level). -/
def pgvSubTransCallbackCommit (s : Store) : Store :=
  let s := if s.changesStack.isSome then processChanges s .release else s
  remove_packages_level (remove_variables_level s s.currentLevel) s.currentLevel

/-- `pgvSubTransCallback(SUBXACT_EVENT_ABORT_SUB)`. -/
def pgvSubTransCallbackAbort (s : Store) : Store :=
  let s := if s.changesStack.isSome then processChanges s .rollback else s
  remove_packages_level (remove_variables_level s s.currentLevel) s.currentLevel

/-- A `SAVEPOINT`: the host increments the nest level, then fires the
start-subtransaction callback. -/
def subTransStart (s : Store) : Store :=
  pgvSubTransCallbackStart { s with currentLevel := s.currentLevel + 1 }

/-- A `RELEASE SAVEPOINT`: the commit-subtransaction callback fires at the
subtransaction's level, then the host pops the level. -/
def subTransCommit (s : Store) : Store :=
  let s := pgvSubTransCallbackCommit s
  { s with currentLevel := s.currentLevel - 1 }

/-- A `ROLLBACK TO SAVEPOINT`. -/
def subTransAbort (s : Store) : Store :=
  let s := pgvSubTransCallbackAbort s
  { s with currentLevel := s.currentLevel - 1 }

/-- `pgvTransCallback(XACT_EVENT_PRE_COMMIT)`: top-level commit. -/
def transPreCommit (s : Store) : Store :=
  freeStatsLists (if s.changesStack.isSome then processChanges s .release else s)

/-- `pgvTransCallback(XACT_EVENT_ABORT)`: top-level abort. -/
def transAbort (s : Store) : Store :=
  freeStatsLists (if s.changesStack.isSome then processChanges s .rollback else s)

/-! ### The object store operations -/

/-- `getKeyFromName`: reject a name whose length is `>= NAMEDATALEN - 1`;
otherwise the key is the name itself (copy + NUL-termination). -/
def getKeyFromName (name : String) : Except PgvError String :=
  if name.length ≥ NAMEDATALEN - 1 then .error (.nameTooLong name) else .ok name

/-- `ensurePackagesHashExists`: allocate `ModuleContext` and the packages
hash when absent. -/
def ensurePackagesHashExists (s : Store) : Store :=
  match s.packagesHash with
  | some _ => s
  | none => { s with packagesHash := some [] }

/-- `getPackage`: return the package (by key) iff it exists and its head
state is valid; otherwise `none`, or the strict error. -/
def getPackage (s : Store) (name : String) (strict : Bool) :
    Except PgvError (Option String) := do
  let key ← getKeyFromName name
  match findPack s key with
  | some p =>
    if (packHeadState p).is_valid then .ok (some key)
    else if strict then .error (.unrecognizedPackage key) else .ok none
  | none => if strict then .error (.unrecognizedPackage key) else .ok none

/-- One iteration of `createPackage`'s resurrection loop: savepoint the
transactional variable (and record it in the current frame) unless already
changed at this level, then mark its head state invalid. -/
def resurrectVarStep (s : Store) (pkey vkey : String) : Store :=
  match findVarIn s pkey true vkey with
  | none => s
  | some v =>
    let s :=
      if !(isObjectChangedInCurrentTransVar s v) then
        addToChangesStackVar (createSavepointVar s pkey vkey) pkey vkey
      else s
    modifyVarIn s pkey true vkey (varMutateHead (fun h => { h with is_valid := false }))

/-- The tail of `createPackage`: create the requested flavor's table if
absent and add the package to the changes list. -/
def finishCreatePackage (s : Store) (key : String) (is_trans : Bool) : Store :=
  let s := modifyPack s key (fun p =>
    match pack_htab p is_trans with
    | none => set_pack_htab p is_trans (some [])
    | some _ => p)
  match findPack s key with
  | some p =>
    if !(isObjectChangedInCurrentTransPack s p) then addToChangesStackPack s key else s
  | none => s

/-- `createPackage`: find or create the package entry.  When found and not
yet changed at this level, push a savepoint; when found invalid, resurrect
it (mark valid, savepoint + invalidate every transactional variable).
When absent, initialize a fresh entry with its initial history. -/
def createPackage (s0 : Store) (name : String) (is_trans : Bool) :
    Except PgvError (String × Store) := do
  let key ← getKeyFromName name
  let s1 := ensurePackagesHashExists s0
  match findPack s1 key with
  | some p0 =>
    let s2 :=
      if !(isObjectChangedInCurrentTransPack s1 p0) then createSavepointPack s1 key else s1
    let s3 :=
      if !(packHeadState ((findPack s2 key).getD p0)).is_valid then
        let s := modifyPack s2 key (packMutateHead (fun h => { h with is_valid := true }))
        match ((findPack s key).getD p0).varHashTransact with
        | some tbl => tbl.foldl (fun st v => resurrectVarStep st key v.name) s
        | none => s
      else s2
    .ok (key, finishCreatePackage s3 key is_trans)
  | none =>
    let newp : Package :=
      { name := key, varHashRegular := none, varHashTransact := none,
        states := [initObjectHistoryPackState] }
    let s2 := { s1 with packagesHash := s1.packagesHash.map (fun tbl => tbl ++ [newp]) }
    .ok (key, finishCreatePackage s2 key is_trans)

/-- `getVariableInternal`: look the name up in the regular table first,
then the transactional one; check type and kind when a type id is given;
under `strict`, an absent or invalid variable is an error. -/
def getVariableInternal (s : Store) (pkey : String) (name : String) (typid : Nat)
    (is_record : Bool) (strict : Bool) : Except PgvError (Option Variable) := do
  let key ← getKeyFromName name
  match findPack s pkey with
  | none => .ok none
  | some p =>
    let v? : Option Variable :=
      match (match p.varHashRegular with
             | some tbl => findVar tbl key
             | none => none) with
      | some v => some v
      | none =>
        match p.varHashTransact with
        | some tbl => findVar tbl key
        | none => none
    match v? with
    | some v =>
      if typid != InvalidOid then
        if v.typid != typid then .error (.wrongType key)
        else if v.is_record != is_record then .error (.wrongKind key is_record)
        else if !(varHeadState v).is_valid && strict then .error (.unrecognizedVariable key)
        else .ok (some v)
      else
        if !(varHeadState v).is_valid && strict then .error (.unrecognizedVariable key)
        else .ok (some v)
    | none => if strict then .error (.unrecognizedVariable key) else .ok none

/-- The tail of `createVariableInternal` (createVariableInternal lines
2208-2221): increment the valid-transactional counter when the variable
was created or was invalid, validate the head state, and record the
variable in the changes stack. -/
def createVariableFinish (s : Store) (pkey vkey : String)
    (is_transactional found : Bool) : Store :=
  match findVarIn s pkey is_transactional vkey with
  | none => s
  | some v =>
    let s :=
      if is_transactional && (!found || !(varHeadState v).is_valid) then
        modifyPack s pkey
          (packMutateHead (fun h => { h with trans_var_num := h.trans_var_num + 1 }))
      else s
    let s := modifyVarIn s pkey is_transactional vkey
      (varMutateHead (fun h => { h with is_valid := true }))
    if is_transactional then addToChangesStackVar s pkey vkey else s

/-- `createVariableInternal`: enforce name uniqueness across both tables
(the reverse check raises the transactionality conflict before anything is
mutated), check type and kind on an existing entry (savepointing a
transactional one not yet changed at this level), or initialize a fresh
entry (savepointing the package). -/
def createVariableInternal (s0 : Store) (pkey : String) (name : String) (typid : Nat)
    (is_record : Bool) (is_transactional : Bool) : Except PgvError (String × Store) := do
  let key ← getKeyFromName name
  match findPack s0 pkey with
  | none => .ok (key, s0)
  | some p =>
    let conflict :=
      match pack_htab p (!is_transactional) with
      | some tbl => (findVar tbl key).isSome
      | none => false
    if conflict then .error (.transactionalityConflict key (!is_transactional))
    else
      match findVar ((pack_htab p is_transactional).getD []) key with
      | some v =>
        if v.typid != typid then .error (.wrongType key)
        else if v.is_record != is_record then .error (.wrongKind key is_record)
        else
          let s1 :=
            if is_transactional && !(isObjectChangedInCurrentTransVar s0 v) then
              createSavepointVar s0 pkey key
            else s0
          .ok (key, createVariableFinish s1 pkey key is_transactional true)
      | none =>
        let newv : Variable :=
          { name := key, typid := typid, is_record := is_record,
            is_transactional := is_transactional, is_deleted := false,
            states := [initObjectHistoryVarState is_record] }
        let s1 := modifyPack s0 pkey (fun p =>
          set_pack_htab p is_transactional
            (some ((pack_htab p is_transactional).getD [] ++ [newv])))
        let s2 :=
          match findPack s1 pkey with
          | some p1 =>
            if !(isObjectChangedInCurrentTransPack s1 p1) then
              addToChangesStackPack (createSavepointPack s1 pkey) pkey
            else s1
          | none => s1
        .ok (key, createVariableFinish s2 pkey key is_transactional false)

/-- `variable_set`: create (or fetch) the package and the scalar variable,
then overwrite the head state's scalar (freeing the old datum and
`datumCopy`-ing the new one are pure value updates here). -/
def variable_set (s : Store) (package_name var_name : String) (typid : Nat)
    (value : Int) (is_null : Bool) (is_transactional : Bool) :
    Except PgvError Store := do
  let (pkey, s) ← createPackage s package_name is_transactional
  let (vkey, s) ← createVariableInternal s pkey var_name typid false is_transactional
  .ok (modifyVarIn s pkey is_transactional vkey (varMutateHead (fun h =>
    { h with value := .scalar { value := if is_null then 0 else value, is_null := is_null } })))

/-- `variable_get`: strict lookups as in the C code; an absent package or
variable (non-strict) reads as the null scalar.  (The record arm is
unreachable whenever the kind check ran, i.e. `typid ≠ InvalidOid`.) -/
def variable_get (s : Store) (package_name var_name : String) (typid : Nat)
    (strict : Bool) : Except PgvError (Int × Bool) := do
  match ← getPackage s package_name strict with
  | none => .ok (0, true)
  | some pkey =>
    match ← getVariableInternal s pkey var_name typid false strict with
    | none => .ok (0, true)
    | some v =>
      match (varHeadState v).value with
      | .scalar sc => .ok (sc.value, sc.is_null)
      | .record _ => .ok (0, true)

/-- Modelled from the spec, section 4.2 (`insert_record` of
pg_variables_record.c is not among the sources): the row table is keyed by
the row's first column; inserting a duplicate key fails. -/
def insert_record (r : RecordVar) (key : Option Int) (payload : Int) :
    Except PgvError RecordVar :=
  if (r.rows.find? (fun row => row.1 == key)).isSome then
    .error (.duplicateKeyRow key)
  else .ok { r with rows := r.rows ++ [(key, payload)] }

/-- Modelled from the spec, section 4.2 (`check_attributes` of
pg_variables_record.c is not among the sources): validate an inbound row's
descriptor against the cached one, attribute by attribute (descriptors are
opaque ids here). -/
def check_attributes (r : RecordVar) (rowType : Nat) (key : String) :
    Except PgvError Unit :=
  match r.tupdesc with
  | some d => if d != rowType then .error (.wrongType key) else .ok ()
  | none => .ok ()

/-- Modelled from the spec, section 4.2 (`init_record` of
pg_variables_record.c is not among the sources): the first insertion
initializes the row descriptor and a fresh row table. -/
def init_record (rowType : Nat) : RecordVar := { tupdesc := some rowType, rows := [] }

/-- Modelled from the spec, section 4.2 (`check_record_key` of
pg_variables_record.c is not among the sources): the proposed key's type
must match the established key type. -/
def check_record_key (v : Variable) (keyType : Nat) : Except PgvError Unit :=
  match (varHeadState v).value with
  | .record r =>
    match r.tupdesc with
    | some d => if d != keyType then .error (.wrongType v.name) else .ok ()
    | none => .ok ()
  | .scalar _ => .ok ()

/-- `variable_insert` (without the `LastPackage`/`LastVariable` cache, see
the module comment): create the package and the record variable, then
initialize the record on first use (or after deletion) and insert the
row. -/
def variable_insert (s : Store) (package_name var_name : String) (rowType : Nat)
    (key : Option Int) (payload : Int) (is_transactional : Bool) :
    Except PgvError Store := do
  let (pkey, s) ← createPackage s package_name is_transactional
  let (vkey, s) ← createVariableInternal s pkey var_name RECORDOID true is_transactional
  match findVarIn s pkey is_transactional vkey with
  | none => .ok s
  | some v =>
    let r := match (varHeadState v).value with
      | .record r => r
      | .scalar _ => { tupdesc := none, rows := [] }
    if r.tupdesc.isNone || v.is_deleted then
      let r' ← insert_record (init_record rowType) key payload
      .ok (modifyVarIn s pkey is_transactional vkey (fun v =>
        varMutateHead (fun h => { h with value := .record r' }) { v with is_deleted := false }))
    else do
      let _ ← check_attributes r rowType vkey
      let r' ← insert_record r key payload
      .ok (modifyVarIn s pkey is_transactional vkey
        (varMutateHead (fun h => { h with value := .record r' })))

/-- `variable_delete` (without the lookup cache): strict lookups, a
savepoint for a transactional record variable not yet changed at this
level, then `delete_record` (modelled from the spec: remove the row with
the given first-column key; the result tells whether one existed). -/
def variable_delete (s : Store) (package_name var_name : String) (keyType : Nat)
    (key : Option Int) : Except PgvError (Bool × Store) := do
  match ← getPackage s package_name true with
  | none => .ok (false, s)
  | some pkey =>
  match ← getVariableInternal s pkey var_name RECORDOID true true with
  | none => .ok (false, s)
  | some v =>
    let s :=
      if v.is_transactional && !(isObjectChangedInCurrentTransVar s v) then
        addToChangesStackVar (createSavepointVar s pkey v.name) pkey v.name
      else s
    match findVarIn s pkey v.is_transactional v.name with
    | none => .ok (false, s)
    | some v' =>
      let _ ← if key.isSome then check_record_key v' keyType else .ok ()
      match (varHeadState v').value with
      | .record r =>
        let found := (r.rows.find? (fun row => row.1 == key)).isSome
        let r' : RecordVar := { r with rows := r.rows.filter (fun row => row.1 != key) }
        .ok (found, modifyVarIn s pkey v.is_transactional v.name
          (varMutateHead (fun h => { h with value := .record r' })))
      | .scalar _ => .ok (false, s)

/-- `remove_variable`: strict lookups; record the package in the changes
list; a transactional variable is invalidated (with a savepoint if needed)
and the counter maintained, invalidating the package when it empties; a
regular variable is destroyed immediately. -/
def remove_variable (s : Store) (package_name var_name : String) :
    Except PgvError Store := do
  match ← getPackage s package_name true with
  | none => .ok s
  | some pkey =>
  match ← getVariableInternal s pkey var_name InvalidOid false true with
  | none => .ok s
  | some v =>
    let s :=
      match findPack s pkey with
      | some p =>
        if !(isObjectChangedInCurrentTransPack s p) then
          addToChangesStackPack (createSavepointPack s pkey) pkey
        else s
      | none => s
    if v.is_transactional then
      let s :=
        if !(isObjectChangedInCurrentTransVar s v) then
          addToChangesStackVar (createSavepointVar s pkey v.name) pkey v.name
        else s
      let s := modifyVarIn s pkey true v.name (fun v => { v with is_deleted := true })
      let s := modifyVarIn s pkey true v.name
        (varMutateHead (fun h => { h with is_valid := false }))
      let s := modifyPack s pkey
        (packMutateHead (fun h => { h with trans_var_num := h.trans_var_num - 1 }))
      match findPack s pkey with
      | some p =>
        if (packHeadState p).trans_var_num + numOfRegVars p == 0 then
          .ok (modifyPack s pkey (packMutateHead (fun h => { h with is_valid := false })))
        else .ok s
      | none => .ok s
    else
      .ok (removeObjectVar s pkey false v.name)

/-- The marking loop of `removePackageInternal`: every variable whose head
state is valid is marked deleted. -/
def markDeletedIfValid (tbl : List Variable) : List Variable :=
  tbl.map (fun v => if (varHeadState v).is_valid then { v with is_deleted := true } else v)

/-- `removePackageInternal`: mark every valid variable deleted, free the
whole regular table, savepoint the package if needed, then invalidate its
head state and zero the counter. -/
def removePackageInternal (s : Store) (pkey : String) : Store :=
  let s := modifyPack s pkey (fun p =>
    { p with varHashRegular := p.varHashRegular.map markDeletedIfValid,
             varHashTransact := p.varHashTransact.map markDeletedIfValid })
  let s := modifyPack s pkey (fun p => { p with varHashRegular := none })
  let s :=
    match findPack s pkey with
    | some p =>
      if !(isObjectChangedInCurrentTransPack s p) then
        addToChangesStackPack (createSavepointPack s pkey) pkey
      else s
    | none => s
  let s := modifyPack s pkey (packMutateHead (fun h => { h with is_valid := false }))
  modifyPack s pkey (packMutateHead (fun h => { h with trans_var_num := 0 }))

/-- `remove_package`: strict lookup, terminate the scans over the package
(before its regular arena is freed), then `removePackageInternal`. -/
def remove_package (s : Store) (package_name : String) : Except PgvError Store := do
  match ← getPackage s package_name true with
  | none => .ok s
  | some pkey =>
    let s := remove_variables_package s pkey
    .ok (removePackageInternal s pkey)

/-! ### The cursor-safety registry, consumer side -/

/-- Write a consumer `funcctx->user_fctx` cell (upsert; registration
allocates the cell). -/
def setSlot (slots : List (Nat × Bool)) (id : Nat) (b : Bool) : List (Nat × Bool) :=
  if (slots.find? (fun sl => sl.1 == id)).isSome then
    slots.map (fun sl => if sl.1 == id then (sl.1, b) else sl)
  else slots ++ [(id, b)]

/-- Read a consumer `funcctx->user_fctx` cell (`false` = NULL). -/
def slotValue (s : Store) (id : Nat) : Bool :=
  match s.user_fctx_slots.find? (fun sl => sl.1 == id) with
  | some sl => sl.2
  | none => false

/-- The first call of `variable_select`: strict lookups, then register the
scan in `variables_stats` (`lcons`, most recent first) with the current
nest level, pointing the consumer's `user_fctx` at the scan state. -/
def variable_select_register (s : Store) (package_name var_name : String)
    (statusId fctxSlot : Nat) : Except PgvError Store := do
  match ← getPackage s package_name true with
  | none => .ok s
  | some pkey =>
  match ← getVariableInternal s pkey var_name RECORDOID true true with
  | none => .ok s
  | some v =>
    let entry : VariableStatEntry :=
      { status := statusId, package := pkey, varname := v.name,
        level := s.currentLevel, user_fctx := fctxSlot }
    .ok { s with
      variables_stats := entry :: s.variables_stats
      user_fctx_slots := setSlot s.user_fctx_slots fctxSlot true }

/-- The guard at the top of every non-first `variable_select` call
(variable_select lines 1080-1087): the fetch observes "done" iff the
consumer's `user_fctx` back-pointer has been nulled. -/
def fetch_observes_done (s : Store) (fctxSlot : Nat) : Bool :=
  !(slotValue s fctxSlot)

/-! ### Observable state of the transactional objects -/

/-- Observation of one transactional variable: its name (existence), its
head state's validity flag, and its head value (scalar or row set). -/
def obsVar (v : Variable) : String × Bool × VarValue :=
  (v.name, (varHeadState v).is_valid, (varHeadState v).value)

/-- Observation of one package as a transactional object: its name, its
head state's validity flag, and its transactional variables' observations
in table order. -/
def obsPack (p : Package) : String × Bool × List (String × Bool × VarValue) :=
  (p.name, (packHeadState p).is_valid, (p.varHashTransact.getD []).map obsVar)

/-- Observation of every transactional object of the store. -/
def obsStore (s : Store) : List (String × Bool × List (String × Bool × VarValue)) :=
  (s.packagesHash.getD []).map obsPack

/-! ### Concrete scenario stores -/

/-- A 63-character name (one character below `NAMEDATALEN`). -/
def name63 : String := String.mk (List.replicate 63 'a')

/-- Executable unwrapping of a scenario step that is expected to succeed
(the fallback is never reached in the concrete scenarios below, which are
evaluated closed). -/
def okD (r : Except PgvError Store) : Store :=
  match r with
  | .ok s => s
  | .error _ => emptyStore

/-- A store with one transactional record variable `p.t` holding one row,
and one registered `variable_select` scan over it (scan id 0, consumer
slot 0). -/
def c8Store : Store :=
  okD (do
    let s ← variable_insert emptyStore "p" "t" 99 (some 1) 7 true
    variable_select_register s "p" "t" 0 0)

/-- The registry entry created in `c8Store`. -/
def c8entry : VariableStatEntry :=
  { status := 0, package := "p", varname := "t", level := 1, user_fctx := 0 }

/-- C9, counterexample: a 63-character name fits the claimed bound
(`NAMEDATALEN - 1 = 63`), yet `getKeyFromName` rejects it with the
too-long error (`key_len >= NAMEDATALEN - 1`), so such a name is not
accepted by any operation. -/
theorem C9_counterexample :
    name63.length = NAMEDATALEN - 1 ∧
    getKeyFromName name63 = .error (.nameTooLong name63) := by
  constructor
  · rfl
  · rfl

/-- C9 (amended): a name of at most `NAMEDATALEN - 2 = 62` characters is
accepted by `getKeyFromName` (hence by every operation), and a name of
`NAMEDATALEN - 1 = 63` or more characters raises the invalid-parameter
(name too long) error. -/
theorem C9_name_length_bound :
    (∀ name : String, name.length ≤ NAMEDATALEN - 2 → getKeyFromName name = .ok name) ∧
    (∀ name : String, NAMEDATALEN - 1 ≤ name.length →
      getKeyFromName name = .error (.nameTooLong name)) := by
  constructor
  · intro name h
    simp only [getKeyFromName, NAMEDATALEN] at *
    rw [if_neg]
    omega
  · intro name h
    simp only [getKeyFromName, NAMEDATALEN] at *
    rw [if_pos]
    omega

/-- C9, witness: the bound theorem applied at a 2-character name and at the
63-character name. -/
theorem C9_name_length_bound_witness :
    getKeyFromName "ab" = .ok "ab" ∧
    getKeyFromName name63 = .error (.nameTooLong name63) :=
  ⟨C9_name_length_bound.1 "ab" (by decide),
   C9_name_length_bound.2 name63 (by decide)⟩

/-- C8, counterexample: on executor end (`freeStatsLists`), the registered
scan is terminated and the registry is emptied, but the consumer's
`funcctx->user_fctx` back-pointer is not nulled (`freeStatsLists` never
runs the `clear_fctx` callback), so a subsequent fetch does not observe
the sequence as done. -/
theorem C8_counterexample :
    c8Store.variables_stats = [c8entry] ∧
    slotValue c8Store 0 = true ∧
    slotValue (freeStatsLists c8Store) 0 = true ∧
    fetch_observes_done (freeStatsLists c8Store) 0 = false := by
  refine ⟨by decide, by decide, by decide, by decide⟩

/-- C8 (amended): on executor end, on transaction commit and on
transaction abort, `freeStatsLists` terminates every registered scan
(`hash_seq_term`) and resets both registry lists to zero entries; it does
not null the consumers' back-pointers (those are nulled only by the
targeted `list_remove_if` removal paths: scan exhaustion, variable or
package removal, and subtransaction-level cleanup). -/
theorem C8_free_stats_lists :
    ∀ s : Store,
      (freeStatsLists s).variables_stats = [] ∧
      (freeStatsLists s).packages_stats = [] ∧
      (freeStatsLists s).user_fctx_slots = s.user_fctx_slots ∧
      (∀ e ∈ s.variables_stats, e.status ∈ (freeStatsLists s).terminated_scans) ∧
      (∀ e ∈ s.packages_stats, e.status ∈ (freeStatsLists s).terminated_scans) ∧
      (transPreCommit s).variables_stats = [] ∧
      (transPreCommit s).packages_stats = [] ∧
      (transAbort s).variables_stats = [] ∧
      (transAbort s).packages_stats = [] := by
  intro s
  refine ⟨rfl, rfl, rfl, ?_, ?_, rfl, rfl, rfl, rfl⟩
  · intro e he
    simp only [freeStatsLists, List.mem_append, List.mem_map]
    exact Or.inl (Or.inl ⟨e, he, rfl⟩)
  · intro e he
    simp only [freeStatsLists, List.mem_append, List.mem_map]
    exact Or.inl (Or.inr ⟨e, he, rfl⟩)

/-- C8, witness: the amended theorem applied at the concrete store with
one live scan. -/
theorem C8_free_stats_lists_witness :
    (freeStatsLists c8Store).variables_stats = [] ∧
    c8entry.status ∈ (freeStatsLists c8Store).terminated_scans :=
  ⟨(C8_free_stats_lists c8Store).1,
   (C8_free_stats_lists c8Store).2.2.2.1 c8entry (by decide)⟩

/-! ### Lookup / update lemmas -/

theorem find?_map_modify {α : Type} (nm : α → String) (f : α → α) (k : String)
    (hf : ∀ a, nm (f a) = nm a) (tbl : List α) :
    (tbl.map (fun a => if nm a == k then f a else a)).find? (fun a => nm a == k)
      = (tbl.find? (fun a => nm a == k)).map f := by
  induction tbl with
  | nil => rfl
  | cons a t ih =>
    cases h : (nm a == k) with
    | true =>
      simp only [List.map_cons, h, if_true, List.find?_cons, hf a, Option.map_some']
    | false =>
      simp only [List.map_cons, h, Bool.false_eq_true, if_false, List.find?_cons, ih]

theorem find?_map_modify_other {α : Type} (nm : α → String) (f : α → α) (k k' : String)
    (hf : ∀ a, nm (f a) = nm a) (hkk : k ≠ k') (tbl : List α) :
    (tbl.map (fun a => if nm a == k then f a else a)).find? (fun a => nm a == k')
      = tbl.find? (fun a => nm a == k') := by
  induction tbl with
  | nil => rfl
  | cons a t ih =>
    cases h : (nm a == k) with
    | true =>
      have hk : nm a = k := by simpa using h
      have h1 : (nm a == k') = false := by
        simp only [hk, beq_eq_false_iff_ne, ne_eq]
        exact hkk
      have h2 : (nm (f a) == k') = false := by rw [hf a]; exact h1
      simp only [List.map_cons, h, if_true, List.find?_cons, h1, h2, ih]
    | false =>
      simp only [List.map_cons, h, Bool.false_eq_true, if_false, List.find?_cons, ih]

theorem option_map_getD_nil {α : Type} (o : Option (List α)) (g : List α → List α)
    (hg : g [] = []) : (o.map g).getD [] = g (o.getD []) := by
  cases o with
  | none => simp [hg]
  | some l => simp

@[simp]
theorem modifyPack_currentLevel (s : Store) (k : String) (f : Package → Package) :
    (modifyPack s k f).currentLevel = s.currentLevel := rfl

@[simp]
theorem modifyPack_changesStack (s : Store) (k : String) (f : Package → Package) :
    (modifyPack s k f).changesStack = s.changesStack := rfl

theorem findPack_modifyPack_same (s : Store) (k : String) (f : Package → Package)
    (hf : ∀ p, (f p).name = p.name) :
    findPack (modifyPack s k f) k = (findPack s k).map f := by
  unfold findPack modifyPack
  rw [option_map_getD_nil _ _ rfl]
  exact find?_map_modify (fun p => p.name) f k hf _

theorem findPack_modifyPack_other (s : Store) (k k' : String) (f : Package → Package)
    (hf : ∀ p, (f p).name = p.name) (hkk : k ≠ k') :
    findPack (modifyPack s k f) k' = findPack s k' := by
  unfold findPack modifyPack
  rw [option_map_getD_nil _ _ rfl]
  exact find?_map_modify_other (fun p => p.name) f k k' hf hkk _

@[simp]
theorem addToChangesStackUpperLevelPack_packagesHash (s : Store) (pk : String) :
    (addToChangesStackUpperLevelPack s pk).packagesHash = s.packagesHash := by
  unfold addToChangesStackUpperLevelPack
  split <;> rfl

@[simp]
theorem addToChangesStackUpperLevelVar_packagesHash (s : Store) (pk vk : String) :
    (addToChangesStackUpperLevelVar s pk vk).packagesHash = s.packagesHash := by
  unfold addToChangesStackUpperLevelVar
  split <;> rfl

theorem findPack_addUpperPack (s : Store) (pk k : String) :
    findPack (addToChangesStackUpperLevelPack s pk) k = findPack s k := by
  unfold findPack
  rw [addToChangesStackUpperLevelPack_packagesHash]

/-- C6: on rollback, when popping the package's head state empties its
stack while regular variables remain, a fresh valid state is synthesized
at `currentLevel - 1` (with zero counted transactional variables, the
tables untouched) and the package is pushed onto the parent changes-stack
frame when one exists, so the package survives. -/
theorem C6_package_survives_rollback (s : Store) (pkey : String) (p : Package)
    (st : PackState) (hfind : findPack s pkey = some p) (hst : p.states = [st])
    (hreg : 0 < numOfRegVars p) :
    (∃ p', findPack (rollbackSavepointPack s pkey) pkey = some p' ∧
        p'.states = [{ level := s.currentLevel - 1, is_valid := true, trans_var_num := 0 }] ∧
        p'.varHashRegular = p.varHashRegular ∧
        p'.varHashTransact = p.varHashTransact) ∧
    (∀ fr rest, s.changesStack = some (fr :: rest) →
      ∃ fr', (rollbackSavepointPack s pkey).changesStack = some (fr' :: rest) ∧
        fr'.changedPacksList = pkey :: fr.changedPacksList ∧
        fr'.changedVarsList = fr.changedVarsList) := by
  have hne : p.states.isEmpty = false := by rw [hst]; rfl
  have hpop : findPack (modifyPack s pkey (fun p => { p with states := p.states.tail })) pkey
      = some { p with states := p.states.tail } := by
    rw [findPack_modifyPack_same s pkey (fun p => { p with states := p.states.tail })
      (fun q => rfl), hfind]
    rfl
  have hemp : ({ p with states := p.states.tail } : Package).states.isEmpty = true := by
    rw [hst]
    rfl
  have hreg' : numOfRegVars { p with states := p.states.tail } > 0 := hreg
  set s1 := modifyPack s pkey (fun p => { p with states := p.states.tail }) with hs1
  set s2 := modifyPack s1 pkey (fun p => { p with states := [initObjectHistoryPackState] })
    with hs2
  set s3 := modifyPack s2 pkey
    (packMutateHead fun h => { h with level := s.currentLevel - 1 }) with hs3
  have hcl2 : s2.currentLevel = s.currentLevel := rfl
  have hstack3 : s3.changesStack = s.changesStack := rfl
  have hf2 : findPack s2 pkey = some { p with states := [initObjectHistoryPackState] } := by
    rw [hs2, findPack_modifyPack_same s1 pkey
      (fun p => { p with states := [initObjectHistoryPackState] }) (fun q => rfl), hs1, hpop]
    rfl
  have hf3 : findPack s3 pkey = some
      { p with states := [{ level := s.currentLevel - 1, is_valid := true,
                            trans_var_num := 0 }] } := by
    have hmut : ∀ q : Package,
        (packMutateHead (fun h => { h with level := s.currentLevel - 1 }) q).name = q.name := by
      intro q
      unfold packMutateHead
      cases q.states <;> rfl
    rw [hs3, findPack_modifyPack_same s2 pkey
      (packMutateHead fun h => { h with level := s.currentLevel - 1 }) hmut, hf2]
    rfl
  have hmain : rollbackSavepointPack s pkey =
      if (s.changesStack.getD []).isEmpty then s3
      else addToChangesStackUpperLevelPack s3 pkey := by
    simp only [rollbackSavepointPack, hfind, hne, Bool.false_eq_true, if_false]
    rw [← hs1, hpop]
    simp only [hemp, if_true]
    rw [if_pos hreg']
    rw [← hs2, hcl2, ← hs3, hstack3]
  constructor
  · rw [hmain]
    by_cases hc : (s.changesStack.getD []).isEmpty = true
    · rw [if_pos hc]
      exact ⟨_, hf3, rfl, rfl, rfl⟩
    · rw [if_neg hc, findPack_addUpperPack]
      exact ⟨_, hf3, rfl, rfl, rfl⟩
  · intro fr rest hcs
    rw [hmain, if_neg (by rw [hcs]; simp)]
    refine ⟨{ fr with changedPacksList := pkey :: fr.changedPacksList }, ?_, rfl, rfl⟩
    unfold addToChangesStackUpperLevelPack
    rw [hstack3, hcs]

/-! ### Variable-table lookup / update lemmas -/

theorem pack_htab_set_pack_htab (p : Package) (tr : Bool) (tbl : Option (List Variable)) :
    pack_htab (set_pack_htab p tr tbl) tr = tbl := by
  cases tr <;> rfl

theorem set_pack_htab_name (p : Package) (tr : Bool) (tbl : Option (List Variable)) :
    (set_pack_htab p tr tbl).name = p.name := by
  cases tr <;> rfl

theorem set_pack_htab_states (p : Package) (tr : Bool) (tbl : Option (List Variable)) :
    (set_pack_htab p tr tbl).states = p.states := by
  cases tr <;> rfl

@[simp]
theorem modifyVarIn_currentLevel (s : Store) (pk : String) (tr : Bool) (vk : String)
    (f : Variable → Variable) : (modifyVarIn s pk tr vk f).currentLevel = s.currentLevel := rfl

@[simp]
theorem modifyVarIn_changesStack (s : Store) (pk : String) (tr : Bool) (vk : String)
    (f : Variable → Variable) : (modifyVarIn s pk tr vk f).changesStack = s.changesStack := rfl

theorem findVarIn_modifyVarIn_same (s : Store) (pk : String) (tr : Bool) (vk : String)
    (f : Variable → Variable) (hf : ∀ v, (f v).name = v.name) :
    findVarIn (modifyVarIn s pk tr vk f) pk tr vk = (findVarIn s pk tr vk).map f := by
  unfold findVarIn modifyVarIn
  rw [findPack_modifyPack_same s pk _ (fun q => set_pack_htab_name _ _ _)]
  cases hfp : findPack s pk with
  | none => rfl
  | some p =>
    simp only [Option.map_some']
    rw [pack_htab_set_pack_htab]
    cases htab : pack_htab p tr with
    | none => rfl
    | some tbl =>
      simp only [Option.map_some']
      exact find?_map_modify (fun v => v.name) f vk hf tbl

theorem findVarIn_addUpperVar (s : Store) (pk vk : String) (pk' : String) (tr : Bool)
    (vk' : String) :
    findVarIn (addToChangesStackUpperLevelVar s pk vk) pk' tr vk' = findVarIn s pk' tr vk' := by
  unfold findVarIn findPack
  rw [addToChangesStackUpperLevelVar_packagesHash]

/-- Default values used only to extract concrete components in witnesses. -/
def defaultPackage : Package :=
  { name := "", varHashRegular := none, varHashTransact := none, states := [] }

/-- Default variable for witness extraction. -/
def defaultVariable : Variable :=
  { name := "", typid := 0, is_record := false, is_transactional := false,
    is_deleted := false, states := [] }

/-- A store holding one regular scalar variable `p.r`, set at top level
(the package has a single state and one regular variable). -/
def c6Store : Store := okD (variable_set emptyStore "p" "r" 25 1 false false)

/-- The package of `c6Store`. -/
def c6Pack : Package := (findPack c6Store "p").getD defaultPackage

/-- C6, witness: the rollback-survival theorem applied to the concrete
store with one regular variable. -/
theorem C6_package_survives_rollback_witness :
    ∃ p', findPack (rollbackSavepointPack c6Store "p") "p" = some p' ∧
      p'.states = [{ level := c6Store.currentLevel - 1, is_valid := true,
                     trans_var_num := 0 }] ∧
      p'.varHashRegular = c6Pack.varHashRegular ∧
      p'.varHashTransact = c6Pack.varHashTransact :=
  (C6_package_survives_rollback c6Store "p" c6Pack
    ((c6Pack.states).headD { level := 0, is_valid := false, trans_var_num := 0 })
    (by decide) (by decide) (by decide)).1

/-! ### The two-level commit scenario (spec scenario 3) -/

/-- `BEGIN; set('p','x',1,true); SAVEPOINT s; set('p','x',2,true);
RELEASE s; COMMIT;` -/
def c2Store : Store :=
  okD (do
    let s ← variable_set emptyStore "p" "x" 25 1 false true
    let s := subTransStart s
    let s ← variable_set s "p" "x" 25 2 false true
    let s := subTransCommit s
    .ok (transPreCommit s))

/-- C2: in the two-level scenario, exactly one state remains, holding the
inner value 2 at nest level 0; and in general, `releaseSavepoint` on a
variable discards the state beneath the head when one exists at the parent
level, and otherwise promotes the head to the parent level, appending the
variable to the parent changes-stack frame. -/
theorem C2_release_folds :
    ((findVarIn c2Store "p" true "x").map (fun v => v.states))
      = some [{ level := 0, is_valid := true,
                value := .scalar { value := 2, is_null := false } }] ∧
    (∀ (s : Store) (pkey vkey : String) (v : Variable) (h b : VarState)
        (t : List VarState),
      findVarIn s pkey true vkey = some v →
      v.states = h :: b :: t →
      h.is_valid = true →
      h.level = s.currentLevel →
      b.level = s.currentLevel - 1 →
      ((findVarIn (releaseSavepointVar s pkey vkey) pkey true vkey).map
          (fun v => v.states))
        = some ({ h with level := h.level - 1 } :: t)) ∧
    (∀ (s : Store) (pkey vkey : String) (v : Variable) (h : VarState)
        (t : List VarState) (fr : ChangesStackNode) (rest : List ChangesStackNode),
      findVarIn s pkey true vkey = some v →
      v.states = h :: t →
      h.is_valid = true →
      h.level = s.currentLevel →
      isObjectChangedInUpperTransVar s v = false →
      s.changesStack = some (fr :: rest) →
      ((findVarIn (releaseSavepointVar s pkey vkey) pkey true vkey).map
          (fun v => v.states))
        = some ({ h with level := h.level - 1 } :: t) ∧
      ∃ fr', (releaseSavepointVar s pkey vkey).changesStack = some (fr' :: rest) ∧
        fr'.changedVarsList = (pkey, vkey) :: fr.changedVarsList ∧
        fr'.changedPacksList = fr.changedPacksList) := by
  refine ⟨by decide, ?_, ?_⟩
  · intro s pkey vkey v h b t hfind hst hvalid hlvl hblvl
    have hhead : varHeadState v = h := by
      unfold varHeadState
      rw [hst]
      rfl
    have hch : isObjectChangedInUpperTransVar s v = true := by
      unfold isObjectChangedInUpperTransVar isObjectChangedInUpperTransLevels
      rw [hst]
      simp only [List.map_cons]
      rw [if_pos (by simp [hlvl])]
      simp [hblvl]
    have hdrop : dropSecondVarState v = { v with states := h :: t } := by
      simp only [dropSecondVarState, hst]
    have hcond : (!(varHeadState v).is_valid
        && (v.states.length == 1 || (s.changesStack.getD []).isEmpty)) = false := by
      rw [hhead, hvalid]
      rfl
    unfold releaseSavepointVar
    rw [hfind]
    simp only [hcond, Bool.false_eq_true, if_false, hch, if_true]
    rw [findVarIn_modifyVarIn_same _ _ _ _ _ (fun v => by
      unfold varMutateHead
      cases v.states <;> rfl)]
    rw [findVarIn_modifyVarIn_same _ _ _ _ _ (fun v => by
      unfold dropSecondVarState
      cases hv : v.states with
      | nil => rfl
      | cons a l => cases l <;> rfl)]
    rw [hfind]
    simp only [Option.map_some', hdrop]
    unfold varMutateHead
    rfl
  · intro s pkey vkey v h t fr rest hfind hst hvalid hlvl hch hcs
    have hhead : varHeadState v = h := by
      unfold varHeadState
      rw [hst]
      rfl
    have hne : ((s.changesStack.getD []).isEmpty) = false := by
      rw [hcs]
      rfl
    have hstep : releaseSavepointVar s pkey vkey =
        modifyVarIn (addToChangesStackUpperLevelVar s pkey vkey) pkey true vkey
          (varMutateHead (fun h => { h with level := h.level - 1 })) := by
      unfold releaseSavepointVar
      rw [hfind]
      simp only [hhead, hvalid, Bool.not_true, Bool.false_and, Bool.false_eq_true, if_false,
        hch, hne, Bool.not_false, if_true]
    constructor
    · rw [hstep]
      rw [findVarIn_modifyVarIn_same _ _ _ _ _ (fun v => by
        unfold varMutateHead
        cases v.states <;> rfl)]
      rw [findVarIn_addUpperVar, hfind]
      simp only [Option.map_some']
      unfold varMutateHead
      rw [hst]
    · refine ⟨{ fr with changedVarsList := (pkey, vkey) :: fr.changedVarsList }, ?_, rfl, rfl⟩
      rw [hstep]
      rw [modifyVarIn_changesStack]
      unfold addToChangesStackUpperLevelVar
      rw [hcs]

/-- C2, witness: the release rule applied inside the concrete scenario:
at the moment of `RELEASE s`, the variable `x` has two states (level 2
over level 1), so the parent state is discarded. -/
def c2MidStore : Store :=
  okD (do
    let s ← variable_set emptyStore "p" "x" 25 1 false true
    let s := subTransStart s
    variable_set s "p" "x" 25 2 false true)

/-- The variable `x` right before the release in the scenario. -/
def c2MidVar : Variable := (findVarIn c2MidStore "p" true "x").getD defaultVariable

theorem C2_release_folds_witness :
    ((findVarIn c2Store "p" true "x").map (fun v => v.states))
      = some [{ level := 0, is_valid := true,
                value := .scalar { value := 2, is_null := false } }] ∧
    ((findVarIn (releaseSavepointVar c2MidStore "p" "x") "p" true "x").map
        (fun v => v.states))
      = some [{ level := 1, is_valid := true,
                value := .scalar { value := 2, is_null := false } }] := by
  refine ⟨C2_release_folds.1, ?_⟩
  have h := C2_release_folds.2.1 c2MidStore "p" "x" c2MidVar
    { level := 2, is_valid := true, value := .scalar { value := 2, is_null := false } }
    { level := 1, is_valid := true, value := .scalar { value := 1, is_null := false } }
    [] (by decide) (by decide) (by decide) (by decide) (by decide)
  exact h

/-! ### Name-length helper -/

theorem getKeyFromName_ok (name : String) (h : name.length ≤ NAMEDATALEN - 2) :
    getKeyFromName name = .ok name := by
  unfold getKeyFromName NAMEDATALEN
  rw [if_neg]
  unfold NAMEDATALEN at h
  omega

/-- C7: creating or setting a variable whose name already exists in the
package's table of the opposite transactionality raises the
transactionality conflict, in both directions (`is_trans` quantified), and
the failed call returns only the error: the reverse check runs before any
mutation of the store (`createVariableInternal` raises before its
`HASH_ENTER`), so the store is left unchanged. -/
theorem C7_transactionality_conflict :
    ∀ (s : Store) (pkey name : String) (typid : Nat) (is_rec is_trans : Bool)
      (p : Package) (tbl : List Variable),
      name.length ≤ NAMEDATALEN - 2 →
      findPack s pkey = some p →
      pack_htab p (!is_trans) = some tbl →
      (findVar tbl name).isSome = true →
      createVariableInternal s pkey name typid is_rec is_trans
        = .error (.transactionalityConflict name (!is_trans)) := by
  intro s pkey name typid is_rec is_trans p tbl hlen hfp hhtab hfound
  unfold createVariableInternal
  rw [getKeyFromName_ok name hlen]
  simp only [bind, Except.bind, hfp, hhtab, hfound, if_true]

/-! ### The valid-transactional-variable counter (invariant 4) -/

/-- Number of variables of a table whose head state is valid. -/
def countValid (tbl : List Variable) : Nat :=
  (tbl.filter (fun v => (varHeadState v).is_valid)).length

/-- Number of transactional variables of a package whose head state is
valid. -/
def validTransVarCount (p : Package) : Int :=
  (countValid (p.varHashTransact.getD []) : Int)

/-- Invariant 4 of the spec: the head state's counter equals the number of
valid transactional variables. -/
def packCounterInvariant (p : Package) : Prop :=
  (packHeadState p).trans_var_num = validTransVarCount p

instance (p : Package) : Decidable (packCounterInvariant p) := by
  unfold packCounterInvariant
  infer_instance

theorem countValid_map_preserve (tbl : List Variable) (g : Variable → Variable)
    (hg : ∀ v, (varHeadState (g v)).is_valid = (varHeadState v).is_valid) :
    countValid (tbl.map g) = countValid tbl := by
  unfold countValid
  induction tbl with
  | nil => rfl
  | cons a t ih =>
    simp only [List.map_cons, List.filter_cons, hg a]
    cases h : (varHeadState a).is_valid
    · simpa using ih
    · simpa using ih

theorem countValid_append (t1 t2 : List Variable) :
    countValid (t1 ++ t2) = countValid t1 + countValid t2 := by
  unfold countValid
  rw [List.filter_append, List.length_append]

/-- Setting the head validity of the (unique) entry named `key` changes
the count by the difference of validity bits. -/
theorem countValid_set_validity (tbl : List Variable) (key : String) (b : Bool)
    (v : Variable) (hnodup : (tbl.map (fun v => v.name)).Nodup)
    (hfind : findVar tbl key = some v) (hvne : v.states ≠ []) :
    (countValid (modifyVar tbl key (varMutateHead fun h => { h with is_valid := b })) : Int)
      = (countValid tbl : Int)
        + (if b then 1 else 0) - (if (varHeadState v).is_valid then 1 else 0) := by
  induction tbl with
  | nil => exact absurd hfind (by simp [findVar])
  | cons a t ih =>
    cases h : (a.name == key) with
    | true =>
      have hv : v = a := by
        unfold findVar at hfind
        rw [List.find?_cons] at hfind
        simp only [h] at hfind
        injection hfind with h'
        exact h'.symm
      have hval : (varHeadState (varMutateHead (fun h => { h with is_valid := b }) a)).is_valid
          = b := by
        unfold varMutateHead varHeadState
        cases hs : a.states with
        | nil => exact absurd (hv ▸ hs) hvne
        | cons hd tl => rfl
      have hnot : ∀ w ∈ t, (w.name == key) = false := by
        intro w hw
        have ha : a.name = key := by simpa using h
        have hne2 : w.name ≠ a.name := by
          intro he
          rw [List.map_cons, List.nodup_cons] at hnodup
          exact hnodup.1 (he ▸ List.mem_map_of_mem (fun v => v.name) hw)
        rw [ha] at hne2
        simp [hne2]
      have hrest : modifyVar t key (varMutateHead fun h => { h with is_valid := b }) = t := by
        unfold modifyVar
        conv_rhs => rw [← List.map_id t]
        apply List.map_congr_left
        intro w hw
        rw [if_neg (by simp [hnot w hw])]
        rfl
      have hcv : modifyVar (a :: t) key (varMutateHead fun h => { h with is_valid := b })
          = (varMutateHead (fun h => { h with is_valid := b }) a) :: t := by
        unfold modifyVar at hrest ⊢
        simp only [List.map_cons, h, if_true, hrest]
      rw [hcv, hv]
      unfold countValid
      simp only [List.filter_cons, hval]
      cases hb : b <;> cases hav : (varHeadState a).is_valid <;>
        · simp only [Bool.false_eq_true, if_false, if_true, List.length_cons, hav, hb]
          push_cast
          omega
    | false =>
      have hfind' : findVar t key = some v := by
        unfold findVar at hfind ⊢
        rw [List.find?_cons] at hfind
        simpa only [h] using hfind
      have hnodup' : (t.map (fun v => v.name)).Nodup := by
        rw [List.map_cons, List.nodup_cons] at hnodup
        exact hnodup.2
      have hcv : modifyVar (a :: t) key (varMutateHead fun h => { h with is_valid := b })
          = a :: modifyVar t key (varMutateHead fun h => { h with is_valid := b }) := by
        unfold modifyVar
        simp only [List.map_cons, h, Bool.false_eq_true, if_false]
      rw [hcv]
      unfold countValid at *
      simp only [List.filter_cons]
      cases hav : (varHeadState a).is_valid
      · simpa using ih hnodup' hfind'
      · have := ih hnodup' hfind'
        simp only [if_true, List.length_cons]
        push_cast at this ⊢
        omega

/-- The pair (head counter, valid-transactional count) of a package. -/
def invMeasure (p : Package) : Int × Int :=
  ((packHeadState p).trans_var_num, validTransVarCount p)

/-- The measure of the package named `pk` in the store. -/
def invMeasureAt (s : Store) (pk : String) : Option (Int × Int) :=
  (findPack s pk).map invMeasure

@[simp]
theorem prepareChangesStack_packagesHash (s : Store) :
    (prepareChangesStack s).packagesHash = s.packagesHash := by
  unfold prepareChangesStack
  split <;> rfl

@[simp]
theorem prepareChangesStack_currentLevel (s : Store) :
    (prepareChangesStack s).currentLevel = s.currentLevel := by
  unfold prepareChangesStack
  split <;> rfl

theorem findPack_eq_of_packagesHash (s s' : Store)
    (h : s'.packagesHash = s.packagesHash) (k : String) :
    findPack s' k = findPack s k := by
  unfold findPack
  rw [h]

theorem invMeasureAt_eq_of_packagesHash (s s' : Store)
    (h : s'.packagesHash = s.packagesHash) (k : String) :
    invMeasureAt s' k = invMeasureAt s k := by
  unfold invMeasureAt
  rw [findPack_eq_of_packagesHash s s' h]

theorem invMeasureAt_modifyPack_preserve (s : Store) (pk : String) (f : Package → Package)
    (hfn : ∀ p, (f p).name = p.name) (hfm : ∀ p, invMeasure (f p) = invMeasure p)
    (k : String) : invMeasureAt (modifyPack s pk f) k = invMeasureAt s k := by
  unfold invMeasureAt
  by_cases hk : k = pk
  · subst hk
    rw [findPack_modifyPack_same s k f hfn]
    cases findPack s k with
    | none => rfl
    | some p => simp only [Option.map_some', hfm p]
  · rw [findPack_modifyPack_other s pk k f hfn (fun he => hk he.symm)]

theorem invMeasure_mutateHeadLevelConst (lvl : Nat) (p : Package) :
    invMeasure (packMutateHead (fun h => { h with level := lvl }) p) = invMeasure p := by
  obtain ⟨nm, vr, vt, sts⟩ := p
  cases sts <;> rfl

theorem invMeasure_createSavepointPackObj (p : Package) :
    invMeasure (createSavepointPackObj p) = invMeasure p := by
  obtain ⟨nm, vr, vt, sts⟩ := p
  cases sts <;> rfl

theorem invMeasureAt_addToChangesStackPack (s : Store) (pk k : String) :
    invMeasureAt (addToChangesStackPack s pk) k = invMeasureAt s k := by
  unfold addToChangesStackPack
  have hp : invMeasureAt (prepareChangesStack s) k = invMeasureAt s k :=
    invMeasureAt_eq_of_packagesHash s _ (prepareChangesStack_packagesHash s) k
  cases hf : findPack (prepareChangesStack s) pk with
  | none =>
    simp only [hf]
    exact hp
  | some p =>
    by_cases hch : isObjectChangedInCurrentTransPack (prepareChangesStack s) p = true
    · simp only [hf, hch, if_true]
      exact hp
    · have hch' : isObjectChangedInCurrentTransPack (prepareChangesStack s) p = false :=
        Bool.eq_false_iff.mpr (fun he => hch he)
      set s1 := prepareChangesStack s with hs1
      have hfr : ∀ s2 : Store, s2.packagesHash = s1.packagesHash →
          invMeasureAt (modifyPack s2 pk
            (packMutateHead fun h => { h with level := s1.currentLevel })) k
          = invMeasureAt s k := by
        intro s2 h2
        rw [invMeasureAt_modifyPack_preserve s2 pk _
          (fun p => by unfold packMutateHead; cases p.states <;> rfl)
          (fun p => invMeasure_mutateHeadLevelConst s1.currentLevel p) k]
        rw [invMeasureAt_eq_of_packagesHash s1 s2 h2 k]
        rw [hs1]
        exact invMeasureAt_eq_of_packagesHash s _ (prepareChangesStack_packagesHash s) k
      simp only [hf, hch', Bool.false_eq_true, if_false]
      cases hcs : s1.changesStack with
      | none =>
        simp only [hcs]
        exact hfr s1 rfl
      | some l =>
        cases l with
        | nil =>
          simp only [hcs]
          exact hfr s1 rfl
        | cons fr rest =>
          simp only [hcs]
          exact hfr _ rfl

theorem invMeasureAt_createSavepointPack (s : Store) (pk k : String) :
    invMeasureAt (createSavepointPack s pk) k = invMeasureAt s k := by
  unfold createSavepointPack
  exact invMeasureAt_modifyPack_preserve s pk _
    (fun p => by unfold createSavepointPackObj; cases p.states <;> rfl)
    invMeasure_createSavepointPackObj k

theorem invMeasureAt_modifyVarIn_preserve (s : Store) (pk : String) (tr : Bool) (vk : String)
    (f : Variable → Variable) (hfn : ∀ v, (f v).name = v.name)
    (hfv : ∀ v, (varHeadState (f v)).is_valid = (varHeadState v).is_valid)
    (k : String) : invMeasureAt (modifyVarIn s pk tr vk f) k = invMeasureAt s k := by
  unfold modifyVarIn
  apply invMeasureAt_modifyPack_preserve
  · intro p
    exact set_pack_htab_name _ _ _
  · intro p
    unfold invMeasure validTransVarCount packHeadState
    rw [set_pack_htab_states]
    congr 1
    cases tr with
    | false => rfl
    | true =>
      show (countValid (((p.varHashTransact).map
        (fun tbl => modifyVar tbl vk f)).getD []) : Int) = _
      cases p.varHashTransact with
      | none => rfl
      | some tbl =>
        simp only [Option.map_some', Option.getD_some]
        congr 1
        unfold modifyVar
        apply countValid_map_preserve
        intro v
        by_cases hv : (v.name == vk) = true
        · rw [if_pos hv]
          exact hfv v
        · rw [if_neg hv]

theorem invMeasureAt_addToChangesStackVar (s : Store) (pk vk k : String) :
    invMeasureAt (addToChangesStackVar s pk vk) k = invMeasureAt s k := by
  unfold addToChangesStackVar
  have hp : invMeasureAt (prepareChangesStack s) k = invMeasureAt s k :=
    invMeasureAt_eq_of_packagesHash s _ (prepareChangesStack_packagesHash s) k
  cases hf : findVarIn (prepareChangesStack s) pk true vk with
  | none =>
    simp only [hf]
    exact hp
  | some v =>
    by_cases hch : isObjectChangedInCurrentTransVar (prepareChangesStack s) v = true
    · simp only [hf, hch, if_true]
      exact hp
    · have hch' : isObjectChangedInCurrentTransVar (prepareChangesStack s) v = false :=
        Bool.eq_false_iff.mpr (fun he => hch he)
      set s1 := prepareChangesStack s with hs1
      have hfr : ∀ s2 : Store, s2.packagesHash = s1.packagesHash →
          invMeasureAt (modifyVarIn s2 pk true vk
            (varMutateHead fun h => { h with level := s1.currentLevel })) k
          = invMeasureAt s k := by
        intro s2 h2
        rw [invMeasureAt_modifyVarIn_preserve s2 pk true vk _
          (fun v => by obtain ⟨nm, ty, ir, itr, idel, sts⟩ := v; cases sts <;> rfl)
          (fun v => by obtain ⟨nm, ty, ir, itr, idel, sts⟩ := v; cases sts <;> rfl) k]
        rw [invMeasureAt_eq_of_packagesHash s1 s2 h2 k]
        rw [hs1]
        exact hp
      simp only [hf, hch', Bool.false_eq_true, if_false]
      cases hcs : s1.changesStack with
      | none =>
        simp only [hcs]
        exact hfr s1 rfl
      | some l =>
        cases l with
        | nil =>
          simp only [hcs]
          exact hfr s1 rfl
        | cons fr rest =>
          simp only [hcs]
          exact hfr _ rfl

theorem invMeasureAt_createSavepointVar (s : Store) (pk vk k : String) :
    invMeasureAt (createSavepointVar s pk vk) k = invMeasureAt s k := by
  unfold createSavepointVar
  apply invMeasureAt_modifyVarIn_preserve
  · intro v
    obtain ⟨nm, ty, ir, itr, idel, sts⟩ := v
    cases sts <;> rfl
  · intro v
    obtain ⟨nm, ty, ir, itr, idel, sts⟩ := v
    cases sts <;> rfl

/-! ### Generic projection stability lemmas -/

theorem findPack_proj_modifyPack {β : Type} (φ : Package → β) (s : Store) (pk : String)
    (f : Package → Package) (hfn : ∀ p, (f p).name = p.name)
    (hφf : ∀ p, φ (f p) = φ p) (k : String) :
    (findPack (modifyPack s pk f) k).map φ = (findPack s k).map φ := by
  by_cases hk : k = pk
  · subst hk
    rw [findPack_modifyPack_same s k f hfn]
    cases findPack s k with
    | none => rfl
    | some p => simp only [Option.map_some', hφf p]
  · rw [findPack_modifyPack_other s pk k f hfn (fun he => hk he.symm)]

theorem findPack_proj_addToChangesStackPack {β : Type} (φ : Package → β)
    (hφ : ∀ lvl p, φ (packMutateHead (fun h => { h with level := lvl }) p) = φ p)
    (s : Store) (pk k : String) :
    (findPack (addToChangesStackPack s pk) k).map φ = (findPack s k).map φ := by
  unfold addToChangesStackPack
  have hp : findPack (prepareChangesStack s) k = findPack s k :=
    findPack_eq_of_packagesHash s _ (prepareChangesStack_packagesHash s) k
  cases hf : findPack (prepareChangesStack s) pk with
  | none =>
    simp only [hf]
    rw [hp]
  | some p =>
    by_cases hch : isObjectChangedInCurrentTransPack (prepareChangesStack s) p = true
    · simp only [hf, hch, if_true]
      rw [hp]
    · have hch' : isObjectChangedInCurrentTransPack (prepareChangesStack s) p = false :=
        Bool.eq_false_iff.mpr (fun he => hch he)
      set s1 := prepareChangesStack s with hs1
      have hfr : ∀ s2 : Store, s2.packagesHash = s1.packagesHash →
          ((findPack (modifyPack s2 pk
              (packMutateHead fun h => { h with level := s1.currentLevel })) k).map φ)
            = (findPack s k).map φ := by
        intro s2 h2
        rw [findPack_proj_modifyPack φ s2 pk _
          (fun p => by unfold packMutateHead; cases p.states <;> rfl)
          (fun p => hφ s1.currentLevel p) k]
        rw [findPack_eq_of_packagesHash s1 s2 h2 k]
        rw [hs1, hp]
      simp only [hf, hch', Bool.false_eq_true, if_false]
      cases hcs : s1.changesStack with
      | none =>
        simp only [hcs]
        exact hfr s1 rfl
      | some l =>
        cases l with
        | nil =>
          simp only [hcs]
          exact hfr s1 rfl
        | cons fr rest =>
          simp only [hcs]
          exact hfr _ rfl

/-- The two variable tables of a package. -/
def packTables (p : Package) : Option (List Variable) × Option (List Variable) :=
  (p.varHashRegular, p.varHashTransact)

/-- Head validity of a variable is unchanged by the deleted-marking. -/
theorem varHeadState_mark_valid (v : Variable) :
    (varHeadState (if (varHeadState v).is_valid
      then { v with is_deleted := true } else v)).is_valid = (varHeadState v).is_valid := by
  by_cases hv : (varHeadState v).is_valid = true
  · rw [if_pos hv]
    obtain ⟨nm, ty, ir, itr, idel, sts⟩ := v
    cases sts <;> rfl
  · rw [if_neg hv]

theorem packMutateHead_varHashTransact (q : Package) (g : PackState → PackState) :
    (packMutateHead g q).varHashTransact = q.varHashTransact := by
  obtain ⟨nm, vr, vt, sts⟩ := q
  cases sts <;> rfl

theorem packMutateHead_varHashRegular (q : Package) (g : PackState → PackState) :
    (packMutateHead g q).varHashRegular = q.varHashRegular := by
  obtain ⟨nm, vr, vt, sts⟩ := q
  cases sts <;> rfl

theorem packTables_packMutateHead (q : Package) (g : PackState → PackState) :
    packTables (packMutateHead g q) = packTables q := by
  unfold packTables
  rw [packMutateHead_varHashTransact, packMutateHead_varHashRegular]

/-- `removePackageInternal` zeroes the counter and invalidates the head
state while the head validity of every transactional variable stays as it
was (variables are only marked deleted); the regular table is dropped. -/
theorem removePackageInternal_effect (s : Store) (pkey : String) (p : Package)
    (hfind : findPack s pkey = some p) :
    ∃ p', findPack (removePackageInternal s pkey) pkey = some p' ∧
      (packHeadState p').trans_var_num = 0 ∧
      (packHeadState p').is_valid = false ∧
      p'.varHashRegular = none ∧
      ((p'.varHashTransact.getD []).map (fun v => (varHeadState v).is_valid))
        = ((p.varHashTransact.getD []).map (fun v => (varHeadState v).is_valid)) ∧
      validTransVarCount p' = validTransVarCount p := by
  have hf2 : findPack (modifyPack (modifyPack s pkey (fun p =>
      { p with varHashRegular := p.varHashRegular.map markDeletedIfValid,
               varHashTransact := p.varHashTransact.map markDeletedIfValid }))
      pkey (fun p => { p with varHashRegular := none })) pkey = some
      { p with varHashRegular := none,
               varHashTransact := p.varHashTransact.map markDeletedIfValid } := by
    rw [findPack_modifyPack_same _ pkey (fun p => { p with varHashRegular := none })
      (fun q => rfl)]
    rw [findPack_modifyPack_same s pkey (fun p =>
      { p with varHashRegular := p.varHashRegular.map markDeletedIfValid,
               varHashTransact := p.varHashTransact.map markDeletedIfValid })
      (fun q => rfl)]
    rw [hfind]
    rfl
  have hconsume : ∀ B : Store,
      (findPack B pkey).map packTables
        = some (none, p.varHashTransact.map markDeletedIfValid) →
      ∃ p', findPack (modifyPack (modifyPack B pkey
          (packMutateHead fun h => { h with is_valid := false })) pkey
          (packMutateHead fun h => { h with trans_var_num := 0 })) pkey = some p' ∧
        (packHeadState p').trans_var_num = 0 ∧
        (packHeadState p').is_valid = false ∧
        p'.varHashRegular = none ∧
        ((p'.varHashTransact.getD []).map (fun v => (varHeadState v).is_valid))
          = ((p.varHashTransact.getD []).map (fun v => (varHeadState v).is_valid)) ∧
        validTransVarCount p' = validTransVarCount p := by
    intro B hB
    cases hf3 : findPack B pkey with
    | none =>
      rw [hf3] at hB
      exact absurd hB (by simp)
    | some p3 =>
      rw [hf3] at hB
      simp only [Option.map_some'] at hB
      rw [Option.some_inj] at hB
      have hreg3 : p3.varHashRegular = none := by
        have h1 := congrArg Prod.fst hB
        simpa [packTables] using h1
      have htr3 : p3.varHashTransact = p.varHashTransact.map markDeletedIfValid := by
        have h1 := congrArg Prod.snd hB
        simpa [packTables] using h1
      refine ⟨packMutateHead (fun h => { h with trans_var_num := 0 })
        (packMutateHead (fun h => { h with is_valid := false }) p3), ?_, ?_, ?_, ?_, ?_, ?_⟩
      · rw [findPack_modifyPack_same _ pkey _
          (fun q => by unfold packMutateHead; cases q.states <;> rfl)]
        rw [findPack_modifyPack_same B pkey _
          (fun q => by unfold packMutateHead; cases q.states <;> rfl)]
        rw [hf3]
        rfl
      · obtain ⟨nm, vr, vt, sts⟩ := p3
        cases sts <;> rfl
      · obtain ⟨nm, vr, vt, sts⟩ := p3
        cases sts <;> rfl
      · rw [packMutateHead_varHashRegular, packMutateHead_varHashRegular]
        exact hreg3
      · rw [packMutateHead_varHashTransact, packMutateHead_varHashTransact, htr3]
        cases hvt : p.varHashTransact with
        | none => rfl
        | some tbl =>
          simp only [Option.map_some', Option.getD_some]
          unfold markDeletedIfValid
          rw [List.map_map]
          apply List.map_congr_left
          intro v hv
          simp only [Function.comp_apply]
          exact varHeadState_mark_valid v
      · unfold validTransVarCount
        rw [packMutateHead_varHashTransact, packMutateHead_varHashTransact, htr3]
        cases hvt : p.varHashTransact with
        | none => rfl
        | some tbl =>
          simp only [Option.map_some', Option.getD_some]
          congr 1
          exact countValid_map_preserve tbl _ varHeadState_mark_valid
  simp only [removePackageInternal, hf2]
  by_cases hch : isObjectChangedInCurrentTransPack (modifyPack (modifyPack s pkey (fun p =>
      { p with varHashRegular := p.varHashRegular.map markDeletedIfValid,
               varHashTransact := p.varHashTransact.map markDeletedIfValid }))
      pkey (fun p => { p with varHashRegular := none }))
      { p with varHashRegular := none,
               varHashTransact := p.varHashTransact.map markDeletedIfValid } = true
  · simp only [hch, Bool.not_true, Bool.false_eq_true, if_false]
    apply hconsume
    rw [hf2]
    rfl
  · have hch' : isObjectChangedInCurrentTransPack (modifyPack (modifyPack s pkey (fun p =>
        { p with varHashRegular := p.varHashRegular.map markDeletedIfValid,
                 varHashTransact := p.varHashTransact.map markDeletedIfValid }))
        pkey (fun p => { p with varHashRegular := none }))
        { p with varHashRegular := none,
                 varHashTransact := p.varHashTransact.map markDeletedIfValid } = false :=
      Bool.eq_false_iff.mpr (fun he => hch he)
    simp only [hch', Bool.not_false, if_true]
    apply hconsume
    rw [findPack_proj_addToChangesStackPack packTables
      (fun lvl q => packTables_packMutateHead q _)]
    unfold createSavepointPack
    rw [findPack_proj_modifyPack packTables _ pkey _
      (fun q => by unfold createSavepointPackObj; cases q.states <;> rfl)
      (fun q => by
        unfold packTables createSavepointPackObj
        cases hq : q.states <;> rfl)]
    rw [hf2]
    rfl

theorem getKeyFromName_ok_inv (n k : String) (h : getKeyFromName n = .ok k) : k = n := by
  unfold getKeyFromName at h
  by_cases hc : n.length ≥ NAMEDATALEN - 1
  · rw [if_pos hc] at h
    exact absurd h (by simp)
  · rw [if_neg hc] at h
    injection h with h
    exact h.symm

theorem modifyVar_names (tbl : List Variable) (k : String) (f : Variable → Variable)
    (hf : ∀ v, (f v).name = v.name) :
    (modifyVar tbl k f).map (fun v => v.name) = tbl.map (fun v => v.name) := by
  unfold modifyVar
  rw [List.map_map]
  apply List.map_congr_left
  intro v hv
  simp only [Function.comp_apply]
  by_cases h : (v.name == k) = true
  · rw [if_pos h, hf v]
  · rw [if_neg h]

theorem findVar_modifyVar_same (tbl : List Variable) (k : String) (f : Variable → Variable)
    (hf : ∀ v, (f v).name = v.name) :
    findVar (modifyVar tbl k f) k = (findVar tbl k).map f := by
  unfold findVar modifyVar
  exact find?_map_modify (fun v => v.name) f k hf tbl

theorem findVar_append_new (tbl : List Variable) (k : String) (w : Variable)
    (hnone : findVar tbl k = none) (hw : (w.name == k) = true) :
    findVar (tbl ++ [w]) k = some w := by
  induction tbl with
  | nil =>
    unfold findVar
    simp only [List.nil_append, List.find?_cons, hw]
  | cons a t ih =>
    unfold findVar at hnone ⊢
    rw [List.find?_cons] at hnone
    cases h : (a.name == k) with
    | true =>
      rw [h] at hnone
      exact absurd hnone (by simp)
    | false =>
      rw [h] at hnone
      rw [List.cons_append, List.find?_cons, h]
      exact ih hnone

theorem invMeasureAt_modifyVarIn_regular (s : Store) (pk vk : String)
    (f : Variable → Variable) (k : String) :
    invMeasureAt (modifyVarIn s pk false vk f) k = invMeasureAt s k := by
  unfold modifyVarIn
  apply invMeasureAt_modifyPack_preserve
  · intro p
    exact set_pack_htab_name _ _ _
  · intro p
    unfold invMeasure validTransVarCount packHeadState
    rfl

theorem invMeasureAt_setValidity (s : Store) (pk vk : String) (b : Bool)
    (q : Package) (tbl : List Variable) (v : Variable)
    (hfp : findPack s pk = some q) (htab : q.varHashTransact = some tbl)
    (hnodup : (tbl.map (fun v => v.name)).Nodup) (hfv : findVar tbl vk = some v)
    (hvne : v.states ≠ []) :
    invMeasureAt (modifyVarIn s pk true vk
        (varMutateHead fun h => { h with is_valid := b })) pk
      = some ((packHeadState q).trans_var_num,
          validTransVarCount q + (if b then 1 else 0)
            - (if (varHeadState v).is_valid then 1 else 0)) := by
  unfold invMeasureAt modifyVarIn
  rw [findPack_modifyPack_same s pk _ (fun p => set_pack_htab_name _ _ _), hfp]
  simp only [Option.map_some', Option.some_inj]
  unfold invMeasure
  rw [Prod.mk.injEq]
  constructor
  · show (packHeadState (set_pack_htab q true _)).trans_var_num = _
    unfold packHeadState
    rw [set_pack_htab_states]
  · show (validTransVarCount (set_pack_htab q true
      ((pack_htab q true).map (fun tbl => modifyVar tbl vk
        (varMutateHead fun h => { h with is_valid := b }))))) = _
    unfold validTransVarCount
    show (countValid (((pack_htab q true).map (fun tbl => modifyVar tbl vk
      (varMutateHead fun h => { h with is_valid := b }))).getD []) : Int) = _
    show (countValid ((q.varHashTransact.map (fun tbl => modifyVar tbl vk
      (varMutateHead fun h => { h with is_valid := b }))).getD []) : Int) = _
    rw [htab]
    simp only [Option.map_some', Option.getD_some]
    rw [countValid_set_validity tbl vk b v hnodup hfv hvne]

/-- The package shape: both tables and whether the state stack is empty
(preserved by savepoints and changes-stack recording). -/
def packShape (p : Package) : Option (List Variable) × Option (List Variable) × Bool :=
  (p.varHashRegular, p.varHashTransact, p.states.isEmpty)

theorem packShape_packMutateHead (q : Package) (g : PackState → PackState) :
    packShape (packMutateHead g q) = packShape q := by
  obtain ⟨nm, vr, vt, sts⟩ := q
  cases sts <;> rfl

theorem packShape_createSavepointPackObj (q : Package) :
    packShape (createSavepointPackObj q) = packShape q := by
  obtain ⟨nm, vr, vt, sts⟩ := q
  cases sts <;> rfl

theorem findPack_shape_savepoint_add (s : Store) (pk k : String) :
    (findPack (addToChangesStackPack (createSavepointPack s pk) pk) k).map packShape
      = (findPack s k).map packShape := by
  rw [findPack_proj_addToChangesStackPack packShape
    (fun lvl q => packShape_packMutateHead q _)]
  unfold createSavepointPack
  rw [findPack_proj_modifyPack packShape s pk _
    (fun q => by unfold createSavepointPackObj; cases q.states <;> rfl)
    packShape_createSavepointPackObj]

theorem pack_htab_packMutateHead (q : Package) (g : PackState → PackState) (tr : Bool) :
    pack_htab (packMutateHead g q) tr = pack_htab q tr := by
  cases tr
  · show (packMutateHead g q).varHashRegular = q.varHashRegular
    exact packMutateHead_varHashRegular q g
  · show (packMutateHead g q).varHashTransact = q.varHashTransact
    exact packMutateHead_varHashTransact q g

theorem measure_of_findPack (s : Store) (pk : String) (q : Package) (tvn cnt : Int)
    (hfp : findPack s pk = some q) (hm : invMeasureAt s pk = some (tvn, cnt)) :
    (packHeadState q).trans_var_num = tvn ∧ validTransVarCount q = cnt := by
  unfold invMeasureAt at hm
  rw [hfp] at hm
  simp only [Option.map_some', Option.some_inj] at hm
  unfold invMeasure at hm
  exact ⟨congrArg Prod.fst hm, congrArg Prod.snd hm⟩

theorem createVariableFinish_measure (s : Store) (pk vk : String) (tr found : Bool)
    (q : Package) (tbl : List Variable) (v : Variable) (tvn cnt : Int)
    (hfp : findPack s pk = some q)
    (hqs : q.states.isEmpty = false)
    (htab : pack_htab q tr = some tbl)
    (hnodup : (tbl.map (fun v => v.name)).Nodup)
    (hfv : findVar tbl vk = some v)
    (hvne : v.states ≠ [])
    (hm : invMeasureAt s pk = some (tvn, cnt)) :
    invMeasureAt (createVariableFinish s pk vk tr found) pk
      = some (tvn + (if tr && (!found || !(varHeadState v).is_valid) then 1 else 0),
              cnt + (if tr then (if (varHeadState v).is_valid then 0 else 1) else 0)) := by
  obtain ⟨htvn, hcnt⟩ := measure_of_findPack s pk q tvn cnt hfp hm
  have hfind : findVarIn s pk tr vk = some v := by
    simp only [findVarIn, hfp, htab]
    exact hfv
  simp only [createVariableFinish, hfind]
  by_cases hc1 : (tr && (!found || !(varHeadState v).is_valid)) = true
  · have htr : tr = true := by
      cases htr0 : tr with
      | true => rfl
      | false => rw [htr0] at hc1; simp at hc1
    subst htr
    have htab' : q.varHashTransact = some tbl := htab
    simp only [hc1, if_true]
    rw [invMeasureAt_addToChangesStackVar]
    have hfp1 : findPack (modifyPack s pk (packMutateHead fun h =>
        { h with trans_var_num := h.trans_var_num + 1 })) pk
        = some (packMutateHead (fun h => { h with trans_var_num := h.trans_var_num + 1 }) q) := by
      rw [findPack_modifyPack_same s pk _
        (fun p => by unfold packMutateHead; cases p.states <;> rfl), hfp]
      rfl
    rw [invMeasureAt_setValidity _ pk vk true
      (packMutateHead (fun h => { h with trans_var_num := h.trans_var_num + 1 }) q) tbl v
      hfp1 (by rw [packMutateHead_varHashTransact]; exact htab') hnodup hfv hvne]
    have htvn1 : (packHeadState (packMutateHead (fun h =>
        { h with trans_var_num := h.trans_var_num + 1 }) q)).trans_var_num
        = (packHeadState q).trans_var_num + 1 := by
      obtain ⟨nm, vr, vt, sts⟩ := q
      cases sts with
      | nil => simp [List.isEmpty] at hqs
      | cons hd tl => rfl
    have hcnt1 : validTransVarCount (packMutateHead (fun h =>
        { h with trans_var_num := h.trans_var_num + 1 }) q) = validTransVarCount q := by
      unfold validTransVarCount
      rw [packMutateHead_varHashTransact]
    rw [htvn1, hcnt1, htvn, hcnt, Option.some_inj, Prod.mk.injEq]
    cases hvv : (varHeadState v).is_valid <;> constructor <;> simp <;> omega
  · have hc1' : (tr && (!found || !(varHeadState v).is_valid)) = false :=
      Bool.eq_false_iff.mpr (fun he => hc1 he)
    simp only [hc1', Bool.false_eq_true, if_false]
    cases htr : tr with
    | false =>
      simp only [htr, Bool.false_eq_true, if_false]
      rw [invMeasureAt_modifyVarIn_regular]
      rw [hm]
      simp
    | true =>
      have hvv : (varHeadState v).is_valid = true := by
        rw [htr] at hc1'
        simp only [Bool.true_and, Bool.or_eq_false_iff] at hc1'
        simpa using hc1'.2
      have hfound : found = true := by
        rw [htr] at hc1'
        simp only [Bool.true_and, Bool.or_eq_false_iff] at hc1'
        simpa using hc1'.1
      rw [htr] at htab
      simp only [htr, if_true]
      rw [invMeasureAt_addToChangesStackVar]
      rw [invMeasureAt_setValidity s pk vk true q tbl v hfp htab hnodup hfv hvne]
      rw [htvn, hcnt, hvv]
      simp

theorem pack_htab_set_pack_htab_same (p : Package) (tr : Bool) (t : Option (List Variable)) :
    pack_htab (set_pack_htab p tr t) tr = t := by
  cases tr <;> rfl

theorem pack_htab_eq_of_packShape (a b : Package) (h : packShape a = packShape b)
    (tr : Bool) : pack_htab a tr = pack_htab b tr := by
  cases tr
  · show a.varHashRegular = b.varHashRegular
    exact congrArg Prod.fst h
  · show a.varHashTransact = b.varHashTransact
    exact congrArg (fun x => x.2.1) h

theorem statesEmpty_eq_of_packShape (a b : Package) (h : packShape a = packShape b) :
    a.states.isEmpty = b.states.isEmpty :=
  congrArg (fun x => x.2.2) h

theorem countValid_singleton (w : Variable) :
    countValid [w] = if (varHeadState w).is_valid then 1 else 0 := by
  unfold countValid
  cases h : (varHeadState w).is_valid <;> simp [List.filter, h]

/-- Appending a fresh entry to a table adds its head-validity bit to the
count and leaves the head counter alone. -/
theorem invMeasureAt_append_new (s : Store) (pk : String) (q : Package) (tr : Bool)
    (newv : Variable) (tvn cnt : Int)
    (hfp : findPack s pk = some q) (hm : invMeasureAt s pk = some (tvn, cnt)) :
    invMeasureAt (modifyPack s pk (fun p =>
        set_pack_htab p tr (some ((pack_htab p tr).getD [] ++ [newv])))) pk
      = some (tvn, cnt + (if tr then (if (varHeadState newv).is_valid then 1 else 0) else 0))
    := by
  obtain ⟨htvn, hcnt⟩ := measure_of_findPack s pk q tvn cnt hfp hm
  unfold invMeasureAt
  rw [findPack_modifyPack_same s pk _ (fun p => set_pack_htab_name _ _ _), hfp]
  simp only [Option.map_some', Option.some_inj]
  unfold invMeasure
  rw [Prod.mk.injEq]
  constructor
  · show (packHeadState (set_pack_htab q tr _)).trans_var_num = tvn
    unfold packHeadState
    rw [set_pack_htab_states]
    exact htvn
  · cases tr with
    | false =>
      have h1 : validTransVarCount (set_pack_htab q false
          (some ((pack_htab q false).getD [] ++ [newv]))) = validTransVarCount q := rfl
      rw [h1, hcnt]
      simp
    | true =>
      have h1 : (set_pack_htab q true
          (some ((pack_htab q true).getD [] ++ [newv]))).varHashTransact
          = some (q.varHashTransact.getD [] ++ [newv]) := rfl
      unfold validTransVarCount
      rw [h1]
      simp only [Option.getD_some]
      rw [countValid_append, countValid_singleton]
      unfold validTransVarCount at hcnt
      push_cast
      rw [hcnt]

theorem findVar_none_names (tbl : List Variable) (k : String)
    (h : findVar tbl k = none) : ∀ a ∈ tbl.map (fun v => v.name), a ≠ k := by
  intro a ha he
  obtain ⟨w, hw, hwn⟩ := List.mem_map.mp ha
  have h2 := List.find?_eq_none.mp h w hw
  exact h2 (by simp [hwn, he])

/-- The counter delta of `createVariableFinish` on a freshly appended
entry matches the count delta of the append itself. -/
theorem createVariableFinish_new_counter (s2 : Store) (pkey key : String) (tr : Bool)
    (q1 q2 : Package) (tbl0 : List Variable) (newv : Variable) (tvn : Int)
    (hf2 : findPack s2 pkey = some q2)
    (hsh : packShape q2 = packShape q1)
    (hq1tab : pack_htab q1 tr = some (tbl0 ++ [newv]))
    (hq1s : q1.states.isEmpty = false)
    (hnodup : (tbl0.map (fun v => v.name)).Nodup)
    (hnone : findVar tbl0 key = none)
    (hname : (newv.name == key) = true)
    (hvne : newv.states ≠ [])
    (hvalid : (varHeadState newv).is_valid = true)
    (hm2 : invMeasureAt s2 pkey = some (tvn, tvn + (if tr then 1 else 0))) :
    ∃ m : Int, invMeasureAt (createVariableFinish s2 pkey key tr false) pkey
      = some (m, m) := by
  have htab2 : pack_htab q2 tr = some (tbl0 ++ [newv]) :=
    (pack_htab_eq_of_packShape q2 q1 hsh tr).trans hq1tab
  have hqs2 : q2.states.isEmpty = false :=
    (statesEmpty_eq_of_packShape q2 q1 hsh).trans hq1s
  have hnewname : newv.name = key := by simpa using hname
  have hnodup2 : ((tbl0 ++ [newv]).map (fun v => v.name)).Nodup := by
    rw [List.map_append]
    refine List.Nodup.append hnodup (by simp) ?_
    intro a ha hb
    have hak : a = newv.name := by simpa using hb
    exact findVar_none_names tbl0 key hnone a ha (hak.trans hnewname)
  have hfv2 := findVar_append_new tbl0 key newv hnone hname
  have hres := createVariableFinish_measure s2 pkey key tr false q2 (tbl0 ++ [newv]) newv
    tvn (tvn + (if tr then 1 else 0)) hf2 hqs2 htab2 hnodup2 hfv2 hvne hm2
  refine ⟨tvn + (if tr then 1 else 0), ?_⟩
  rw [hres, hvalid]
  cases tr <;> simp

/-- The found-entry arm of `createVariableInternal` (type and kind checks
passed): the possible savepoint and `createVariableFinish` keep the head
counter equal to the valid count. -/
theorem createVariableInternal_found_case (s : Store) (pkey key : String) (tr : Bool)
    (q : Package) (tbl : List Variable) (v : Variable) (tvn : Int)
    (hfp : findPack s pkey = some q)
    (hqs : q.states.isEmpty = false)
    (htq : pack_htab q tr = some tbl)
    (hnodup : (tbl.map (fun v => v.name)).Nodup)
    (hfv0 : findVar tbl key = some v)
    (hvne : v.states ≠ [])
    (hm : invMeasureAt s pkey = some (tvn, tvn)) :
    ∃ m : Int, invMeasureAt (createVariableFinish
      (if (tr && !(isObjectChangedInCurrentTransVar s v)) = true
       then createSavepointVar s pkey key else s)
      pkey key tr true) pkey = some (m, m) := by
  by_cases hch : (tr && !(isObjectChangedInCurrentTransVar s v)) = true
  · have htr : tr = true := by
      cases htr0 : tr with
      | true => rfl
      | false => rw [htr0] at hch; simp at hch
    subst htr
    rw [if_pos hch]
    have hnamepres : ∀ w : Variable, (createSavepointVarObj w).name = w.name :=
      fun w => by obtain ⟨nm, ty, ir, itr, idel, sts⟩ := w; cases sts <;> rfl
    have hfp1 : findPack (createSavepointVar s pkey key) pkey
        = some (set_pack_htab q true ((pack_htab q true).map
            (fun t => modifyVar t key createSavepointVarObj))) := by
      unfold createSavepointVar modifyVarIn
      rw [findPack_modifyPack_same s pkey _
        (fun p => set_pack_htab_name _ _ _), hfp]
      rfl
    have htab1 : pack_htab (set_pack_htab q true ((pack_htab q true).map
        (fun t => modifyVar t key createSavepointVarObj))) true
        = some (modifyVar tbl key createSavepointVarObj) := by
      rw [pack_htab_set_pack_htab_same, htq]
      rfl
    have hqs1 : (set_pack_htab q true ((pack_htab q true).map
        (fun t => modifyVar t key createSavepointVarObj))).states.isEmpty = false := by
      rw [set_pack_htab_states]
      exact hqs
    have hnodup1 : ((modifyVar tbl key createSavepointVarObj).map
        (fun v => v.name)).Nodup := by
      rw [modifyVar_names tbl key _ hnamepres]
      exact hnodup
    have hfv1 : findVar (modifyVar tbl key createSavepointVarObj) key
        = some (createSavepointVarObj v) := by
      rw [findVar_modifyVar_same tbl key _ hnamepres, hfv0]
      rfl
    have hvne1 : (createSavepointVarObj v).states ≠ [] := by
      cases hs : v.states with
      | nil => exact absurd hs hvne
      | cons h t =>
        simp only [createSavepointVarObj, hs]
        simp
    have hm1 : invMeasureAt (createSavepointVar s pkey key) pkey = some (tvn, tvn) := by
      rw [invMeasureAt_createSavepointVar]
      exact hm
    have hres := createVariableFinish_measure (createSavepointVar s pkey key)
      pkey key true true _ _ (createSavepointVarObj v) tvn tvn
      hfp1 hqs1 htab1 hnodup1 hfv1 hvne1 hm1
    refine ⟨tvn + (if (varHeadState (createSavepointVarObj v)).is_valid
      then 0 else 1), ?_⟩
    rw [hres]
    cases hv : (varHeadState (createSavepointVarObj v)).is_valid <;> simp [hv]
  · rw [if_neg hch]
    have hres := createVariableFinish_measure s pkey key tr true q tbl v
      tvn tvn hfp hqs htq hnodup hfv0 hvne hm
    refine ⟨tvn + (if tr then (if (varHeadState v).is_valid then 0 else 1) else 0), ?_⟩
    rw [hres]
    cases htr : tr <;> cases hv : (varHeadState v).is_valid <;> simp [hv]

/-- The new-entry arm of `createVariableInternal`: the appended entry's
valid head raises the count exactly as the counter is raised. -/
theorem createVariableInternal_new_case (s : Store) (pkey key : String) (tr : Bool)
    (q : Package) (newv : Variable) (tvn : Int)
    (hfp : findPack s pkey = some q)
    (hqs : q.states.isEmpty = false)
    (hnodup : (((pack_htab q tr).getD []).map (fun v => v.name)).Nodup)
    (hnone : findVar ((pack_htab q tr).getD []) key = none)
    (hname : (newv.name == key) = true)
    (hvne : newv.states ≠ [])
    (hvalid : (varHeadState newv).is_valid = true)
    (hm : invMeasureAt s pkey = some (tvn, tvn)) :
    ∃ m : Int, invMeasureAt (createVariableFinish
      (match findPack (modifyPack s pkey (fun p =>
          set_pack_htab p tr (some ((pack_htab p tr).getD [] ++ [newv])))) pkey with
       | some p1 =>
         if !(isObjectChangedInCurrentTransPack (modifyPack s pkey (fun p =>
             set_pack_htab p tr (some ((pack_htab p tr).getD [] ++ [newv])))) p1) then
           addToChangesStackPack (createSavepointPack (modifyPack s pkey (fun p =>
             set_pack_htab p tr (some ((pack_htab p tr).getD [] ++ [newv])))) pkey) pkey
         else modifyPack s pkey (fun p =>
           set_pack_htab p tr (some ((pack_htab p tr).getD [] ++ [newv])))
       | none => modifyPack s pkey (fun p =>
           set_pack_htab p tr (some ((pack_htab p tr).getD [] ++ [newv]))))
      pkey key tr false) pkey = some (m, m) := by
  have hfq1 : findPack (modifyPack s pkey (fun p =>
      set_pack_htab p tr (some ((pack_htab p tr).getD [] ++ [newv])))) pkey
      = some (set_pack_htab q tr (some ((pack_htab q tr).getD [] ++ [newv]))) := by
    rw [findPack_modifyPack_same s pkey _ (fun p => set_pack_htab_name _ _ _), hfp]
    rfl
  have hm1 : invMeasureAt (modifyPack s pkey (fun p =>
      set_pack_htab p tr (some ((pack_htab p tr).getD [] ++ [newv])))) pkey
      = some (tvn, tvn + (if tr then 1 else 0)) := by
    rw [invMeasureAt_append_new s pkey q tr newv tvn tvn hfp hm, hvalid]
    cases tr <;> simp
  have hq1tab : pack_htab (set_pack_htab q tr
      (some ((pack_htab q tr).getD [] ++ [newv]))) tr
      = some ((pack_htab q tr).getD [] ++ [newv]) :=
    pack_htab_set_pack_htab_same q tr _
  have hq1s : (set_pack_htab q tr
      (some ((pack_htab q tr).getD [] ++ [newv]))).states.isEmpty = false := by
    rw [set_pack_htab_states]
    exact hqs
  simp only [hfq1]
  by_cases hch2 : isObjectChangedInCurrentTransPack (modifyPack s pkey (fun p =>
      set_pack_htab p tr (some ((pack_htab p tr).getD [] ++ [newv]))))
      (set_pack_htab q tr (some ((pack_htab q tr).getD [] ++ [newv]))) = true
  · simp only [hch2, Bool.not_true, Bool.false_eq_true, if_false]
    exact createVariableFinish_new_counter _ pkey key tr _ _ _ newv tvn
      hfq1 rfl hq1tab hq1s hnodup hnone hname hvne hvalid hm1
  · have hch2' : isObjectChangedInCurrentTransPack (modifyPack s pkey (fun p =>
        set_pack_htab p tr (some ((pack_htab p tr).getD [] ++ [newv]))))
        (set_pack_htab q tr (some ((pack_htab q tr).getD [] ++ [newv]))) = false :=
      Bool.eq_false_iff.mpr (fun he => hch2 he)
    simp only [hch2', Bool.not_false, if_true]
    obtain ⟨q2, hf2, hsh⟩ : ∃ q2, findPack (addToChangesStackPack
        (createSavepointPack (modifyPack s pkey (fun p =>
          set_pack_htab p tr (some ((pack_htab p tr).getD [] ++ [newv])))) pkey) pkey)
        pkey = some q2 ∧ packShape q2
        = packShape (set_pack_htab q tr
            (some ((pack_htab q tr).getD [] ++ [newv]))) := by
      have hshape := findPack_shape_savepoint_add (modifyPack s pkey (fun p =>
        set_pack_htab p tr (some ((pack_htab p tr).getD [] ++ [newv])))) pkey pkey
      rw [hfq1] at hshape
      cases hf2 : findPack (addToChangesStackPack (createSavepointPack
          (modifyPack s pkey (fun p =>
            set_pack_htab p tr (some ((pack_htab p tr).getD [] ++ [newv])))) pkey)
          pkey) pkey with
      | none =>
        rw [hf2] at hshape
        exact absurd hshape (by simp)
      | some q2 =>
        rw [hf2] at hshape
        simp only [Option.map_some', Option.some_inj] at hshape
        exact ⟨q2, rfl, hshape⟩
    have hm2 : invMeasureAt (addToChangesStackPack
        (createSavepointPack (modifyPack s pkey (fun p =>
          set_pack_htab p tr (some ((pack_htab p tr).getD [] ++ [newv])))) pkey) pkey)
        pkey = some (tvn, tvn + (if tr then 1 else 0)) := by
      rw [invMeasureAt_addToChangesStackPack, invMeasureAt_createSavepointPack]
      exact hm1
    exact createVariableFinish_new_counter _ pkey key tr _ q2 _ newv tvn
      hf2 hsh hq1tab hq1s hnodup hnone hname hvne hvalid hm2

/-- A successful `createVariableInternal` preserves the equality of the
head counter and the valid-transactional-variable count (lines 2208-2215:
the counter is incremented exactly when the entry was created or its head
was invalid, and the head is then validated). -/
theorem createVariableInternal_counter (s : Store) (pkey name : String) (typid : Nat)
    (is_rec tr : Bool) (k : String) (s' : Store) (q : Package) (tvn : Int)
    (hfp : findPack s pkey = some q)
    (hqs : q.states.isEmpty = false)
    (hnodup : (((pack_htab q tr).getD []).map (fun v => v.name)).Nodup)
    (hvstates : ∀ v ∈ (pack_htab q tr).getD [], v.states ≠ [])
    (hm : invMeasureAt s pkey = some (tvn, tvn))
    (hok : createVariableInternal s pkey name typid is_rec tr = .ok (k, s')) :
    ∃ m : Int, invMeasureAt s' pkey = some (m, m) := by
  cases hkey : getKeyFromName name with
  | error e =>
    unfold createVariableInternal at hok
    rw [hkey] at hok
    simp only [bind, Except.bind] at hok
    exact Except.noConfusion hok
  | ok key =>
    unfold createVariableInternal at hok
    rw [hkey] at hok
    simp only [bind, Except.bind, hfp] at hok
    have hnoconf : (match pack_htab q (!tr) with
        | some tbl => (findVar tbl key).isSome
        | none => false) = false := by
      cases hop : pack_htab q (!tr) with
      | none => rfl
      | some tblO =>
        cases hfo : (findVar tblO key).isSome with
        | false =>
          show (findVar tblO key).isSome = false
          exact hfo
        | true =>
          simp only [hop, hfo, if_true] at hok
          exact Except.noConfusion hok
    simp only [hnoconf, Bool.false_eq_true, if_false] at hok
    cases hfv0 : findVar ((pack_htab q tr).getD []) key with
    | some v =>
      simp only [hfv0] at hok
      cases hty : (v.typid != typid) with
      | true =>
        rw [hty] at hok
        simp only [if_true] at hok
        exact Except.noConfusion hok
      | false =>
        rw [hty] at hok
        simp only [Bool.false_eq_true, if_false] at hok
        cases hkind : (v.is_record != is_rec) with
        | true =>
          rw [hkind] at hok
          simp only [if_true] at hok
          exact Except.noConfusion hok
        | false =>
          rw [hkind] at hok
          simp only [Bool.false_eq_true, if_false] at hok
          injection hok with hpair
          rw [Prod.mk.injEq] at hpair
          obtain ⟨hk2, hs2⟩ := hpair
          subst hs2
          cases htq : pack_htab q tr with
          | none =>
            rw [htq] at hfv0
            simp [findVar] at hfv0
          | some tbl =>
            rw [htq] at hfv0 hnodup hvstates
            simp only [Option.getD_some] at hfv0 hnodup hvstates
            have hvne : v.states ≠ [] := hvstates v (List.mem_of_find?_eq_some hfv0)
            exact createVariableInternal_found_case s pkey key tr q tbl v tvn
              hfp hqs htq hnodup hfv0 hvne hm
    | none =>
      simp only [hfv0] at hok
      injection hok with hpair
      rw [Prod.mk.injEq] at hpair
      obtain ⟨hk2, hs2⟩ := hpair
      subst hs2
      exact createVariableInternal_new_case s pkey key tr q _ tvn
        hfp hqs hnodup hfv0 (by simp) (by simp) rfl hm

/-- A store with one valid transactional scalar variable `p.t` (set at top
level). -/
def c4Store : Store := okD (variable_set emptyStore "p" "t" 25 1 false true)

/-- The package of `c4Store`. -/
def c4Pack : Package := (findPack c4Store "p").getD defaultPackage

/-- The store after creating a second transactional variable `p.u` on
`c4Store`. -/
def c4Set : Store :=
  match createVariableInternal c4Store "p" "u" 25 false true with
  | .ok r => r.2
  | .error _ => emptyStore

/-- The store after `remove_package('p')` on `c4Store`. -/
def c4After : Store := okD (remove_package c4Store "p")

/-- The package of `c4After`. -/
def c4PackAfter : Package := (findPack c4After "p").getD defaultPackage

/-- C4, counterexample: after `remove_package` of a package holding one
valid transactional variable, the head state's counter is 0 while the
variable's head state is still valid (`removePackageInternal` only marks
it deleted), so the claimed equality fails after this user-facing
operation. -/
theorem C4_counterexample :
    findPack c4After "p" = some c4PackAfter ∧
    (packHeadState c4PackAfter).trans_var_num = 0 ∧
    validTransVarCount c4PackAfter = 1 ∧
    ¬ packCounterInvariant c4PackAfter := by
  refine ⟨by decide, by decide, by decide, by decide⟩

/-- C4: the amended invariant.  (a) A successful `createVariableInternal`
on a store where the package's head counter equals its count of
valid-headed transactional variables preserves that equality (the counter
is incremented exactly when the entry is created or its head is invalid,
and the head is then validated).  (b) `removePackageInternal` resets the
counter to 0 and invalidates the package's head, but leaves the head
validity of every transactional variable unchanged — so the equality does
not survive `remove_package` of a package with valid transactional
variables. -/
theorem C4_trans_var_num_invariant :
    (∀ (s : Store) (pkey name : String) (typid : Nat) (is_rec tr : Bool) (k : String)
       (s' : Store) (q : Package) (tvn : Int),
       findPack s pkey = some q →
       q.states.isEmpty = false →
       (((pack_htab q tr).getD []).map (fun v => v.name)).Nodup →
       (∀ v ∈ (pack_htab q tr).getD [], v.states ≠ []) →
       invMeasureAt s pkey = some (tvn, tvn) →
       createVariableInternal s pkey name typid is_rec tr = .ok (k, s') →
       ∃ m : Int, invMeasureAt s' pkey = some (m, m))
    ∧ (∀ (s : Store) (pkey : String) (p : Package),
       findPack s pkey = some p →
       ∃ p', findPack (removePackageInternal s pkey) pkey = some p' ∧
         (packHeadState p').trans_var_num = 0 ∧
         (packHeadState p').is_valid = false ∧
         ((p'.varHashTransact.getD []).map (fun v => (varHeadState v).is_valid))
           = ((p.varHashTransact.getD []).map (fun v => (varHeadState v).is_valid)) ∧
         validTransVarCount p' = validTransVarCount p) :=
  ⟨fun s pkey name typid is_rec tr k s' q tvn h1 h2 h3 h4 h5 h6 =>
     createVariableInternal_counter s pkey name typid is_rec tr k s' q tvn
       h1 h2 h3 h4 h5 h6,
   fun s pkey p hf =>
     let ⟨p', e1, e2, e3, _, e5, e6⟩ := removePackageInternal_effect s pkey p hf
     ⟨p', e1, e2, e3, e5, e6⟩⟩

/-- C4, witness: both parts applied to the concrete one-variable store. -/
theorem C4_trans_var_num_invariant_witness :
    (∃ m : Int, invMeasureAt c4Set "p" = some (m, m)) ∧
    (∃ p', findPack (removePackageInternal c4Store "p") "p" = some p' ∧
      (packHeadState p').trans_var_num = 0 ∧
      (packHeadState p').is_valid = false ∧
      ((p'.varHashTransact.getD []).map (fun v => (varHeadState v).is_valid))
        = ((c4Pack.varHashTransact.getD []).map (fun v => (varHeadState v).is_valid)) ∧
      validTransVarCount p' = validTransVarCount c4Pack) :=
  ⟨C4_trans_var_num_invariant.1 c4Store "p" "u" 25 false true "u" c4Set c4Pack 1
     (by decide) (by decide) (by decide) (by decide) (by decide) rfl,
   C4_trans_var_num_invariant.2 c4Store "p" c4Pack (by decide)⟩

/-- A store with one regular scalar variable `p.x`. -/
def c7Store : Store := okD (variable_set emptyStore "p" "x" 25 1 false false)

/-- The package of `c7Store`. -/
def c7Pack : Package := (findPack c7Store "p").getD defaultPackage

/-- C7, witness: re-creating the regular variable `p.x` as transactional
raises the conflict against the regular table. -/
theorem C7_transactionality_conflict_witness :
    createVariableInternal c7Store "p" "x" 25 false true
      = .error (.transactionalityConflict "x" (!true)) :=
  C7_transactionality_conflict c7Store "p" "x" 25 false true c7Pack
    (c7Pack.varHashRegular.getD []) (by decide) (by decide) (by decide) (by decide)

/-! ### Stability lemmas for `findVarIn` (used by the resurrection proof) -/

/-- The per-package projection whose value is the `findVarIn` result. -/
def varLookup (tr : Bool) (n : String) (p : Package) : Option Variable :=
  match pack_htab p tr with
  | none => none
  | some tbl => findVar tbl n

theorem findVarIn_eq_proj (s : Store) (pk : String) (tr : Bool) (n : String) :
    findVarIn s pk tr n = ((findPack s pk).map (varLookup tr n)).getD none := by
  unfold findVarIn varLookup
  cases findPack s pk with
  | none => rfl
  | some p => cases pack_htab p tr <;> rfl

theorem findVarIn_proj_eq (s s' : Store) (pk : String) (tr : Bool) (n : String)
    (h : (findPack s' pk).map (varLookup tr n) = (findPack s pk).map (varLookup tr n)) :
    findVarIn s' pk tr n = findVarIn s pk tr n := by
  rw [findVarIn_eq_proj, findVarIn_eq_proj, h]

theorem findVarIn_eq_of_packagesHash (s s' : Store)
    (h : s'.packagesHash = s.packagesHash) (pk : String) (tr : Bool) (n : String) :
    findVarIn s' pk tr n = findVarIn s pk tr n := by
  apply findVarIn_proj_eq
  rw [findPack_eq_of_packagesHash s s' h]

theorem findVarIn_modifyVarIn_other (s : Store) (pk : String) (tr : Bool) (vk : String)
    (f : Variable → Variable) (hf : ∀ v, (f v).name = v.name) (n : String)
    (hne : n ≠ vk) :
    findVarIn (modifyVarIn s pk tr vk f) pk tr n = findVarIn s pk tr n := by
  unfold findVarIn modifyVarIn
  rw [findPack_modifyPack_same s pk _ (fun q => set_pack_htab_name _ _ _)]
  cases hfp : findPack s pk with
  | none => rfl
  | some p =>
    simp only [Option.map_some']
    rw [pack_htab_set_pack_htab]
    cases htab : pack_htab p tr with
    | none => rfl
    | some tbl =>
      simp only [Option.map_some']
      exact find?_map_modify_other (fun v => v.name) f vk n hf (fun he => hne he.symm) tbl

theorem addToChangesStackVar_currentLevel (s : Store) (pk vk : String) :
    (addToChangesStackVar s pk vk).currentLevel = s.currentLevel := by
  unfold addToChangesStackVar
  cases hf : findVarIn (prepareChangesStack s) pk true vk with
  | none =>
    simp only [hf]
    exact prepareChangesStack_currentLevel s
  | some v =>
    by_cases hch : isObjectChangedInCurrentTransVar (prepareChangesStack s) v = true
    · simp only [hf, hch, if_true]
      exact prepareChangesStack_currentLevel s
    · have hch' : isObjectChangedInCurrentTransVar (prepareChangesStack s) v = false :=
        Bool.eq_false_iff.mpr (fun he => hch he)
      simp only [hf, hch', Bool.false_eq_true, if_false]
      cases hcs : (prepareChangesStack s).changesStack with
      | none =>
        simp only [hcs, modifyVarIn_currentLevel]
        exact prepareChangesStack_currentLevel s
      | some l =>
        cases l with
        | nil =>
          simp only [hcs, modifyVarIn_currentLevel]
          exact prepareChangesStack_currentLevel s
        | cons fr rest =>
          simp only [hcs, modifyVarIn_currentLevel]
          exact prepareChangesStack_currentLevel s

theorem findVarIn_addToChangesStackVar_other (s : Store) (pk vk n : String)
    (hne : n ≠ vk) :
    findVarIn (addToChangesStackVar s pk vk) pk true n = findVarIn s pk true n := by
  unfold addToChangesStackVar
  have hp : ∀ s2 : Store, s2.packagesHash = (prepareChangesStack s).packagesHash →
      findVarIn s2 pk true n = findVarIn s pk true n := by
    intro s2 h2
    rw [findVarIn_eq_of_packagesHash _ s2 h2]
    exact findVarIn_eq_of_packagesHash s _ (prepareChangesStack_packagesHash s) pk true n
  cases hf : findVarIn (prepareChangesStack s) pk true vk with
  | none =>
    simp only [hf]
    exact hp _ rfl
  | some v =>
    by_cases hch : isObjectChangedInCurrentTransVar (prepareChangesStack s) v = true
    · simp only [hf, hch, if_true]
      exact hp _ rfl
    · have hch' : isObjectChangedInCurrentTransVar (prepareChangesStack s) v = false :=
        Bool.eq_false_iff.mpr (fun he => hch he)
      simp only [hf, hch', Bool.false_eq_true, if_false]
      have hstep : ∀ s2 : Store, s2.packagesHash = (prepareChangesStack s).packagesHash →
          findVarIn (modifyVarIn s2 pk true vk
            (varMutateHead fun h => { h with level := s2.currentLevel })) pk true n
          = findVarIn s pk true n := by
        intro s2 h2
        rw [findVarIn_modifyVarIn_other s2 pk true vk _
          (fun v => by obtain ⟨nm, ty, ir, itr, idel, sts⟩ := v; cases sts <;> rfl) n hne]
        exact hp s2 h2
      cases hcs : (prepareChangesStack s).changesStack with
      | none =>
        simp only [hcs]
        exact hstep _ rfl
      | some l =>
        cases l with
        | nil =>
          simp only [hcs]
          exact hstep _ rfl
        | cons fr rest =>
          simp only [hcs]
          exact hstep _ rfl

/-- `addToChangesStack` on a variable whose head is not at the current
level: the head level is set to the current level. -/
theorem findVarIn_addToChangesStackVar_same (s : Store) (pk vk : String) (v : Variable)
    (hf : findVarIn s pk true vk = some v)
    (hlv : ((varHeadState v).level == s.currentLevel) = false) :
    findVarIn (addToChangesStackVar s pk vk) pk true vk
      = some (varMutateHead (fun h => { h with level := s.currentLevel }) v) := by
  unfold addToChangesStackVar
  have hf1 : findVarIn (prepareChangesStack s) pk true vk = some v := by
    rw [findVarIn_eq_of_packagesHash s _ (prepareChangesStack_packagesHash s)]
    exact hf
  have hch : isObjectChangedInCurrentTransVar (prepareChangesStack s) v = false := by
    unfold isObjectChangedInCurrentTransVar
    rw [prepareChangesStack_currentLevel, hlv, Bool.and_false]
  simp only [hf1, hch, Bool.false_eq_true, if_false]
  have hstep : ∀ s2 : Store, s2.packagesHash = (prepareChangesStack s).packagesHash →
      s2.currentLevel = s.currentLevel →
      findVarIn (modifyVarIn s2 pk true vk
        (varMutateHead fun h => { h with level := s2.currentLevel })) pk true vk
      = some (varMutateHead (fun h => { h with level := s.currentLevel }) v) := by
    intro s2 h2 hl2
    rw [findVarIn_modifyVarIn_same s2 pk true vk _
      (fun v => by obtain ⟨nm, ty, ir, itr, idel, sts⟩ := v; cases sts <;> rfl)]
    rw [findVarIn_eq_of_packagesHash _ s2 h2, hf1]
    rw [hl2]
    rfl
  cases hcs : (prepareChangesStack s).changesStack with
  | none =>
    simp only [hcs]
    exact hstep _ rfl (prepareChangesStack_currentLevel s)
  | some l =>
    cases l with
    | nil =>
      simp only [hcs]
      exact hstep _ rfl (prepareChangesStack_currentLevel s)
    | cons fr rest =>
      simp only [hcs]
      exact hstep _ rfl (prepareChangesStack_currentLevel s)

theorem varMutateHead_name (f : VarState → VarState) (v : Variable) :
    (varMutateHead f v).name = v.name := by
  obtain ⟨nm, ty, ir, itr, idel, sts⟩ := v
  cases sts <;> rfl

theorem createSavepointVarObj_name (v : Variable) :
    (createSavepointVarObj v).name = v.name := by
  obtain ⟨nm, ty, ir, itr, idel, sts⟩ := v
  cases sts <;> rfl

theorem resurrectVarStep_currentLevel (st : Store) (key vk : String) :
    (resurrectVarStep st key vk).currentLevel = st.currentLevel := by
  unfold resurrectVarStep
  cases hf : findVarIn st key true vk with
  | none => simp only [hf]
  | some v =>
    by_cases hch : isObjectChangedInCurrentTransVar st v = true
    · simp only [hf, hch, Bool.not_true, Bool.false_eq_true, if_false,
        modifyVarIn_currentLevel]
    · have hch' : isObjectChangedInCurrentTransVar st v = false :=
        Bool.eq_false_iff.mpr (fun he => hch he)
      simp only [hf, hch', Bool.not_false, if_true, modifyVarIn_currentLevel]
      rw [addToChangesStackVar_currentLevel]
      rfl

theorem findVarIn_resurrectVarStep_other (st : Store) (key vk n : String)
    (hne : n ≠ vk) :
    findVarIn (resurrectVarStep st key vk) key true n = findVarIn st key true n := by
  unfold resurrectVarStep
  cases hf : findVarIn st key true vk with
  | none => simp only [hf]
  | some v =>
    by_cases hch : isObjectChangedInCurrentTransVar st v = true
    · simp only [hf, hch, Bool.not_true, Bool.false_eq_true, if_false]
      exact findVarIn_modifyVarIn_other st key true vk _ (varMutateHead_name _) n hne
    · have hch' : isObjectChangedInCurrentTransVar st v = false :=
        Bool.eq_false_iff.mpr (fun he => hch he)
      simp only [hf, hch', Bool.not_false, if_true]
      rw [findVarIn_modifyVarIn_other _ key true vk _ (varMutateHead_name _) n hne]
      rw [findVarIn_addToChangesStackVar_other _ key vk n hne]
      unfold createSavepointVar
      exact findVarIn_modifyVarIn_other st key true vk _ createSavepointVarObj_name n hne

/-- One resurrection step on an unchanged variable with head state `h`:
a savepoint copy is pushed, levelled, and invalidated, the old states kept
beneath. -/
theorem findVarIn_resurrectVarStep_same (st : Store) (key vk : String) (w : Variable)
    (h : VarState) (t : List VarState)
    (hf : findVarIn st key true vk = some w)
    (hnc : isObjectChangedInCurrentTransVar st w = false)
    (hwst : w.states = h :: t)
    (hcl : st.currentLevel ≠ 0) :
    (findVarIn (resurrectVarStep st key vk) key true vk).map (fun v => v.states)
      = some ({ level := st.currentLevel, is_valid := false,
                value := copyValue h.value } :: w.states) := by
  simp only [resurrectVarStep, hf, hnc, Bool.not_false, if_true]
  have hcso : findVarIn (createSavepointVar st key vk) key true vk
      = some (createSavepointVarObj w) := by
    unfold createSavepointVar
    rw [findVarIn_modifyVarIn_same _ _ _ _ _ createSavepointVarObj_name, hf]
    rfl
  have hcsoSt : (createSavepointVarObj w).states
      = { level := 0, is_valid := h.is_valid, value := copyValue h.value } :: h :: t := by
    simp only [createSavepointVarObj, hwst]
  have hhead : varHeadState (createSavepointVarObj w)
      = { level := 0, is_valid := h.is_valid, value := copyValue h.value } := by
    unfold varHeadState
    rw [hcsoSt]
    rfl
  have hlvl : ((varHeadState (createSavepointVarObj w)).level
      == (createSavepointVar st key vk).currentLevel) = false := by
    rw [hhead]
    show ((0 : Nat) == st.currentLevel) = false
    simpa using Ne.symm hcl
  have hadd := findVarIn_addToChangesStackVar_same (createSavepointVar st key vk) key vk
    (createSavepointVarObj w) hcso hlvl
  rw [findVarIn_modifyVarIn_same _ _ _ _ _ (varMutateHead_name _), hadd]
  simp only [Option.map_some', Option.some_inj]
  have hsc : ∀ (g : VarState → VarState) (v : Variable) (c : VarState) (r : List VarState),
      v.states = c :: r → (varMutateHead g v).states = g c :: r := by
    intro g v c r hv
    simp only [varMutateHead, hv]
  rw [hsc _ _ _ _ (hsc _ _ _ _ hcsoSt), hwst]
  rfl

/-- `resurrectVarStep` never touches a package's state stack. -/
theorem findPack_states_resurrectVarStep (st : Store) (key vk k : String) :
    (findPack (resurrectVarStep st key vk) k).map (fun p => p.states)
      = (findPack st k).map (fun p => p.states) := by
  have hmv : ∀ (s2 : Store) (f : Variable → Variable),
      (findPack (modifyVarIn s2 key true vk f) k).map (fun p => p.states)
        = (findPack s2 k).map (fun p => p.states) := by
    intro s2 f
    unfold modifyVarIn
    exact findPack_proj_modifyPack (fun p => p.states) s2 key _
      (fun p => set_pack_htab_name _ _ _) (fun p => set_pack_htab_states _ _ _) k
  have hadd : ∀ s2 : Store,
      (findPack (addToChangesStackVar s2 key vk) k).map (fun p => p.states)
        = (findPack s2 k).map (fun p => p.states) := by
    intro s2
    unfold addToChangesStackVar
    have hp : ∀ s3 : Store, s3.packagesHash = (prepareChangesStack s2).packagesHash →
        (findPack s3 k).map (fun p => p.states) = (findPack s2 k).map (fun p => p.states) := by
      intro s3 h3
      rw [findPack_eq_of_packagesHash _ s3 h3]
      rw [findPack_eq_of_packagesHash s2 _ (prepareChangesStack_packagesHash s2)]
    cases hf : findVarIn (prepareChangesStack s2) key true vk with
    | none =>
      simp only [hf]
      exact hp _ rfl
    | some v =>
      by_cases hch : isObjectChangedInCurrentTransVar (prepareChangesStack s2) v = true
      · simp only [hf, hch, if_true]
        exact hp _ rfl
      · have hch' : isObjectChangedInCurrentTransVar (prepareChangesStack s2) v = false :=
          Bool.eq_false_iff.mpr (fun he => hch he)
        simp only [hf, hch', Bool.false_eq_true, if_false]
        have hstep : ∀ s3 : Store, s3.packagesHash = (prepareChangesStack s2).packagesHash →
            (findPack (modifyVarIn s3 key true vk
              (varMutateHead fun h => { h with level := s3.currentLevel })) k).map
                (fun p => p.states)
              = (findPack s2 k).map (fun p => p.states) := by
          intro s3 h3
          rw [hmv s3 _]
          exact hp s3 h3
        cases hcs : (prepareChangesStack s2).changesStack with
        | none =>
          simp only [hcs]
          exact hstep _ rfl
        | some l =>
          cases l with
          | nil =>
            simp only [hcs]
            exact hstep _ rfl
          | cons fr rest =>
            simp only [hcs]
            exact hstep _ rfl
  unfold resurrectVarStep
  cases hf : findVarIn st key true vk with
  | none => simp only [hf]
  | some v =>
    by_cases hch : isObjectChangedInCurrentTransVar st v = true
    · simp only [hf, hch, Bool.not_true, Bool.false_eq_true, if_false]
      exact hmv st _
    · have hch' : isObjectChangedInCurrentTransVar st v = false :=
        Bool.eq_false_iff.mpr (fun he => hch he)
      simp only [hf, hch', Bool.not_false, if_true]
      rw [hmv _ _, hadd _]
      unfold createSavepointVar
      exact hmv st _

theorem findVar_of_mem_nodup (tbl : List Variable) (w : Variable)
    (hnd : (tbl.map (fun v => v.name)).Nodup) (hw : w ∈ tbl) :
    findVar tbl w.name = some w := by
  induction tbl with
  | nil => exact absurd hw (List.not_mem_nil w)
  | cons a t ih =>
    rw [List.map_cons, List.nodup_cons] at hnd
    cases List.mem_cons.mp hw with
    | inl he =>
      subst he
      unfold findVar
      rw [List.find?_cons]
      simp
    | inr hm =>
      have hne : (a.name == w.name) = false := by
        have : w.name ∈ t.map (fun v => v.name) := List.mem_map_of_mem _ hm
        have h2 : a.name ≠ w.name := fun he => hnd.1 (he ▸ this)
        simpa using h2
      unfold findVar at ih ⊢
      rw [List.find?_cons, hne]
      exact ih hnd.2 hm

theorem resurrect_fold_currentLevel (key : String) (L : List Variable) :
    ∀ st : Store,
      (L.foldl (fun st v => resurrectVarStep st key v.name) st).currentLevel
        = st.currentLevel := by
  induction L with
  | nil => intro st; rfl
  | cons a t ih =>
    intro st
    rw [List.foldl_cons, ih, resurrectVarStep_currentLevel]

theorem resurrect_fold_other (key n : String) (L : List Variable) :
    ∀ st : Store, (∀ v ∈ L, v.name ≠ n) →
      findVarIn (L.foldl (fun st v => resurrectVarStep st key v.name) st) key true n
        = findVarIn st key true n := by
  induction L with
  | nil => intro st _; rfl
  | cons a t ih =>
    intro st hn
    rw [List.foldl_cons, ih _ (fun v hv => hn v (List.mem_cons_of_mem a hv))]
    exact findVarIn_resurrectVarStep_other st key a.name n
      (fun he => hn a (List.mem_cons_self a t) he.symm)

theorem resurrect_fold_packStates (key k : String) (L : List Variable) :
    ∀ st : Store,
      (findPack (L.foldl (fun st v => resurrectVarStep st key v.name) st) k).map
          (fun p => p.states)
        = (findPack st k).map (fun p => p.states) := by
  induction L with
  | nil => intro st; rfl
  | cons a t ih =>
    intro st
    rw [List.foldl_cons, ih _, findPack_states_resurrectVarStep]

/-- Effect of the resurrection loop on every listed variable: given
distinct names, nonempty stacks and head levels off the current level,
each variable ends with a levelled, invalidated savepoint copy on top of
its previous stack. -/
theorem resurrect_fold_invalidates (key : String) (L : List Variable) :
    ∀ st : Store,
      st.currentLevel ≠ 0 →
      (L.map (fun v => v.name)).Nodup →
      (∀ w ∈ L, ∃ wc : Variable, findVarIn st key true w.name = some wc ∧
        wc.states ≠ [] ∧ ((varHeadState wc).level == st.currentLevel) = false) →
      ∀ w ∈ L, ∃ wc : Variable,
        findVarIn st key true w.name = some wc ∧
        (findVarIn (L.foldl (fun st v => resurrectVarStep st key v.name) st)
            key true w.name).map (fun v => v.states)
          = some ({ level := st.currentLevel, is_valid := false,
                    value := copyValue (varHeadState wc).value } :: wc.states) := by
  induction L with
  | nil =>
    intro st _ _ _ w hw
    exact absurd hw (List.not_mem_nil w)
  | cons a t ih =>
    intro st hcl hnd hpre w hw
    rw [List.map_cons, List.nodup_cons] at hnd
    obtain ⟨ac, hac, hacne, haclvl⟩ := hpre a (List.mem_cons_self a t)
    have hnc : isObjectChangedInCurrentTransVar st ac = false := by
      unfold isObjectChangedInCurrentTransVar
      rw [haclvl, Bool.and_false]
    cases List.mem_cons.mp hw with
    | inl he =>
      subst he
      refine ⟨ac, hac, ?_⟩
      rw [List.foldl_cons]
      rw [resurrect_fold_other key w.name t _ (fun v hv hvn =>
        hnd.1 (hvn ▸ List.mem_map_of_mem (fun v => v.name) hv))]
      cases hacst : ac.states with
      | nil => exact absurd hacst hacne
      | cons hh tt =>
        have hres := findVarIn_resurrectVarStep_same st key w.name ac hh tt
          hac hnc hacst hcl
        rw [hres]
        have : varHeadState ac = hh := by
          unfold varHeadState
          rw [hacst]
          rfl
        rw [this, hacst]
    | inr hm =>
      have hwa : w.name ≠ a.name := by
        intro he
        exact hnd.1 (he ▸ List.mem_map_of_mem (fun v => v.name) hm)
      obtain ⟨wc, hwc, hwcne, hwclvl⟩ := hpre w (List.mem_cons_of_mem a hm)
      have hstep : findVarIn (resurrectVarStep st key a.name) key true w.name
          = findVarIn st key true w.name :=
        findVarIn_resurrectVarStep_other st key a.name w.name hwa
      have hcl' : (resurrectVarStep st key a.name).currentLevel = st.currentLevel :=
        resurrectVarStep_currentLevel st key a.name
      have hpre' : ∀ u ∈ t, ∃ uc : Variable,
          findVarIn (resurrectVarStep st key a.name) key true u.name = some uc ∧
          uc.states ≠ [] ∧
          ((varHeadState uc).level == (resurrectVarStep st key a.name).currentLevel)
            = false := by
        intro u hu
        obtain ⟨uc, huc, hucne, huclvl⟩ := hpre u (List.mem_cons_of_mem a hu)
        have hua : u.name ≠ a.name := by
          intro he
          exact hnd.1 (he ▸ List.mem_map_of_mem (fun v => v.name) hu)
        refine ⟨uc, ?_, hucne, ?_⟩
        · rw [findVarIn_resurrectVarStep_other st key a.name u.name hua]
          exact huc
        · rw [hcl']
          exact huclvl
      obtain ⟨wc', hwc', hfin⟩ := ih (resurrectVarStep st key a.name)
        (by rw [hcl']; exact hcl) hnd.2 hpre' w hm
      have heq : wc' = wc := by
        rw [hstep, hwc] at hwc'
        exact (Option.some_inj.mp hwc').symm
      refine ⟨wc, hwc, ?_⟩
      rw [heq, hcl'] at hfin
      rw [List.foldl_cons]
      exact hfin

theorem packMutateHead_states_cons (g : PackState → PackState) (p : Package)
    (c : PackState) (r : List PackState) (hv : p.states = c :: r) :
    (packMutateHead g p).states = g c :: r := by
  simp only [packMutateHead, hv]

theorem packMutateHead_name (g : PackState → PackState) (p : Package) :
    (packMutateHead g p).name = p.name := by
  obtain ⟨nm, vr, vt, sts⟩ := p
  cases sts <;> rfl

/-- `addToChangesStack` on a package whose head is not at the current
level: the head level is set to the current level. -/
theorem findPack_addToChangesStackPack_same (s : Store) (pk : String) (p : Package)
    (hf : findPack s pk = some p)
    (hlv : ((packHeadState p).level == s.currentLevel) = false) :
    findPack (addToChangesStackPack s pk) pk
      = some (packMutateHead (fun h => { h with level := s.currentLevel }) p) := by
  unfold addToChangesStackPack
  have hf1 : findPack (prepareChangesStack s) pk = some p := by
    rw [findPack_eq_of_packagesHash s _ (prepareChangesStack_packagesHash s)]
    exact hf
  have hch : isObjectChangedInCurrentTransPack (prepareChangesStack s) p = false := by
    unfold isObjectChangedInCurrentTransPack
    rw [prepareChangesStack_currentLevel, hlv, Bool.and_false]
  simp only [hf1, hch, Bool.false_eq_true, if_false]
  have hstep : ∀ s2 : Store, s2.packagesHash = (prepareChangesStack s).packagesHash →
      s2.currentLevel = s.currentLevel →
      findPack (modifyPack s2 pk
        (packMutateHead fun h => { h with level := s2.currentLevel })) pk
      = some (packMutateHead (fun h => { h with level := s.currentLevel }) p) := by
    intro s2 h2 hl2
    rw [findPack_modifyPack_same s2 pk _ (packMutateHead_name _)]
    rw [findPack_eq_of_packagesHash _ s2 h2, hf1]
    rw [hl2]
    rfl
  cases hcs : (prepareChangesStack s).changesStack with
  | none =>
    simp only [hcs]
    exact hstep _ rfl (prepareChangesStack_currentLevel s)
  | some l =>
    cases l with
    | nil =>
      simp only [hcs]
      exact hstep _ rfl (prepareChangesStack_currentLevel s)
    | cons fr rest =>
      simp only [hcs]
      exact hstep _ rfl (prepareChangesStack_currentLevel s)

theorem findVarIn_addToChangesStackPack (s : Store) (pk k : String) (n : String) :
    findVarIn (addToChangesStackPack s pk) k true n = findVarIn s k true n := by
  apply findVarIn_proj_eq
  exact findPack_proj_addToChangesStackPack (varLookup true n)
    (fun lvl p => by unfold varLookup; rw [pack_htab_packMutateHead]) s pk k

/-- Effect of `finishCreatePackage` on a package whose head is off the
current level: the head is levelled and everything else is untouched. -/
theorem finishCreatePackage_effect (s3 : Store) (key : String) (istr : Bool)
    (p₃ : Package) (h₃ : PackState) (t₃ : List PackState)
    (hf : findPack s3 key = some p₃)
    (hst : p₃.states = h₃ :: t₃)
    (hlv : (h₃.level == s3.currentLevel) = false) :
    (∃ p', findPack (finishCreatePackage s3 key istr) key = some p' ∧
        p'.states = { h₃ with level := s3.currentLevel } :: t₃) ∧
    (∀ n, findVarIn (finishCreatePackage s3 key istr) key true n
        = findVarIn s3 key true n) := by
  have hgname : ∀ p : Package, (match pack_htab p istr with
      | none => set_pack_htab p istr (some [])
      | some _ => p).name = p.name := by
    intro p
    cases htab : pack_htab p istr with
    | none => exact set_pack_htab_name p istr (some [])
    | some tb => rfl
  have hgstates : ∀ p : Package, (match pack_htab p istr with
      | none => set_pack_htab p istr (some [])
      | some _ => p).states = p.states := by
    intro p
    cases htab : pack_htab p istr with
    | none => exact set_pack_htab_states p istr (some [])
    | some tb => rfl
  have hgvl : ∀ (p : Package) (n : String), varLookup true n (match pack_htab p istr with
      | none => set_pack_htab p istr (some [])
      | some _ => p) = varLookup true n p := by
    intro p n
    cases istr with
    | true =>
      cases htab : pack_htab p true with
      | none =>
        show varLookup true n (set_pack_htab p true (some [])) = varLookup true n p
        unfold varLookup
        rw [pack_htab_set_pack_htab, htab]
        rfl
      | some tb => rfl
    | false =>
      cases htab : pack_htab p false with
      | none =>
        show varLookup true n (set_pack_htab p false (some [])) = varLookup true n p
        unfold varLookup
        rfl
      | some tb => rfl
  have hf4 : findPack (modifyPack s3 key (fun p => match pack_htab p istr with
      | none => set_pack_htab p istr (some [])
      | some _ => p)) key
      = some (match pack_htab p₃ istr with
        | none => set_pack_htab p₃ istr (some [])
        | some _ => p₃) := by
    rw [findPack_modifyPack_same s3 key _ hgname, hf]
    rfl
  have hst4 : (match pack_htab p₃ istr with
      | none => set_pack_htab p₃ istr (some [])
      | some _ => p₃).states = h₃ :: t₃ := by
    rw [hgstates p₃]
    exact hst
  have hhead4 : packHeadState (match pack_htab p₃ istr with
      | none => set_pack_htab p₃ istr (some [])
      | some _ => p₃) = h₃ := by
    unfold packHeadState
    rw [hst4]
    rfl
  have hch : isObjectChangedInCurrentTransPack (modifyPack s3 key (fun p =>
      match pack_htab p istr with
      | none => set_pack_htab p istr (some [])
      | some _ => p)) (match pack_htab p₃ istr with
        | none => set_pack_htab p₃ istr (some [])
        | some _ => p₃) = false := by
    unfold isObjectChangedInCurrentTransPack
    rw [hhead4, modifyPack_currentLevel, hlv, Bool.and_false]
  simp only [finishCreatePackage, hf4, hch, Bool.not_false, if_true]
  have hlv4 : ((packHeadState (match pack_htab p₃ istr with
      | none => set_pack_htab p₃ istr (some [])
      | some _ => p₃)).level == (modifyPack s3 key (fun p =>
        match pack_htab p istr with
        | none => set_pack_htab p istr (some [])
        | some _ => p)).currentLevel) = false := by
    rw [hhead4, modifyPack_currentLevel]
    exact hlv
  constructor
  · refine ⟨_, findPack_addToChangesStackPack_same _ key _ hf4 hlv4, ?_⟩
    rw [packMutateHead_states_cons _ _ _ _ hst4]
    rfl
  · intro n
    rw [findVarIn_addToChangesStackPack]
    apply findVarIn_proj_eq
    exact findPack_proj_modifyPack (varLookup true n) s3 key _ hgname
      (fun p => hgvl p n) key

theorem createSavepointPackObj_varHashTransact (p : Package) :
    (createSavepointPackObj p).varHashTransact = p.varHashTransact := by
  obtain ⟨nm, vr, vt, sts⟩ := p
  cases sts <;> rfl

theorem createSavepointPackObj_name (p : Package) :
    (createSavepointPackObj p).name = p.name := by
  obtain ⟨nm, vr, vt, sts⟩ := p
  cases sts <;> rfl

/-- C5: resurrecting a logically removed package (`create_package` on an
entry whose head state is invalid, here untouched at the current level)
savepoints it and re-validates its head at the current nesting level, and
every pre-existing transactional variable is savepoint-ed and its head
state marked invalid — the package's resurrection does not resurrect its
contents. -/
theorem C5_create_package_resurrection
    (s : Store) (name : String) (is_trans : Bool) (k : String) (s' : Store)
    (p0 : Package) (h0 : PackState) (t0 : List PackState) (tbl : List Variable)
    (hlen : name.length ≤ NAMEDATALEN - 2)
    (hfp : findPack s name = some p0)
    (hst0 : p0.states = h0 :: t0)
    (hinv : h0.is_valid = false)
    (hcl : s.currentLevel ≠ 0)
    (hplvl : (h0.level == s.currentLevel) = false)
    (htab : p0.varHashTransact = some tbl)
    (hnd : (tbl.map (fun v => v.name)).Nodup)
    (hvars : ∀ w ∈ tbl, w.states ≠ [] ∧ ((varHeadState w).level == s.currentLevel) = false)
    (hok : createPackage s name is_trans = .ok (k, s')) :
    (∃ p', findPack s' name = some p' ∧
        p'.states = { level := s.currentLevel, is_valid := true,
                      trans_var_num := h0.trans_var_num } :: p0.states) ∧
    (∀ w ∈ tbl, (findVarIn s' name true w.name).map (fun v => v.states)
        = some ({ level := s.currentLevel, is_valid := false,
                  value := copyValue (varHeadState w).value } :: w.states)) := by
  have hphl : ∃ l, s.packagesHash = some l := by
    cases hphc : s.packagesHash with
    | some l => exact ⟨l, rfl⟩
    | none =>
      have hnone : findPack s name = none := by
        unfold findPack
        rw [hphc]
        rfl
      rw [hnone] at hfp
      exact Option.noConfusion hfp
  obtain ⟨l, hphl⟩ := hphl
  have hens : ensurePackagesHashExists s = s := by
    unfold ensurePackagesHashExists
    simp only [hphl]
  unfold createPackage at hok
  rw [getKeyFromName_ok name hlen] at hok
  simp only [bind, Except.bind, hens, hfp] at hok
  have hch0 : isObjectChangedInCurrentTransPack s p0 = false := by
    unfold isObjectChangedInCurrentTransPack
    have hh : packHeadState p0 = h0 := by
      unfold packHeadState
      rw [hst0]
      rfl
    rw [hh, hplvl, Bool.and_false]
  simp only [hch0, Bool.not_false, if_true] at hok
  have hf2 : findPack (createSavepointPack s name) name
      = some (createSavepointPackObj p0) := by
    unfold createSavepointPack
    rw [findPack_modifyPack_same s name _ createSavepointPackObj_name, hfp]
    rfl
  have hcspst : (createSavepointPackObj p0).states
      = { level := 0, is_valid := h0.is_valid, trans_var_num := h0.trans_var_num }
        :: h0 :: t0 := by
    simp only [createSavepointPackObj, hst0]
  have hval : (packHeadState (createSavepointPackObj p0)).is_valid = false := by
    have hh : packHeadState (createSavepointPackObj p0)
        = { level := 0, is_valid := h0.is_valid, trans_var_num := h0.trans_var_num } := by
      unfold packHeadState
      rw [hcspst]
      rfl
    rw [hh]
    exact hinv
  simp only [hf2, Option.getD_some, hval, Bool.not_false, if_true] at hok
  have hfV : findPack (modifyPack (createSavepointPack s name) name
      (packMutateHead (fun h => { h with is_valid := true }))) name
      = some (packMutateHead (fun h => { h with is_valid := true })
          (createSavepointPackObj p0)) := by
    rw [findPack_modifyPack_same _ name _ (packMutateHead_name _), hf2]
    rfl
  have htabV : (packMutateHead (fun h => { h with is_valid := true })
      (createSavepointPackObj p0)).varHashTransact = some tbl := by
    rw [packMutateHead_varHashTransact, createSavepointPackObj_varHashTransact]
    exact htab
  simp only [hfV, Option.getD_some, htabV] at hok
  injection hok with hpair
  rw [Prod.mk.injEq] at hpair
  obtain ⟨hk2, hs2⟩ := hpair
  subst hs2
  set sV := modifyPack (createSavepointPack s name) name
    (packMutateHead (fun h => { h with is_valid := true })) with hsV
  have hclV : sV.currentLevel = s.currentLevel := rfl
  have hclV' : sV.currentLevel ≠ 0 := hcl
  have hstV : (packMutateHead (fun h => { h with is_valid := true })
      (createSavepointPackObj p0)).states
      = { level := 0, is_valid := true, trans_var_num := h0.trans_var_num }
        :: h0 :: t0 := by
    rw [packMutateHead_states_cons _ _ _ _ hcspst]
  have htabV' : pack_htab (packMutateHead (fun h => { h with is_valid := true })
      (createSavepointPackObj p0)) true = some tbl := htabV
  have hvw : ∀ w ∈ tbl, findVarIn sV name true w.name = some w := by
    intro w hw
    simp only [findVarIn, hfV, htabV']
    exact findVar_of_mem_nodup tbl w hnd hw
  have hpre : ∀ w ∈ tbl, ∃ wc : Variable, findVarIn sV name true w.name = some wc ∧
      wc.states ≠ [] ∧ ((varHeadState wc).level == sV.currentLevel) = false :=
    fun w hw => ⟨w, hvw w hw, (hvars w hw).1, (hvars w hw).2⟩
  have hfold := resurrect_fold_invalidates name tbl sV hclV' hnd hpre
  have hps := resurrect_fold_packStates name name tbl sV
  rw [hfV] at hps
  have hfcl := resurrect_fold_currentLevel name tbl sV
  obtain ⟨p₃, hf3, hst3⟩ : ∃ p₃,
      findPack (tbl.foldl (fun st v => resurrectVarStep st name v.name) sV) name = some p₃
      ∧ p₃.states = { level := 0, is_valid := true, trans_var_num := h0.trans_var_num }
        :: h0 :: t0 := by
    cases hf3 : findPack (tbl.foldl (fun st v => resurrectVarStep st name v.name) sV)
        name with
    | none =>
      rw [hf3] at hps
      exact absurd hps (by simp)
    | some p₃ =>
      rw [hf3] at hps
      simp only [Option.map_some', Option.some_inj] at hps
      exact ⟨p₃, rfl, by rw [hps, hstV]⟩
  have hcl3 : (tbl.foldl (fun st v => resurrectVarStep st name v.name) sV).currentLevel
      = s.currentLevel := by
    rw [hfcl]
    exact hclV
  have hlv3 : (((0 : Nat))
      == (tbl.foldl (fun st v => resurrectVarStep st name v.name) sV).currentLevel)
      = false := by
    rw [hcl3]
    simpa using Ne.symm hcl
  obtain ⟨hpack, hvars'⟩ := finishCreatePackage_effect
    (tbl.foldl (fun st v => resurrectVarStep st name v.name) sV) name is_trans
    p₃ _ _ hf3 hst3 hlv3
  constructor
  · obtain ⟨p', hp', hps'⟩ := hpack
    refine ⟨p', hp', ?_⟩
    rw [hps', hcl3, hst0]
  · intro w hw
    rw [hvars' w.name]
    obtain ⟨wc, hwc, hfin⟩ := hfold w hw
    have heq : wc = w := by
      rw [hvw w hw] at hwc
      exact Option.some_inj.mp hwc.symm
    rw [heq] at hfin
    rw [hfin, hclV]

/-- A store where package `p` (with transactional variable `t`) was
removed inside a subtransaction, one nesting level deeper than now:
the package entry exists with an invalid head while `t`'s head is still
valid underneath. -/
def c5Store : Store :=
  okD (do
    let s ← variable_set emptyStore "p" "t" 25 1 false true
    let s := subTransStart s
    let s ← remove_package s "p"
    .ok (subTransStart s))

/-- The removed package of `c5Store`. -/
def c5Pack : Package := (findPack c5Store "p").getD defaultPackage

/-- Its (invalid) head state. -/
def c5H0 : PackState :=
  c5Pack.states.headD { level := 0, is_valid := false, trans_var_num := 0 }

/-- Its transactional table. -/
def c5Tbl : List Variable := c5Pack.varHashTransact.getD []

/-- The store after `create_package('p')` resurrects the package. -/
def c5After : Store :=
  match createPackage c5Store "p" false with
  | .ok r => r.2
  | .error _ => emptyStore

/-- C5, witness: the resurrection theorem applied to the concrete
removed-package store. -/
theorem C5_create_package_resurrection_witness :
    (∃ p', findPack c5After "p" = some p' ∧
        p'.states = { level := c5Store.currentLevel, is_valid := true,
                      trans_var_num := c5H0.trans_var_num } :: c5Pack.states) ∧
    (∀ w ∈ c5Tbl, (findVarIn c5After "p" true w.name).map (fun v => v.states)
        = some ({ level := c5Store.currentLevel, is_valid := false,
                  value := copyValue (varHeadState w).value } :: w.states)) :=
  C5_create_package_resurrection c5Store "p" false "p" c5After c5Pack c5H0
    c5Pack.states.tail c5Tbl (by decide) (by decide) (by decide) (by decide)
    (by decide) (by decide) (by decide) (by decide) (by decide) rfl

/-- A package with one transactional variable, removed at the very level
where it was created: the invalid head and the variable's head are both
already at the current level ("changed in the current transaction"). -/
def c5CEStore : Store :=
  okD (do
    let s ← variable_set emptyStore "p" "t" 25 1 false true
    remove_package s "p")

/-- The store after `create_package('p')` resurrects `c5CEStore`'s
package at the same nesting level. -/
def c5CEAfter : Store :=
  match createPackage c5CEStore "p" false with
  | .ok r => r.2
  | .error _ => emptyStore

/-- C5, counterexample: same-level resurrection creates NO savepoints.
In `c5CEStore` the package was removed at the nesting level where it was
created, so both the package and its transactional variable `t` count as
already changed in the current subtransaction; `create_package` then
validates the package's head and invalidates `t`'s head strictly in
place: both savepoint stacks still hold exactly one state, so the claim's
"with a savepoint created" and "is savepoint-ed" are false here. -/
theorem C5_counterexample :
    ((findPack c5CEStore "p").map (fun p => p.states)
      = some [⟨1, false, 0⟩]) ∧
    ((findVarIn c5CEStore "p" true "t").map (fun v => v.states)
      = some [⟨1, true, .scalar ⟨1, false⟩⟩]) ∧
    ((findPack c5CEAfter "p").map (fun p => p.states)
      = some [⟨1, true, 0⟩]) ∧
    ((findVarIn c5CEAfter "p" true "t").map (fun v => v.states)
      = some [⟨1, false, .scalar ⟨1, false⟩⟩]) := by
  refine ⟨by decide, by decide, by decide, by decide⟩

theorem createSavepointPackObj_varHashRegular (p : Package) :
    (createSavepointPackObj p).varHashRegular = p.varHashRegular := by
  obtain ⟨nm, vr, vt, sts⟩ := p
  cases sts <;> rfl

theorem pack_htab_createSavepointPackObj (p : Package) (tr : Bool) :
    pack_htab (createSavepointPackObj p) tr = pack_htab p tr := by
  cases tr
  · exact createSavepointPackObj_varHashRegular p
  · exact createSavepointPackObj_varHashTransact p

theorem findVarIn_createSavepointPack (s : Store) (pk k n : String) :
    findVarIn (createSavepointPack s pk) k true n = findVarIn s k true n := by
  apply findVarIn_proj_eq
  unfold createSavepointPack
  exact findPack_proj_modifyPack (varLookup true n) s pk _ createSavepointPackObj_name
    (fun p => by unfold varLookup; rw [pack_htab_createSavepointPackObj]) k

theorem findVarIn_finishCreatePackage (s : Store) (key : String) (istr : Bool)
    (n : String) :
    findVarIn (finishCreatePackage s key istr) key true n = findVarIn s key true n := by
  have hgname : ∀ p : Package, (match pack_htab p istr with
      | none => set_pack_htab p istr (some [])
      | some _ => p).name = p.name := by
    intro p
    cases htab : pack_htab p istr with
    | none => exact set_pack_htab_name p istr (some [])
    | some tb => rfl
  have hgvl : ∀ p : Package, varLookup true n (match pack_htab p istr with
      | none => set_pack_htab p istr (some [])
      | some _ => p) = varLookup true n p := by
    intro p
    cases istr with
    | true =>
      cases htab : pack_htab p true with
      | none =>
        show varLookup true n (set_pack_htab p true (some [])) = varLookup true n p
        unfold varLookup
        rw [pack_htab_set_pack_htab, htab]
        rfl
      | some tb => rfl
    | false =>
      cases htab : pack_htab p false with
      | none =>
        show varLookup true n (set_pack_htab p false (some [])) = varLookup true n p
        unfold varLookup
        rfl
      | some tb => rfl
  have h1 : findVarIn (modifyPack s key (fun p => match pack_htab p istr with
      | none => set_pack_htab p istr (some [])
      | some _ => p)) key true n = findVarIn s key true n := by
    apply findVarIn_proj_eq
    exact findPack_proj_modifyPack (varLookup true n) s key _ hgname hgvl key
  unfold finishCreatePackage
  cases hf : findPack (modifyPack s key (fun p => match pack_htab p istr with
      | none => set_pack_htab p istr (some [])
      | some _ => p)) key with
  | none =>
    simp only [hf]
    exact h1
  | some p =>
    by_cases hch : isObjectChangedInCurrentTransPack (modifyPack s key (fun p =>
        match pack_htab p istr with
        | none => set_pack_htab p istr (some [])
        | some _ => p)) p = true
    · simp only [hf, hch, Bool.not_true, Bool.false_eq_true, if_false]
      exact h1
    · have hch' : isObjectChangedInCurrentTransPack (modifyPack s key (fun p =>
          match pack_htab p istr with
          | none => set_pack_htab p istr (some [])
          | some _ => p)) p = false :=
        Bool.eq_false_iff.mpr (fun he => hch he)
      simp only [hf, hch', Bool.not_false, if_true]
      rw [findVarIn_addToChangesStackPack]
      exact h1

/-- `addToChangesStack` on a variable whose head is already at the current
level: a no-op on the store's variables. -/
theorem findVarIn_addToChangesStackVar_changed (s : Store) (pk vk : String) (v : Variable)
    (hf : findVarIn s pk true vk = some v)
    (hlv : ((varHeadState v).level == s.currentLevel) = true) :
    findVarIn (addToChangesStackVar s pk vk) pk true vk = some v := by
  unfold addToChangesStackVar
  have hf1 : findVarIn (prepareChangesStack s) pk true vk = some v := by
    rw [findVarIn_eq_of_packagesHash s _ (prepareChangesStack_packagesHash s)]
    exact hf
  have hsome : (prepareChangesStack s).changesStack.isSome = true := by
    unfold prepareChangesStack
    cases hcs : s.changesStack with
    | none => simp
    | some l => simp [hcs]
  have hch : isObjectChangedInCurrentTransVar (prepareChangesStack s) v = true := by
    unfold isObjectChangedInCurrentTransVar
    rw [prepareChangesStack_currentLevel, hlv, hsome]
    rfl
  simp only [hf1, hch, if_true]

theorem addToChangesStackPack_currentLevel (s : Store) (pk : String) :
    (addToChangesStackPack s pk).currentLevel = s.currentLevel := by
  unfold addToChangesStackPack
  cases hf : findPack (prepareChangesStack s) pk with
  | none =>
    simp only [hf]
    exact prepareChangesStack_currentLevel s
  | some p =>
    by_cases hch : isObjectChangedInCurrentTransPack (prepareChangesStack s) p = true
    · simp only [hf, hch, if_true]
      exact prepareChangesStack_currentLevel s
    · have hch' : isObjectChangedInCurrentTransPack (prepareChangesStack s) p = false :=
        Bool.eq_false_iff.mpr (fun he => hch he)
      simp only [hf, hch', Bool.false_eq_true, if_false]
      cases hcs : (prepareChangesStack s).changesStack with
      | none =>
        simp only [hcs, modifyPack_currentLevel]
        exact prepareChangesStack_currentLevel s
      | some l =>
        cases l with
        | nil =>
          simp only [hcs, modifyPack_currentLevel]
          exact prepareChangesStack_currentLevel s
        | cons fr rest =>
          simp only [hcs, modifyPack_currentLevel]
          exact prepareChangesStack_currentLevel s

theorem finishCreatePackage_currentLevel (s : Store) (key : String) (istr : Bool) :
    (finishCreatePackage s key istr).currentLevel = s.currentLevel := by
  unfold finishCreatePackage
  cases hf : findPack (modifyPack s key (fun p => match pack_htab p istr with
      | none => set_pack_htab p istr (some [])
      | some _ => p)) key with
  | none =>
    simp only [hf]
    rfl
  | some p =>
    by_cases hch : isObjectChangedInCurrentTransPack (modifyPack s key (fun p =>
        match pack_htab p istr with
        | none => set_pack_htab p istr (some [])
        | some _ => p)) p = true
    · simp only [hf, hch, Bool.not_true, Bool.false_eq_true, if_false]
      rfl
    · have hch' : isObjectChangedInCurrentTransPack (modifyPack s key (fun p =>
          match pack_htab p istr with
          | none => set_pack_htab p istr (some [])
          | some _ => p)) p = false :=
        Bool.eq_false_iff.mpr (fun he => hch he)
      simp only [hf, hch', Bool.not_false, if_true]
      rw [addToChangesStackPack_currentLevel]
      rfl

/-- `createPackage` on an existing valid package returns its key and
changes no variable; the package's tables are preserved. -/
theorem createPackage_found_valid (s : Store) (pname : String) (k : String) (s₁ : Store)
    (p0 : Package) (tbl0 : List Variable)
    (hlen : pname.length ≤ NAMEDATALEN - 2)
    (hfp : findPack s pname = some p0)
    (hpst : p0.states ≠ [])
    (hval : (packHeadState p0).is_valid = true)
    (htab0 : p0.varHashTransact = some tbl0)
    (hok : createPackage s pname true = .ok (k, s₁)) :
    k = pname ∧
    (∀ n, findVarIn s₁ pname true n = findVarIn s pname true n) ∧
    (findPack s₁ pname).map packTables = some (p0.varHashRegular, some tbl0) ∧
    s₁.currentLevel = s.currentLevel := by
  have hphl : ∃ l, s.packagesHash = some l := by
    cases hphc : s.packagesHash with
    | some l => exact ⟨l, rfl⟩
    | none =>
      have hnone : findPack s pname = none := by
        unfold findPack
        rw [hphc]
        rfl
      rw [hnone] at hfp
      exact Option.noConfusion hfp
  obtain ⟨l, hphl⟩ := hphl
  have hens : ensurePackagesHashExists s = s := by
    unfold ensurePackagesHashExists
    simp only [hphl]
  unfold createPackage at hok
  rw [getKeyFromName_ok pname hlen] at hok
  simp only [bind, Except.bind, hens, hfp] at hok
  have hgname : ∀ p : Package, (match pack_htab p true with
      | none => set_pack_htab p true (some [])
      | some _ => p).name = p.name := by
    intro p
    cases htab : pack_htab p true with
    | none => exact set_pack_htab_name p true (some [])
    | some tb => rfl
  have hfin : ∀ (s4 : Store) (p4 : Package), findPack s4 pname = some p4 →
      pack_htab p4 true = some tbl0 → p4.varHashRegular = p0.varHashRegular →
      (findPack (finishCreatePackage s4 pname true) pname).map packTables
        = some (p0.varHashRegular, some tbl0) := by
    intro s4 p4 hf4 htab4 hreg4
    unfold finishCreatePackage
    have hf5 : findPack (modifyPack s4 pname (fun p => match pack_htab p true with
        | none => set_pack_htab p true (some [])
        | some _ => p)) pname = some p4 := by
      rw [findPack_modifyPack_same s4 pname _ hgname, hf4]
      simp only [Option.map_some', htab4]
    have hpt4 : packTables p4 = (p0.varHashRegular, some tbl0) := by
      unfold packTables
      rw [hreg4]
      have : p4.varHashTransact = some tbl0 := htab4
      rw [this]
    cases hch2 : isObjectChangedInCurrentTransPack (modifyPack s4 pname (fun p =>
        match pack_htab p true with
        | none => set_pack_htab p true (some [])
        | some _ => p)) p4 with
    | true =>
      simp only [hf5, hch2, Bool.not_true, Bool.false_eq_true, if_false]
      simp only [Option.map_some', hpt4]
    | false =>
      simp only [hf5, hch2, Bool.not_false, if_true]
      rw [findPack_proj_addToChangesStackPack packTables
        (fun lvl q => packTables_packMutateHead q _)]
      rw [hf5]
      simp only [Option.map_some', hpt4]
  by_cases hch : isObjectChangedInCurrentTransPack s p0 = true
  · simp only [hch, Bool.not_true, Bool.false_eq_true, if_false, hfp,
      Option.getD_some, hval, Bool.not_true] at hok
    injection hok with hpair
    rw [Prod.mk.injEq] at hpair
    obtain ⟨hk, hs⟩ := hpair
    subst hs
    refine ⟨hk.symm, ?_, ?_, ?_⟩
    · intro n
      exact findVarIn_finishCreatePackage s pname true n
    · exact hfin s p0 hfp htab0 rfl
    · exact finishCreatePackage_currentLevel s pname true
  · have hch' : isObjectChangedInCurrentTransPack s p0 = false :=
      Bool.eq_false_iff.mpr (fun he => hch he)
    simp only [hch', Bool.not_false, if_true] at hok
    have hf2 : findPack (createSavepointPack s pname) pname
        = some (createSavepointPackObj p0) := by
      unfold createSavepointPack
      rw [findPack_modifyPack_same s pname _ createSavepointPackObj_name, hfp]
      rfl
    have hvalC : (packHeadState (createSavepointPackObj p0)).is_valid = true := by
      cases hst0 : p0.states with
      | nil => exact absurd hst0 hpst
      | cons h0 t0 =>
        have hh : packHeadState (createSavepointPackObj p0)
            = { level := 0, is_valid := h0.is_valid, trans_var_num := h0.trans_var_num } := by
          unfold packHeadState
          simp only [createSavepointPackObj, hst0]
          rfl
        rw [hh]
        show h0.is_valid = true
        have : packHeadState p0 = h0 := by
          unfold packHeadState
          rw [hst0]
          rfl
        rw [← this]
        exact hval
    simp only [hf2, Option.getD_some, hvalC, Bool.not_true, Bool.false_eq_true,
      if_false] at hok
    injection hok with hpair
    rw [Prod.mk.injEq] at hpair
    obtain ⟨hk, hs⟩ := hpair
    subst hs
    refine ⟨hk.symm, ?_, ?_, ?_⟩
    · intro n
      rw [findVarIn_finishCreatePackage]
      exact findVarIn_createSavepointPack s pname pname n
    · refine hfin _ (createSavepointPackObj p0) hf2 ?_ ?_
      · rw [pack_htab_createSavepointPackObj]
        exact htab0
      · exact createSavepointPackObj_varHashRegular p0
    · rw [finishCreatePackage_currentLevel]
      rfl

theorem varMutateHead_states_cons (g : VarState → VarState) (v : Variable)
    (c : VarState) (r : List VarState) (hv : v.states = c :: r) :
    (varMutateHead g v).states = g c :: r := by
  simp only [varMutateHead, hv]

theorem findVarIn_modifyPack_mutateHead (s : Store) (pk : String)
    (g : PackState → PackState) (k n : String) :
    findVarIn (modifyPack s pk (packMutateHead g)) k true n = findVarIn s k true n := by
  apply findVarIn_proj_eq
  exact findPack_proj_modifyPack (varLookup true n) s pk _ (packMutateHead_name _)
    (fun p => by unfold varLookup; rw [pack_htab_packMutateHead]) k

/-- The frame effect of `createVariableFinish` on a present target: every
other variable is untouched, and the target's head is validated (and
possibly levelled) in place. -/
theorem createVariableFinish_frame (s1 : Store) (pname vname : String) (found : Bool)
    (v' : Variable) (c : VarState) (r : List VarState)
    (hfv : findVarIn s1 pname true vname = some v')
    (hst : v'.states = c :: r) :
    (∀ n, n ≠ vname → findVarIn (createVariableFinish s1 pname vname true found)
        pname true n = findVarIn s1 pname true n) ∧
    (∃ lvl, (findVarIn (createVariableFinish s1 pname vname true found)
        pname true vname).map (fun v => v.states)
      = some ({ level := lvl, is_valid := true, value := c.value } :: r)) := by
  simp only [createVariableFinish, hfv]
  have hcommon : ∀ s2 : Store,
      findVarIn s2 pname true vname = some v' →
      (∀ m, findVarIn s2 pname true m = findVarIn s1 pname true m) →
      (∀ n, n ≠ vname →
        findVarIn (if true = true then addToChangesStackVar
            (modifyVarIn s2 pname true vname
              (varMutateHead fun h => { h with is_valid := true })) pname vname
          else modifyVarIn s2 pname true vname
            (varMutateHead fun h => { h with is_valid := true })) pname true n
        = findVarIn s1 pname true n) ∧
      (∃ lvl, (findVarIn (if true = true then addToChangesStackVar
            (modifyVarIn s2 pname true vname
              (varMutateHead fun h => { h with is_valid := true })) pname vname
          else modifyVarIn s2 pname true vname
            (varMutateHead fun h => { h with is_valid := true })) pname true vname).map
          (fun v => v.states)
        = some ({ level := lvl, is_valid := true, value := c.value } :: r)) := by
    intro s2 hfv2 hall
    simp only [if_true]
    have hvb : findVarIn (modifyVarIn s2 pname true vname
        (varMutateHead fun h => { h with is_valid := true })) pname true vname
        = some (varMutateHead (fun h => { h with is_valid := true }) v') := by
      rw [findVarIn_modifyVarIn_same _ _ _ _ _ (varMutateHead_name _), hfv2]
      rfl
    have hvbst : (varMutateHead (fun h => { h with is_valid := true }) v').states
        = { level := c.level, is_valid := true, value := c.value } :: r := by
      rw [varMutateHead_states_cons _ _ _ _ hst]
    constructor
    · intro n hn
      rw [findVarIn_addToChangesStackVar_other _ pname vname n hn]
      rw [findVarIn_modifyVarIn_other _ pname true vname _ (varMutateHead_name _) n hn]
      exact hall n
    · cases hlv : ((varHeadState (varMutateHead (fun h => { h with is_valid := true })
          v')).level == (modifyVarIn s2 pname true vname
            (varMutateHead fun h => { h with is_valid := true })).currentLevel) with
      | true =>
        refine ⟨c.level, ?_⟩
        rw [findVarIn_addToChangesStackVar_changed _ pname vname _ hvb hlv]
        simp only [Option.map_some', hvbst]
      | false =>
        refine ⟨(modifyVarIn s2 pname true vname
          (varMutateHead fun h => { h with is_valid := true })).currentLevel, ?_⟩
        rw [findVarIn_addToChangesStackVar_same _ pname vname _ hvb hlv]
        simp only [Option.map_some']
        rw [varMutateHead_states_cons _ _ _ _ hvbst]
  cases hc1 : (true && (!found || !(varHeadState v').is_valid)) with
  | true =>
    simp only [hc1, if_true]
    obtain ⟨ha, hb⟩ := hcommon
      (modifyPack s1 pname (packMutateHead fun h =>
        { h with trans_var_num := h.trans_var_num + 1 }))
      (by rw [findVarIn_modifyPack_mutateHead]; exact hfv)
      (fun m => findVarIn_modifyPack_mutateHead s1 pname _ pname m)
    exact ⟨ha, hb⟩
  | false =>
    simp only [hc1, Bool.false_eq_true, if_false]
    obtain ⟨ha, hb⟩ := hcommon s1 hfv (fun m => rfl)
    exact ⟨ha, hb⟩

/-- The frame effect of `createVariableInternal` on an existing variable
(no conflict, matching type and kind): the key is the name, every other
variable is untouched, and the target's stack becomes a validated head
carrying the old head's value over either the old stack (a savepoint was
pushed) or the old stack's tail (the head was rewritten in place). -/
theorem createVariableInternal_found_frame (s₁ : Store) (pname vname : String)
    (typid : Nat) (k2 : String) (s₂ : Store) (p1 : Package) (tbl1 : List Variable)
    (v1 : Variable)
    (hlen : vname.length ≤ NAMEDATALEN - 2)
    (hfp1 : findPack s₁ pname = some p1)
    (hconf : (match pack_htab p1 false with
        | some tblr => (findVar tblr vname).isSome
        | none => false) = false)
    (htab1 : p1.varHashTransact = some tbl1)
    (hfv1 : findVar tbl1 vname = some v1)
    (hty : (v1.typid != typid) = false)
    (hkind : (v1.is_record != false) = false)
    (hvne : v1.states ≠ [])
    (hcl : s₁.currentLevel ≠ 0)
    (hok : createVariableInternal s₁ pname vname typid false true = .ok (k2, s₂)) :
    k2 = vname ∧
    (∀ n, n ≠ vname → findVarIn s₂ pname true n = findVarIn s₁ pname true n) ∧
    (∃ lvl rest, (findVarIn s₂ pname true vname).map (fun v => v.states)
        = some ({ level := lvl, is_valid := true,
                  value := (varHeadState v1).value } :: rest)
        ∧ (rest = v1.states ∨ rest = v1.states.tail)) := by
  have htab1' : pack_htab p1 true = some tbl1 := htab1
  have hfvs : findVarIn s₁ pname true vname = some v1 := by
    simp only [findVarIn, hfp1, htab1']
    exact hfv1
  unfold createVariableInternal at hok
  rw [getKeyFromName_ok vname hlen] at hok
  simp only [bind, Except.bind, hfp1, Bool.not_true, hconf, Bool.false_eq_true,
    if_false, htab1', Option.getD_some, hfv1, hty, hkind] at hok
  injection hok with hpair
  rw [Prod.mk.injEq] at hpair
  obtain ⟨hk, hs⟩ := hpair
  subst hs
  refine ⟨hk.symm, ?_⟩
  cases hst1 : v1.states with
  | nil => exact absurd hst1 hvne
  | cons c1 r1 =>
    have hhead1 : varHeadState v1 = c1 := by
      unfold varHeadState
      rw [hst1]
      rfl
    by_cases hch : (true && !(isObjectChangedInCurrentTransVar s₁ v1)) = true
    · simp only [hch, if_true]
      have hcso : findVarIn (createSavepointVar s₁ pname vname) pname true vname
          = some (createSavepointVarObj v1) := by
        unfold createSavepointVar
        rw [findVarIn_modifyVarIn_same _ _ _ _ _ createSavepointVarObj_name, hfvs]
        rfl
      have hcsoSt : (createSavepointVarObj v1).states
          = { level := 0, is_valid := c1.is_valid, value := copyValue c1.value }
            :: c1 :: r1 := by
        simp only [createSavepointVarObj, hst1]
      obtain ⟨ha, lvl, hb⟩ := createVariableFinish_frame
        (createSavepointVar s₁ pname vname) pname vname true
        (createSavepointVarObj v1) _ _ hcso hcsoSt
      refine ⟨?_, lvl, c1 :: r1, ?_, Or.inl rfl⟩
      · intro n hn
        rw [ha n hn]
        unfold createSavepointVar
        exact findVarIn_modifyVarIn_other s₁ pname true vname _
          createSavepointVarObj_name n hn
      · rw [hb, hhead1]
        rfl
    · have hch' : (true && !(isObjectChangedInCurrentTransVar s₁ v1)) = false :=
        Bool.eq_false_iff.mpr (fun he => hch he)
      simp only [hch', Bool.false_eq_true, if_false]
      obtain ⟨ha, lvl, hb⟩ := createVariableFinish_frame s₁ pname vname true
        v1 c1 r1 hfvs hst1
      refine ⟨fun n hn => ha n hn, lvl, r1, ?_, Or.inr rfl⟩
      rw [hb, hhead1]

/-- C10: the amended frame effect of `variable_set` on a transactional
scalar variable, provided the package's head state is valid (so no
package resurrection runs): only the named variable is written — every
other variable of the package is untouched — and the target's new head
carries the written scalar over either its old stack (a savepoint copy
was pushed) or its old stack's tail (the head was rewritten in place);
the deeper states are unchanged.  (Without the validity hypothesis the
claim is false: resurrecting the package invalidates the sibling
variables, see the counterexample.) -/
theorem C10_variable_set_frame (s : Store) (pname vname : String) (typid : Nat)
    (value : Int) (is_null : Bool) (s' : Store) (p0 : Package) (tbl0 : List Variable)
    (v0 : Variable)
    (hlenp : pname.length ≤ NAMEDATALEN - 2)
    (hlenv : vname.length ≤ NAMEDATALEN - 2)
    (hfp : findPack s pname = some p0)
    (hpst : p0.states ≠ [])
    (hval : (packHeadState p0).is_valid = true)
    (htab0 : p0.varHashTransact = some tbl0)
    (hnoreg : (match p0.varHashRegular with
        | some tblr => (findVar tblr vname).isSome
        | none => false) = false)
    (hfv0 : findVar tbl0 vname = some v0)
    (hty : (v0.typid != typid) = false)
    (hkind : (v0.is_record != false) = false)
    (hvne : v0.states ≠ [])
    (hcl : s.currentLevel ≠ 0)
    (hok : variable_set s pname vname typid value is_null true = .ok s') :
    (∀ n, n ≠ vname → findVarIn s' pname true n = findVarIn s pname true n) ∧
    (∃ lvl rest, (findVarIn s' pname true vname).map (fun v => v.states)
        = some ({ level := lvl, is_valid := true,
                  value := .scalar { value := (if is_null then 0 else value),
                                     is_null := is_null } } :: rest)
        ∧ (rest = v0.states ∨ rest = v0.states.tail)) := by
  unfold variable_set at hok
  simp only [bind, Except.bind] at hok
  cases hA : createPackage s pname true with
  | error e =>
    simp only [hA] at hok
    exact Except.noConfusion hok
  | ok a =>
    obtain ⟨k1, s₁⟩ := a
    simp only [hA] at hok
    obtain ⟨hk1, hvarsA, hptA, hclA⟩ := createPackage_found_valid s pname k1 s₁ p0 tbl0
      hlenp hfp hpst hval htab0 hA
    rw [hk1] at hok
    obtain ⟨p1, hfp1, hpt1⟩ : ∃ p1, findPack s₁ pname = some p1 ∧
        packTables p1 = (p0.varHashRegular, some tbl0) := by
      cases hf1 : findPack s₁ pname with
      | none =>
        rw [hf1] at hptA
        exact absurd hptA (by simp)
      | some p1 =>
        rw [hf1] at hptA
        simp only [Option.map_some', Option.some_inj] at hptA
        exact ⟨p1, rfl, hptA⟩
    have hreg1 : p1.varHashRegular = p0.varHashRegular := by
      have h1 := congrArg Prod.fst hpt1
      simpa [packTables] using h1
    have htr1 : p1.varHashTransact = some tbl0 := by
      have h1 := congrArg Prod.snd hpt1
      simpa [packTables] using h1
    have hconf1 : (match pack_htab p1 false with
        | some tblr => (findVar tblr vname).isSome
        | none => false) = false := by
      have hh : pack_htab p1 false = p0.varHashRegular := hreg1
      rw [hh]
      exact hnoreg
    have hcl1 : s₁.currentLevel ≠ 0 := by
      rw [hclA]
      exact hcl
    cases hB : createVariableInternal s₁ pname vname typid false true with
    | error e =>
      simp only [hB] at hok
      exact Except.noConfusion hok
    | ok b =>
      obtain ⟨k2, s₂⟩ := b
      simp only [hB] at hok
      obtain ⟨hk2, hothers, lvl, rest, htarget, hrest⟩ :=
        createVariableInternal_found_frame s₁ pname vname typid k2 s₂ p1 tbl0 v0
          hlenv hfp1 hconf1 htr1 hfv0 hty hkind hvne hcl1 hB
      rw [hk2] at hok
      injection hok with hs'
      subst hs'
      constructor
      · intro n hn
        rw [findVarIn_modifyVarIn_other s₂ pname true vname _ (varMutateHead_name _) n hn]
        rw [hothers n hn]
        exact hvarsA n
      · cases hv2 : findVarIn s₂ pname true vname with
        | none =>
          rw [hv2] at htarget
          exact absurd htarget (by simp)
        | some v2 =>
          rw [hv2] at htarget
          simp only [Option.map_some', Option.some_inj] at htarget
          refine ⟨lvl, rest, ?_, hrest⟩
          rw [findVarIn_modifyVarIn_same _ _ _ _ _ (varMutateHead_name _), hv2]
          simp only [Option.map_some']
          rw [varMutateHead_states_cons _ _ _ _ htarget]

/-- Two transactional variables `t` and `u` in package `p`, each set at
top level and again inside a subtransaction (so each carries a two-state
savepoint stack), the package then removed (head invalid, both variables'
stacks intact underneath). -/
def c10Store : Store :=
  okD (do
    let s ← variable_set emptyStore "p" "u" 25 7 false true
    let s ← variable_set s "p" "t" 25 1 false true
    let s := subTransStart s
    let s ← variable_set s "p" "u" 25 8 false true
    let s ← variable_set s "p" "t" 25 2 false true
    remove_package s "p")

/-- `variable_set` on `t` alone, which resurrects the package. -/
def c10After : Store := okD (variable_set c10Store "p" "t" 25 3 false true)

/-- C10, counterexample: in `c10Store` the target `p.t` has more than one
state on its savepoint stack (the claim's antecedent holds), yet the
successful `variable_set` on `t` flips the validity flag stored in the
untouched sibling `p.u`'s existing head state from true to false (the
resurrection of the removed package invalidates every transactional
variable in it), so the claimed frame property over a bare `variable_set`
call is false. -/
theorem C10_counterexample :
    ((findVarIn c10Store "p" true "t").map (fun v => v.states)
      = some [⟨2, true, .scalar ⟨2, false⟩⟩, ⟨1, true, .scalar ⟨1, false⟩⟩]) ∧
    ((findVarIn c10Store "p" true "u").map (fun v => v.states)
      = some [⟨2, true, .scalar ⟨8, false⟩⟩, ⟨1, true, .scalar ⟨7, false⟩⟩]) ∧
    (variable_set c10Store "p" "t" 25 3 false true = .ok c10After) ∧
    ((findVarIn c10After "p" true "u").map (fun v => v.states)
      = some [⟨2, false, .scalar ⟨8, false⟩⟩, ⟨1, true, .scalar ⟨7, false⟩⟩]) := by
  refine ⟨by decide, by decide, rfl, by decide⟩

/-- One transactional scalar `p.x` in a live (valid) package. -/
def c10WStore : Store := okD (variable_set emptyStore "p" "x" 25 1 false true)

/-- Rewrite `p.x` with 9. -/
def c10WAfter : Store := okD (variable_set c10WStore "p" "x" 25 9 false true)

/-- The package, table, and variable of `c10WStore`. -/
def c10WPack : Package := (findPack c10WStore "p").getD defaultPackage

def c10WTbl : List Variable := c10WPack.varHashTransact.getD []

def c10WVar : Variable := (findVar c10WTbl "x").getD defaultVariable

/-- C10, witness: the frame theorem applied to the concrete one-variable
store. -/
theorem C10_variable_set_frame_witness :
    (∀ n, n ≠ "x" → findVarIn c10WAfter "p" true n = findVarIn c10WStore "p" true n) ∧
    (∃ lvl rest, (findVarIn c10WAfter "p" true "x").map (fun v => v.states)
        = some ({ level := lvl, is_valid := true,
                  value := .scalar { value := (if false then 0 else 9),
                                     is_null := false } } :: rest)
        ∧ (rest = c10WVar.states ∨ rest = c10WVar.states.tail)) :=
  C10_variable_set_frame c10WStore "p" "x" 25 9 false c10WAfter c10WPack c10WTbl c10WVar
    (by decide) (by decide) (by decide) (by decide) (by decide) (by decide) (by decide)
    (by decide) (by decide) (by decide) (by decide) (by decide) rfl

theorem varMutateHead_typid (f : VarState → VarState) (v : Variable) :
    (varMutateHead f v).typid = v.typid := by
  obtain ⟨nm, ty, ir, itr, idel, sts⟩ := v
  cases sts <;> rfl

theorem varMutateHead_is_record (f : VarState → VarState) (v : Variable) :
    (varMutateHead f v).is_record = v.is_record := by
  obtain ⟨nm, ty, ir, itr, idel, sts⟩ := v
  cases sts <;> rfl

theorem createSavepointVarObj_typid (v : Variable) :
    (createSavepointVarObj v).typid = v.typid := by
  obtain ⟨nm, ty, ir, itr, idel, sts⟩ := v
  cases sts <;> rfl

theorem createSavepointVarObj_is_record (v : Variable) :
    (createSavepointVarObj v).is_record = v.is_record := by
  obtain ⟨nm, ty, ir, itr, idel, sts⟩ := v
  cases sts <;> rfl

theorem varHeadState_varMutateHead_cons (f : VarState → VarState) (v : Variable)
    (c : VarState) (r : List VarState) (hv : v.states = c :: r) :
    varHeadState (varMutateHead f v) = f c := by
  unfold varHeadState
  rw [varMutateHead_states_cons f v c r hv]
  rfl

theorem getKeyFromName_ok_len (n k : String) (h : getKeyFromName n = .ok k) :
    n.length ≤ NAMEDATALEN - 2 := by
  unfold getKeyFromName at h
  by_cases hc : n.length ≥ NAMEDATALEN - 1
  · rw [if_pos hc] at h
    exact Except.noConfusion h
  · unfold NAMEDATALEN at hc ⊢
    omega

theorem find?_append_some {α : Type} (p : α → Bool) (l : List α) (a : α)
    (hl : l.find? p = none) (ha : p a = true) :
    (l ++ [a]).find? p = some a := by
  induction l with
  | nil => simp [List.find?_cons, ha]
  | cons b t ih =>
    rw [List.find?_cons] at hl
    cases hb : p b with
    | true =>
      rw [hb] at hl
      exact absurd hl (by simp)
    | false =>
      rw [hb] at hl
      rw [List.cons_append, List.find?_cons, hb]
      exact ih hl

theorem findPack_proj_addToChangesStackVar {β : Type} (φ : Package → β)
    (hφt : ∀ (p : Package) (t : Option (List Variable)), φ (set_pack_htab p true t) = φ p)
    (s : Store) (pk vk k : String) :
    (findPack (addToChangesStackVar s pk vk) k).map φ = (findPack s k).map φ := by
  have hmv : ∀ (s2 : Store) (f : Variable → Variable),
      (findPack (modifyVarIn s2 pk true vk f) k).map φ = (findPack s2 k).map φ := by
    intro s2 f
    unfold modifyVarIn
    exact findPack_proj_modifyPack φ s2 pk _
      (fun p => set_pack_htab_name _ _ _) (fun p => hφt p _) k
  unfold addToChangesStackVar
  have hp : ∀ s3 : Store, s3.packagesHash = (prepareChangesStack s).packagesHash →
      (findPack s3 k).map φ = (findPack s k).map φ := by
    intro s3 h3
    rw [findPack_eq_of_packagesHash _ s3 h3]
    rw [findPack_eq_of_packagesHash s _ (prepareChangesStack_packagesHash s)]
  cases hf : findVarIn (prepareChangesStack s) pk true vk with
  | none =>
    simp only [hf]
    exact hp _ rfl
  | some v =>
    by_cases hch : isObjectChangedInCurrentTransVar (prepareChangesStack s) v = true
    · simp only [hf, hch, if_true]
      exact hp _ rfl
    · have hch' : isObjectChangedInCurrentTransVar (prepareChangesStack s) v = false :=
        Bool.eq_false_iff.mpr (fun he => hch he)
      simp only [hf, hch', Bool.false_eq_true, if_false]
      have hstep : ∀ s3 : Store, s3.packagesHash = (prepareChangesStack s).packagesHash →
          (findPack (modifyVarIn s3 pk true vk
            (varMutateHead fun h => { h with level := s3.currentLevel })) k).map φ
          = (findPack s k).map φ := by
        intro s3 h3
        rw [hmv s3 _]
        exact hp s3 h3
      cases hcs : (prepareChangesStack s).changesStack with
      | none =>
        simp only [hcs]
        exact hstep _ rfl
      | some l =>
        cases l with
        | nil =>
          simp only [hcs]
          exact hstep _ rfl
        | cons fr rest =>
          simp only [hcs]
          exact hstep _ rfl

/-- Object-level effect of `createVariableFinish` on a present target:
the head is validated, its value kept, type and kind untouched. -/
theorem createVariableFinish_object (s1 : Store) (pname vname : String) (found : Bool)
    (v' : Variable) (c : VarState) (r : List VarState)
    (hfv : findVarIn s1 pname true vname = some v')
    (hst : v'.states = c :: r) :
    ∃ v2, findVarIn (createVariableFinish s1 pname vname true found) pname true vname
        = some v2 ∧
      v2.typid = v'.typid ∧ v2.is_record = v'.is_record ∧
      (varHeadState v2).is_valid = true ∧
      (varHeadState v2).value = c.value ∧
      (∃ c2 r2, v2.states = c2 :: r2) := by
  simp only [createVariableFinish, hfv]
  have hcommon : ∀ s2 : Store,
      findVarIn s2 pname true vname = some v' →
      ∃ v2, findVarIn (if true = true then addToChangesStackVar
          (modifyVarIn s2 pname true vname
            (varMutateHead fun h => { h with is_valid := true })) pname vname
        else modifyVarIn s2 pname true vname
          (varMutateHead fun h => { h with is_valid := true })) pname true vname
        = some v2 ∧
      v2.typid = v'.typid ∧ v2.is_record = v'.is_record ∧
      (varHeadState v2).is_valid = true ∧
      (varHeadState v2).value = c.value ∧
      (∃ c2 r2, v2.states = c2 :: r2) := by
    intro s2 hfv2
    simp only [if_true]
    have hvb : findVarIn (modifyVarIn s2 pname true vname
        (varMutateHead fun h => { h with is_valid := true })) pname true vname
        = some (varMutateHead (fun h => { h with is_valid := true }) v') := by
      rw [findVarIn_modifyVarIn_same _ _ _ _ _ (varMutateHead_name _), hfv2]
      rfl
    have hvbst : (varMutateHead (fun h => { h with is_valid := true }) v').states
        = { level := c.level, is_valid := true, value := c.value } :: r := by
      rw [varMutateHead_states_cons _ _ _ _ hst]
    have hvbhd : varHeadState (varMutateHead (fun h => { h with is_valid := true }) v')
        = { level := c.level, is_valid := true, value := c.value } := by
      unfold varHeadState
      rw [hvbst]
      rfl
    cases hlv : ((varHeadState (varMutateHead (fun h => { h with is_valid := true })
        v')).level == (modifyVarIn s2 pname true vname
          (varMutateHead fun h => { h with is_valid := true })).currentLevel) with
    | true =>
      refine ⟨varMutateHead (fun h => { h with is_valid := true }) v', ?_, ?_, ?_, ?_, ?_, ?_⟩
      · exact findVarIn_addToChangesStackVar_changed _ pname vname _ hvb hlv
      · exact varMutateHead_typid _ v'
      · exact varMutateHead_is_record _ v'
      · rw [hvbhd]
      · rw [hvbhd]
      · exact ⟨_, _, hvbst⟩
    | false =>
      refine ⟨_, findVarIn_addToChangesStackVar_same _ pname vname _ hvb hlv,
        ?_, ?_, ?_, ?_, ?_⟩
      · rw [varMutateHead_typid, varMutateHead_typid]
      · rw [varMutateHead_is_record, varMutateHead_is_record]
      · rw [varHeadState_varMutateHead_cons _ _ _ _ hvbst]
      · rw [varHeadState_varMutateHead_cons _ _ _ _ hvbst]
      · exact ⟨_, _, varMutateHead_states_cons _ _ _ _ hvbst⟩
  cases hc1 : (true && (!found || !(varHeadState v').is_valid)) with
  | true =>
    simp only [hc1, if_true]
    exact hcommon
      (modifyPack s1 pname (packMutateHead fun h =>
        { h with trans_var_num := h.trans_var_num + 1 }))
      (by rw [findVarIn_modifyPack_mutateHead]; exact hfv)
  | false =>
    simp only [hc1, Bool.false_eq_true, if_false]
    exact hcommon s1 hfv

/-- The package projection tracked through `createVariableInternal`:
head validity, stack emptiness, and the regular table. -/
def packProjV (p : Package) : Bool × Bool × Option (List Variable) :=
  ((packHeadState p).is_valid, p.states.isEmpty, p.varHashRegular)

theorem packProjV_set_pack_htab_true (p : Package) (t : Option (List Variable)) :
    packProjV (set_pack_htab p true t) = packProjV p := rfl

theorem packProjV_packMutateHead (g : PackState → PackState)
    (hg : ∀ h, (g h).is_valid = h.is_valid) (p : Package) :
    packProjV (packMutateHead g p) = packProjV p := by
  obtain ⟨nm, vr, vt, sts⟩ := p
  cases sts with
  | nil => rfl
  | cons h t =>
    simp [packProjV, packMutateHead, packHeadState, hg h]

theorem packProjV_createSavepointPackObj (p : Package) :
    packProjV (createSavepointPackObj p) = packProjV p := by
  obtain ⟨nm, vr, vt, sts⟩ := p
  cases sts <;> rfl

theorem findPack_projV_finish_steps (s2 : Store) (pname vname : String) (found : Bool) :
    (findPack (createVariableFinish s2 pname vname true found) pname).map packProjV
      = (findPack s2 pname).map packProjV := by
  unfold createVariableFinish
  cases hfv2 : findVarIn s2 pname true vname with
  | none => simp only [hfv2]
  | some v' =>
    simp only [hfv2, if_true]
    rw [findPack_proj_addToChangesStackVar packProjV packProjV_set_pack_htab_true]
    have hmv : ∀ (s3 : Store) (f : Variable → Variable),
        (findPack (modifyVarIn s3 pname true vname f) pname).map packProjV
          = (findPack s3 pname).map packProjV := by
      intro s3 f
      unfold modifyVarIn
      exact findPack_proj_modifyPack packProjV s3 pname _
        (fun p => set_pack_htab_name _ _ _) (fun p => packProjV_set_pack_htab_true p _)
        pname
    rw [hmv]
    cases hc1 : (true && (!found || !(varHeadState v').is_valid)) with
    | true =>
      simp only [hc1, if_true]
      exact findPack_proj_modifyPack packProjV s2 pname
        (packMutateHead fun h => { h with trans_var_num := h.trans_var_num + 1 })
        (packMutateHead_name _)
        (packProjV_packMutateHead (fun h => { h with trans_var_num := h.trans_var_num + 1 })
          (fun h => rfl)) pname
    | false =>
      simp only [hc1, Bool.false_eq_true, if_false]

/-- Object-level success inversion of `createVariableInternal` (tr = true):
the key is the name (thus short), the name collides with no regular
variable, the package's head validity / stack emptiness / regular table
are untouched, and the named transactional variable ends with type
`typid`, scalar kind, and a valid head. -/
theorem createVariableInternal_object (s₁ : Store) (pname vname : String) (typid : Nat)
    (k2 : String) (s₂ : Store) (p1 : Package) (tblA : List Variable)
    (hfp1 : findPack s₁ pname = some p1)
    (htabA : pack_htab p1 true = some tblA)
    (hwne : ∀ w ∈ tblA, w.states ≠ [])
    (hok : createVariableInternal s₁ pname vname typid false true = .ok (k2, s₂)) :
    k2 = vname ∧ vname.length ≤ NAMEDATALEN - 2 ∧
    varLookup false vname p1 = none ∧
    (findPack s₂ pname).map packProjV = some (packProjV p1) ∧
    ∃ v2, findVarIn s₂ pname true vname = some v2 ∧
      v2.typid = typid ∧ v2.is_record = false ∧
      (varHeadState v2).is_valid = true ∧
      (∃ c2 r2, v2.states = c2 :: r2) := by
  cases hkey : getKeyFromName vname with
  | error e =>
    unfold createVariableInternal at hok
    rw [hkey] at hok
    simp only [bind, Except.bind] at hok
    exact Except.noConfusion hok
  | ok key =>
    have hkv : key = vname := getKeyFromName_ok_inv vname key hkey
    have hlen : vname.length ≤ NAMEDATALEN - 2 := getKeyFromName_ok_len vname key hkey
    unfold createVariableInternal at hok
    rw [hkey] at hok
    simp only [bind, Except.bind, hfp1, Bool.not_true] at hok
    rw [hkv] at hok
    have hnoconf : (match pack_htab p1 false with
        | some tbl => (findVar tbl vname).isSome
        | none => false) = false := by
      cases hop : pack_htab p1 false with
      | none => rfl
      | some tblO =>
        cases hfo : (findVar tblO vname).isSome with
        | false =>
          show (findVar tblO vname).isSome = false
          exact hfo
        | true =>
          simp only [hop, hfo, if_true] at hok
          exact Except.noConfusion hok
    have hvl : varLookup false vname p1 = none := by
      unfold varLookup
      cases hop : pack_htab p1 false with
      | none => rfl
      | some tblO =>
        rw [hop] at hnoconf
        simp only at hnoconf
        exact Option.not_isSome_iff_eq_none.mp (by rw [hnoconf]; exact Bool.false_ne_true)
    simp only [hnoconf, Bool.false_eq_true, if_false, htabA, Option.getD_some] at hok
    cases hfv0 : findVar tblA vname with
    | some v1 =>
      simp only [hfv0] at hok
      cases hty : (v1.typid != typid) with
      | true =>
        rw [hty] at hok
        simp only [if_true] at hok
        exact Except.noConfusion hok
      | false =>
        rw [hty] at hok
        simp only [Bool.false_eq_true, if_false] at hok
        cases hkind : (v1.is_record != false) with
        | true =>
          rw [hkind] at hok
          simp only [if_true] at hok
          exact Except.noConfusion hok
        | false =>
          rw [hkind] at hok
          simp only [Bool.false_eq_true, if_false] at hok
          injection hok with hpair
          rw [Prod.mk.injEq] at hpair
          obtain ⟨hk, hs⟩ := hpair
          subst hs
          have htyv : v1.typid = typid := by simpa using hty
          have hkindv : v1.is_record = false := by simpa using hkind
          have hvne : v1.states ≠ [] := hwne v1 (List.mem_of_find?_eq_some hfv0)
          have hfvs : findVarIn s₁ pname true vname = some v1 := by
            simp only [findVarIn, hfp1, htabA]
            exact hfv0
          refine ⟨hk.symm, hlen, hvl, ?_, ?_⟩
          · rw [findPack_projV_finish_steps]
            by_cases hch : (true && !(isObjectChangedInCurrentTransVar s₁ v1)) = true
            · simp only [hch, if_true]
              unfold createSavepointVar modifyVarIn
              rw [findPack_proj_modifyPack packProjV s₁ pname _
                (fun p => set_pack_htab_name _ _ _)
                (fun p => packProjV_set_pack_htab_true p _) pname]
              rw [hfp1]
              rfl
            · have hch' : (true && !(isObjectChangedInCurrentTransVar s₁ v1)) = false :=
                Bool.eq_false_iff.mpr (fun he => hch he)
              simp only [hch', Bool.false_eq_true, if_false]
              rw [hfp1]
              rfl
          · cases hst1 : v1.states with
            | nil => exact absurd hst1 hvne
            | cons c1 r1 =>
              by_cases hch : (true && !(isObjectChangedInCurrentTransVar s₁ v1)) = true
              · simp only [hch, if_true]
                have hcso : findVarIn (createSavepointVar s₁ pname vname) pname true vname
                    = some (createSavepointVarObj v1) := by
                  unfold createSavepointVar
                  rw [findVarIn_modifyVarIn_same _ _ _ _ _ createSavepointVarObj_name,
                    hfvs]
                  rfl
                have hcsoSt : (createSavepointVarObj v1).states
                    = { level := 0, is_valid := c1.is_valid,
                        value := copyValue c1.value } :: c1 :: r1 := by
                  simp only [createSavepointVarObj, hst1]
                obtain ⟨v2, hv2, ht2, hr2, hval2, hvalue2, hst2⟩ :=
                  createVariableFinish_object (createSavepointVar s₁ pname vname)
                    pname vname true (createSavepointVarObj v1) _ _ hcso hcsoSt
                refine ⟨v2, hv2, ?_, ?_, hval2, hst2⟩
                · rw [ht2, createSavepointVarObj_typid, htyv]
                · rw [hr2, createSavepointVarObj_is_record, hkindv]
              · have hch' : (true && !(isObjectChangedInCurrentTransVar s₁ v1)) = false :=
                  Bool.eq_false_iff.mpr (fun he => hch he)
                simp only [hch', Bool.false_eq_true, if_false]
                obtain ⟨v2, hv2, ht2, hr2, hval2, hvalue2, hst2⟩ :=
                  createVariableFinish_object s₁ pname vname true v1 c1 r1 hfvs hst1
                refine ⟨v2, hv2, ?_, ?_, hval2, hst2⟩
                · rw [ht2, htyv]
                · rw [hr2, hkindv]
    | none =>
      simp only [hfv0] at hok
      injection hok with hpair
      rw [Prod.mk.injEq] at hpair
      obtain ⟨hk, hs⟩ := hpair
      subst hs
      have hfq1 : findPack (modifyPack s₁ pname (fun p =>
          set_pack_htab p true (some ((pack_htab p true).getD []
            ++ [{ name := vname, typid := typid, is_record := false,
                  is_transactional := true, is_deleted := false,
                  states := [initObjectHistoryVarState false] }])))) pname
          = some (set_pack_htab p1 true (some (tblA
            ++ [{ name := vname, typid := typid, is_record := false,
                  is_transactional := true, is_deleted := false,
                  states := [initObjectHistoryVarState false] }]))) := by
        rw [findPack_modifyPack_same s₁ pname _ (fun p => set_pack_htab_name _ _ _),
          hfp1]
        simp only [Option.map_some', htabA, Option.getD_some]
      have htabq1 : pack_htab (set_pack_htab p1 true (some (tblA
          ++ [{ name := vname, typid := typid, is_record := false,
                is_transactional := true, is_deleted := false,
                states := [initObjectHistoryVarState false] }]))) true
          = some (tblA
            ++ [{ name := vname, typid := typid, is_record := false,
                  is_transactional := true, is_deleted := false,
                  states := [initObjectHistoryVarState false] }]) :=
        pack_htab_set_pack_htab _ _ _
      have hfvnew : findVarIn (modifyPack s₁ pname (fun p =>
          set_pack_htab p true (some ((pack_htab p true).getD []
            ++ [{ name := vname, typid := typid, is_record := false,
                  is_transactional := true, is_deleted := false,
                  states := [initObjectHistoryVarState false] }])))) pname true vname
          = some { name := vname, typid := typid, is_record := false,
                   is_transactional := true, is_deleted := false,
                   states := [initObjectHistoryVarState false] } := by
        simp only [findVarIn, hfq1, htabq1]
        exact findVar_append_new tblA vname _ hfv0 (by simp)
      simp only [hfq1]
      have hmain : ∀ s2 : Store,
          (findPack s2 pname).map packProjV = some (packProjV p1) →
          findVarIn s2 pname true vname
            = some { name := vname, typid := typid, is_record := false,
                     is_transactional := true, is_deleted := false,
                     states := [initObjectHistoryVarState false] } →
          ((findPack (createVariableFinish s2 pname vname true false) pname).map packProjV
            = some (packProjV p1) ∧
          ∃ v2, findVarIn (createVariableFinish s2 pname vname true false)
              pname true vname = some v2 ∧
            v2.typid = typid ∧ v2.is_record = false ∧
            (varHeadState v2).is_valid = true ∧
            (∃ c2 r2, v2.states = c2 :: r2)) := by
        intro s2 hproj hfv2
        constructor
        · rw [findPack_projV_finish_steps]
          exact hproj
        · obtain ⟨v2, hv2, ht2, hr2, hval2, hvalue2, hst2⟩ :=
            createVariableFinish_object s2 pname vname false _
              (initObjectHistoryVarState false) [] hfv2 rfl
          exact ⟨v2, hv2, ht2, hr2, hval2, hst2⟩
      refine ⟨hk.symm, hlen, hvl, ?_⟩
      by_cases hch2 : isObjectChangedInCurrentTransPack (modifyPack s₁ pname (fun p =>
          set_pack_htab p true (some ((pack_htab p true).getD []
            ++ [{ name := vname, typid := typid, is_record := false,
                  is_transactional := true, is_deleted := false,
                  states := [initObjectHistoryVarState false] }]))))
          (set_pack_htab p1 true (some (tblA
            ++ [{ name := vname, typid := typid, is_record := false,
                  is_transactional := true, is_deleted := false,
                  states := [initObjectHistoryVarState false] }]))) = true
      · simp only [hch2, Bool.not_true, Bool.false_eq_true, if_false]
        exact hmain _ (by rw [hfq1]; simp only [Option.map_some',
          packProjV_set_pack_htab_true]) hfvnew
      · have hch2' : isObjectChangedInCurrentTransPack (modifyPack s₁ pname (fun p =>
            set_pack_htab p true (some ((pack_htab p true).getD []
              ++ [{ name := vname, typid := typid, is_record := false,
                    is_transactional := true, is_deleted := false,
                    states := [initObjectHistoryVarState false] }]))))
            (set_pack_htab p1 true (some (tblA
              ++ [{ name := vname, typid := typid, is_record := false,
                    is_transactional := true, is_deleted := false,
                    states := [initObjectHistoryVarState false] }]))) = false :=
          Bool.eq_false_iff.mpr (fun he => hch2 he)
        simp only [hch2', Bool.not_false, if_true]
        apply hmain
        · rw [findPack_proj_addToChangesStackPack packProjV
            (fun lvl q => packProjV_packMutateHead
              (fun h => { h with level := lvl }) (fun h => rfl) q)]
          unfold createSavepointPack
          rw [findPack_proj_modifyPack packProjV _ pname _ createSavepointPackObj_name
            packProjV_createSavepointPackObj pname]
          rw [hfq1]
          simp only [Option.map_some', packProjV_set_pack_htab_true]
        · rw [findVarIn_addToChangesStackPack, findVarIn_createSavepointPack]
          exact hfvnew

/-- Through `finishCreatePackage` (transactional flavor) the found package
keeps its head validity, stack emptiness and regular table, and ends with
its transactional table materialized. -/
theorem finishCreatePackage_inv (s4 : Store) (pname : String) (P : Package)
    (hf4 : findPack s4 pname = some P) :
    ∃ p1, findPack (finishCreatePackage s4 pname true) pname = some p1 ∧
      packProjV p1 = packProjV P ∧
      pack_htab p1 true = some ((pack_htab P true).getD []) := by
  have hgname : ∀ p : Package, (match pack_htab p true with
      | none => set_pack_htab p true (some [])
      | some _ => p).name = p.name := by
    intro p
    cases htab : pack_htab p true with
    | none => exact set_pack_htab_name p true (some [])
    | some tb => rfl
  have hgP : packProjV (match pack_htab P true with
      | none => set_pack_htab P true (some [])
      | some _ => P) = packProjV P := by
    cases htab : pack_htab P true with
    | none => exact packProjV_set_pack_htab_true P (some [])
    | some tb => rfl
  have hgT : pack_htab (match pack_htab P true with
      | none => set_pack_htab P true (some [])
      | some _ => P) true = some ((pack_htab P true).getD []) := by
    cases htab : pack_htab P true with
    | none => exact pack_htab_set_pack_htab P true (some [])
    | some tb =>
      show pack_htab P true = some ((some tb).getD [])
      rw [htab]
      rfl
  have hf5 : findPack (modifyPack s4 pname (fun p => match pack_htab p true with
      | none => set_pack_htab p true (some [])
      | some _ => p)) pname
      = some (match pack_htab P true with
        | none => set_pack_htab P true (some [])
        | some _ => P) := by
    rw [findPack_modifyPack_same s4 pname _ hgname, hf4]
    rfl
  unfold finishCreatePackage
  by_cases hch : isObjectChangedInCurrentTransPack (modifyPack s4 pname (fun p =>
      match pack_htab p true with
      | none => set_pack_htab p true (some [])
      | some _ => p)) (match pack_htab P true with
        | none => set_pack_htab P true (some [])
        | some _ => P) = true
  · simp only [hf5, hch, Bool.not_true, Bool.false_eq_true, if_false]
    exact ⟨_, rfl, hgP, hgT⟩
  · have hch' : isObjectChangedInCurrentTransPack (modifyPack s4 pname (fun p =>
        match pack_htab p true with
        | none => set_pack_htab p true (some [])
        | some _ => p)) (match pack_htab P true with
          | none => set_pack_htab P true (some [])
          | some _ => P) = false :=
      Bool.eq_false_iff.mpr (fun he => hch he)
    simp only [hf5, hch', Bool.not_false, if_true]
    have hproj := findPack_proj_addToChangesStackPack
      (fun p => (packProjV p, pack_htab p true))
      (fun lvl q => by
        rw [Prod.mk.injEq]
        exact ⟨packProjV_packMutateHead (fun h => { h with level := lvl })
          (fun h => rfl) q, pack_htab_packMutateHead q _ true⟩)
      (modifyPack s4 pname (fun p => match pack_htab p true with
        | none => set_pack_htab p true (some [])
        | some _ => p)) pname pname
    rw [hf5] at hproj
    cases hf6 : findPack (addToChangesStackPack (modifyPack s4 pname (fun p =>
        match pack_htab p true with
        | none => set_pack_htab p true (some [])
        | some _ => p)) pname) pname with
    | none =>
      rw [hf6] at hproj
      exact absurd hproj (by simp)
    | some p1 =>
      rw [hf6] at hproj
      simp only [Option.map_some', Option.some_inj, Prod.mk.injEq] at hproj
      exact ⟨p1, rfl, hproj.1.trans hgP, hproj.2.trans hgT⟩

theorem findPack_ensurePackagesHashExists (s : Store) (k : String) :
    findPack (ensurePackagesHashExists s) k = findPack s k := by
  unfold ensurePackagesHashExists
  cases hph : s.packagesHash with
  | some l => rfl
  | none =>
    unfold findPack
    rw [hph]
    rfl

/-- Success inversion of `createPackage` (transactional flavor) on a store
where the package is absent or valid with well-formed stacks: the key is
the name, and the resulting package is valid with a materialized
transactional table of well-formed variables. -/
theorem createPackage_valid_inv (s : Store) (pname k : String) (s₁ : Store)
    (hcase : findPack s pname = none ∨
      ∃ p0, findPack s pname = some p0 ∧ p0.states ≠ [] ∧
        (packHeadState p0).is_valid = true ∧
        (∀ w ∈ (p0.varHashTransact.getD []), w.states ≠ []))
    (hok : createPackage s pname true = .ok (k, s₁)) :
    k = pname ∧ pname.length ≤ NAMEDATALEN - 2 ∧
    ∃ p1 tblA, findPack s₁ pname = some p1 ∧
      (packHeadState p1).is_valid = true ∧ p1.states ≠ [] ∧
      pack_htab p1 true = some tblA ∧
      (∀ w ∈ tblA, w.states ≠ []) := by
  cases hkey : getKeyFromName pname with
  | error e =>
    unfold createPackage at hok
    rw [hkey] at hok
    simp only [bind, Except.bind] at hok
    exact Except.noConfusion hok
  | ok key =>
    have hkv : key = pname := getKeyFromName_ok_inv pname key hkey
    have hlen : pname.length ≤ NAMEDATALEN - 2 := getKeyFromName_ok_len pname key hkey
    unfold createPackage at hok
    rw [hkey] at hok
    simp only [bind, Except.bind] at hok
    rw [hkv] at hok
    have hstatesNe : ∀ (p1 : Package) (P : Package), packProjV p1 = packProjV P →
        P.states ≠ [] → p1.states ≠ [] := by
      intro p1 P hpp hP
      have h2 : p1.states.isEmpty = P.states.isEmpty := by
        have := congrArg (fun x => x.2.1) hpp
        simpa [packProjV] using this
      intro he
      rw [he] at h2
      cases hPs : P.states with
      | nil => exact hP hPs
      | cons a t =>
        rw [hPs] at h2
        simp [List.isEmpty] at h2
    have hvalidOf : ∀ (p1 : Package) (P : Package), packProjV p1 = packProjV P →
        (packHeadState P).is_valid = true → (packHeadState p1).is_valid = true := by
      intro p1 P hpp hP
      have h2 := congrArg (fun x => x.1) hpp
      simp only [packProjV] at h2
      rw [h2]
      exact hP
    cases hcase with
    | inr hfound =>
      obtain ⟨p0, hfp, hpst, hval, hwne⟩ := hfound
      have hens : ensurePackagesHashExists s = s := by
        unfold ensurePackagesHashExists
        cases hph : s.packagesHash with
        | some l => rfl
        | none =>
          have hnone : findPack s pname = none := by
            unfold findPack
            rw [hph]
            rfl
          rw [hnone] at hfp
          exact Option.noConfusion hfp
      rw [hens] at hok
      simp only [hfp] at hok
      by_cases hch : isObjectChangedInCurrentTransPack s p0 = true
      · simp only [hch, Bool.not_true, Bool.false_eq_true, if_false, hfp,
          Option.getD_some, hval, Bool.not_true] at hok
        injection hok with hpair
        rw [Prod.mk.injEq] at hpair
        obtain ⟨hk, hs⟩ := hpair
        subst hs
        obtain ⟨p1, hf1, hpp, hpt⟩ := finishCreatePackage_inv s pname p0 hfp
        refine ⟨hk.symm, hlen, p1, (pack_htab p0 true).getD [], hf1,
          hvalidOf p1 p0 hpp hval, hstatesNe p1 p0 hpp hpst, hpt, hwne⟩
      · have hch' : isObjectChangedInCurrentTransPack s p0 = false :=
          Bool.eq_false_iff.mpr (fun he => hch he)
        simp only [hch', Bool.not_false, if_true] at hok
        have hf2 : findPack (createSavepointPack s pname) pname
            = some (createSavepointPackObj p0) := by
          unfold createSavepointPack
          rw [findPack_modifyPack_same s pname _ createSavepointPackObj_name, hfp]
          rfl
        have hvalC : (packHeadState (createSavepointPackObj p0)).is_valid = true :=
          hvalidOf _ p0 (packProjV_createSavepointPackObj p0) hval
        simp only [hf2, Option.getD_some, hvalC, Bool.not_true, Bool.false_eq_true,
          if_false] at hok
        injection hok with hpair
        rw [Prod.mk.injEq] at hpair
        obtain ⟨hk, hs⟩ := hpair
        subst hs
        obtain ⟨p1, hf1, hpp, hpt⟩ := finishCreatePackage_inv _ pname
          (createSavepointPackObj p0) hf2
        have hpp0 : packProjV p1 = packProjV p0 :=
          hpp.trans (packProjV_createSavepointPackObj p0)
        refine ⟨hk.symm, hlen, p1, (pack_htab (createSavepointPackObj p0) true).getD [],
          hf1, hvalidOf p1 p0 hpp0 hval, hstatesNe p1 p0 hpp0 hpst, hpt, ?_⟩
        rw [pack_htab_createSavepointPackObj]
        exact hwne
    | inl habs =>
      rw [findPack_ensurePackagesHashExists] at hok
      simp only [habs] at hok
      have hphe : ∃ l', (ensurePackagesHashExists s).packagesHash = some l' := by
        unfold ensurePackagesHashExists
        cases hph : s.packagesHash with
        | some l => exact ⟨l, by simp [hph]⟩
        | none => exact ⟨[], by simp [hph]⟩
      obtain ⟨l', hl'⟩ := hphe
      have hnone' : l'.find? (fun p => p.name == pname) = none := by
        have h1 : findPack (ensurePackagesHashExists s) pname = none := by
          rw [findPack_ensurePackagesHashExists]
          exact habs
        unfold findPack at h1
        rw [hl'] at h1
        exact h1
      have hfnew : findPack { ensurePackagesHashExists s with
          packagesHash := (ensurePackagesHashExists s).packagesHash.map (fun tbl =>
            tbl ++ [{ name := pname, varHashRegular := none, varHashTransact := none,
                      states := [initObjectHistoryPackState] }]) } pname
          = some { name := pname, varHashRegular := none, varHashTransact := none,
                   states := [initObjectHistoryPackState] } := by
        unfold findPack
        show ((((ensurePackagesHashExists s).packagesHash).map _).getD []).find? _ = _
        rw [hl']
        simp only [Option.map_some', Option.getD_some]
        exact find?_append_some _ l' _ hnone' (by simp)
      injection hok with hpair
      rw [Prod.mk.injEq] at hpair
      obtain ⟨hk, hs⟩ := hpair
      subst hs
      obtain ⟨p1, hf1, hpp, hpt⟩ := finishCreatePackage_inv _ pname _ hfnew
      refine ⟨hk.symm, hlen, p1, [], hf1,
        hvalidOf p1 _ hpp rfl, hstatesNe p1 _ hpp (by simp), hpt, ?_⟩
      intro w hw
      exact absurd hw (List.not_mem_nil w)

/-- Reading a present, valid scalar variable: `variable_get` returns its
head scalar. -/
theorem variable_get_of_facts (s' : Store) (pname vname : String) (typid : Nat)
    (strict : Bool) (x : Int) (nullf : Bool) (p' : Package) (v' : Variable)
    (hlenp : pname.length ≤ NAMEDATALEN - 2)
    (hlenv : vname.length ≤ NAMEDATALEN - 2)
    (hfp : findPack s' pname = some p')
    (hpv : (packHeadState p').is_valid = true)
    (hreg : (match p'.varHashRegular with
      | some tbl => findVar tbl vname
      | none => none) = none)
    (hfv : findVarIn s' pname true vname = some v')
    (hty : v'.typid = typid)
    (hrec : v'.is_record = false)
    (hvv : (varHeadState v').is_valid = true)
    (hval : (varHeadState v').value = .scalar { value := x, is_null := nullf }) :
    variable_get s' pname vname typid strict = .ok (x, nullf) := by
  have htr : (match p'.varHashTransact with
      | some tbl => findVar tbl vname
      | none => none) = some v' := by
    have h1 : findVarIn s' pname true vname
        = (match p'.varHashTransact with
          | some tbl => findVar tbl vname
          | none => none) := by
      simp only [findVarIn, hfp]
      show (match p'.varHashTransact with
        | none => none
        | some tbl => findVar tbl vname) = _
      cases p'.varHashTransact with
      | none => rfl
      | some tbl => rfl
    rw [← h1]
    exact hfv
  unfold variable_get getPackage getVariableInternal
  rw [getKeyFromName_ok pname hlenp, getKeyFromName_ok vname hlenv]
  simp only [bind, Except.bind, hfp, hpv, if_true, hreg, htr]
  have hnostrict : (!(varHeadState v').is_valid && strict) = false := by
    rw [hvv]
    rfl
  by_cases hio : (typid != InvalidOid) = true
  · have htyok : (v'.typid != typid) = false := by
      rw [hty]
      simp
    have hkindok : (v'.is_record != false) = false := by
      rw [hrec]
      rfl
    simp only [hio, if_true, htyok, hkindok, Bool.false_eq_true, if_false, hnostrict,
      hval]
  · have hio' : (typid != InvalidOid) = false := Bool.eq_false_iff.mpr (fun he => hio he)
    simp only [hio', Bool.false_eq_true, if_false, hnostrict, hval]

theorem pack_htab_set_pack_htab_other (p : Package) (b : Bool)
    (t : Option (List Variable)) :
    pack_htab (set_pack_htab p b t) (!b) = pack_htab p (!b) := by
  cases b <;> rfl

theorem packHeadState_set_pack_htab (p : Package) (b : Bool)
    (t : Option (List Variable)) :
    packHeadState (set_pack_htab p b t) = packHeadState p := by
  cases b <;> rfl

theorem mem_modifyVar (tbl : List Variable) (vk : String) (f : Variable → Variable)
    (w : Variable) (hw : w ∈ modifyVar tbl vk f) :
    ∃ u ∈ tbl, w = f u ∨ w = u := by
  unfold modifyVar at hw
  obtain ⟨u, hu, he⟩ := List.mem_map.mp hw
  by_cases hn : (u.name == vk) = true
  · exact ⟨u, hu, Or.inl (by rw [← he, if_pos hn])⟩
  · exact ⟨u, hu, Or.inr (by rw [← he, if_neg hn])⟩

theorem createSavepointVarObj_states_ne (v : Variable) (h : v.states ≠ []) :
    (createSavepointVarObj v).states ≠ [] := by
  cases hs : v.states with
  | nil => exact absurd hs h
  | cons c r => simp [createSavepointVarObj, hs]

theorem varMutateHead_states_ne (f : VarState → VarState) (v : Variable)
    (h : v.states ≠ []) : (varMutateHead f v).states ≠ [] := by
  cases hs : v.states with
  | nil =>
    unfold varMutateHead
    rw [hs]
    exact h
  | cons c r => simp [varMutateHead, hs]

/-- The package shape carried through `createPackage`: head validity on a
nonempty stack, and no variable of either table with an empty state
stack. -/
def packOkT (p : Package) : Prop :=
  (packHeadState p).is_valid = true ∧ p.states ≠ [] ∧
  (∀ w ∈ (pack_htab p true).getD [], w.states ≠ []) ∧
  (∀ w ∈ (pack_htab p false).getD [], w.states ≠ [])

theorem packOkT_tbl (p : Package) (b : Bool) (hok : packOkT p) :
    ∀ w ∈ (pack_htab p b).getD [], w.states ≠ [] := by
  cases b
  · exact hok.2.2.2
  · exact hok.2.2.1

theorem states_ne_of_modifyVar (tbl : List Variable) (vk : String)
    (f : Variable → Variable)
    (hfs : ∀ v, v.states ≠ [] → (f v).states ≠ [])
    (hw : ∀ w ∈ tbl, w.states ≠ []) :
    ∀ w ∈ modifyVar tbl vk f, w.states ≠ [] := by
  intro w hmem
  obtain ⟨u, hu, hc⟩ := mem_modifyVar tbl vk f w hmem
  cases hc with
  | inl h => rw [h]; exact hfs u (hw u hu)
  | inr h => rw [h]; exact hw u hu

theorem packOkT_modTable (p : Package) (b : Bool) (vk : String)
    (f : Variable → Variable)
    (hfs : ∀ v, v.states ≠ [] → (f v).states ≠ [])
    (hok : packOkT p) :
    packOkT (set_pack_htab p b
      ((pack_htab p b).map (fun tbl => modifyVar tbl vk f))) := by
  obtain ⟨h1, h2, h3, h4⟩ := hok
  have hmodb : ∀ w ∈ ((pack_htab p b).map (fun tbl => modifyVar tbl vk f)).getD [],
      w.states ≠ [] := by
    cases htb : pack_htab p b with
    | none => intro w hw; exact absurd hw (List.not_mem_nil w)
    | some tb =>
      simp only [Option.map_some', Option.getD_some]
      refine states_ne_of_modifyVar tb vk f hfs ?_
      intro w hw
      apply packOkT_tbl p b ⟨h1, h2, h3, h4⟩
      rw [htb]
      exact hw
  refine ⟨?_, ?_, ?_, ?_⟩
  · rw [packHeadState_set_pack_htab]; exact h1
  · rw [set_pack_htab_states]; exact h2
  · cases b
    · have he : pack_htab (set_pack_htab p false
          ((pack_htab p false).map (fun tbl => modifyVar tbl vk f))) true
          = pack_htab p true :=
        pack_htab_set_pack_htab_other p false _
      intro w hw
      apply h3
      rw [← he]
      exact hw
    · rw [pack_htab_set_pack_htab]
      exact hmodb
  · cases b
    · rw [pack_htab_set_pack_htab]
      exact hmodb
    · have he : pack_htab (set_pack_htab p true
          ((pack_htab p true).map (fun tbl => modifyVar tbl vk f))) false
          = pack_htab p false :=
        pack_htab_set_pack_htab_other p true _
      intro w hw
      apply h4
      rw [← he]
      exact hw

theorem packOk_findPack_modifyVarIn (s : Store) (pk : String) (b : Bool) (vk : String)
    (f : Variable → Variable)
    (hfs : ∀ v, v.states ≠ [] → (f v).states ≠ [])
    (hex : ∃ p, findPack s pk = some p ∧ packOkT p) :
    ∃ p, findPack (modifyVarIn s pk b vk f) pk = some p ∧ packOkT p := by
  obtain ⟨p, hp, hok⟩ := hex
  refine ⟨_, ?_, packOkT_modTable p b vk f hfs hok⟩
  unfold modifyVarIn
  rw [findPack_modifyPack_same s pk _ (fun q => set_pack_htab_name _ _ _), hp]
  rfl

theorem packOk_addToChangesStackVar (s : Store) (pk vk : String)
    (hex : ∃ p, findPack s pk = some p ∧ packOkT p) :
    ∃ p, findPack (addToChangesStackVar s pk vk) pk = some p ∧ packOkT p := by
  unfold addToChangesStackVar
  have hp : ∀ s3 : Store, s3.packagesHash = (prepareChangesStack s).packagesHash →
      ∃ p, findPack s3 pk = some p ∧ packOkT p := by
    intro s3 h3
    rw [findPack_eq_of_packagesHash _ s3 h3,
      findPack_eq_of_packagesHash s _ (prepareChangesStack_packagesHash s)]
    exact hex
  cases hf : findVarIn (prepareChangesStack s) pk true vk with
  | none =>
    simp only [hf]
    exact hp _ rfl
  | some v =>
    by_cases hch : isObjectChangedInCurrentTransVar (prepareChangesStack s) v = true
    · simp only [hf, hch, if_true]
      exact hp _ rfl
    · have hch' : isObjectChangedInCurrentTransVar (prepareChangesStack s) v = false :=
        Bool.eq_false_iff.mpr (fun he => hch he)
      simp only [hf, hch', Bool.false_eq_true, if_false]
      have hstep : ∀ s3 : Store, s3.packagesHash = (prepareChangesStack s).packagesHash →
          ∃ p, findPack (modifyVarIn s3 pk true vk
            (varMutateHead fun h => { h with level := s3.currentLevel })) pk
            = some p ∧ packOkT p := by
        intro s3 h3
        exact packOk_findPack_modifyVarIn s3 pk true vk _
          (fun w => varMutateHead_states_ne _ w) (hp s3 h3)
      cases hcs : (prepareChangesStack s).changesStack with
      | none =>
        simp only [hcs]
        exact hstep _ rfl
      | some l =>
        cases l with
        | nil =>
          simp only [hcs]
          exact hstep _ rfl
        | cons fr rest =>
          simp only [hcs]
          exact hstep _ rfl

theorem packOk_resurrectVarStep (s : Store) (pk vk : String)
    (hex : ∃ p, findPack s pk = some p ∧ packOkT p) :
    ∃ p, findPack (resurrectVarStep s pk vk) pk = some p ∧ packOkT p := by
  unfold resurrectVarStep
  cases hfv : findVarIn s pk true vk with
  | none =>
    simp only [hfv]
    exact hex
  | some v =>
    simp only [hfv]
    by_cases hch : isObjectChangedInCurrentTransVar s v = true
    · simp only [hch, Bool.not_true, Bool.false_eq_true, if_false]
      exact packOk_findPack_modifyVarIn s pk true vk _
        (fun w => varMutateHead_states_ne _ w) hex
    · have hch' : isObjectChangedInCurrentTransVar s v = false :=
        Bool.eq_false_iff.mpr (fun he => hch he)
      simp only [hch', Bool.not_false, if_true]
      apply packOk_findPack_modifyVarIn _ pk true vk _
        (fun w => varMutateHead_states_ne _ w)
      apply packOk_addToChangesStackVar
      exact packOk_findPack_modifyVarIn s pk true vk createSavepointVarObj
        (fun w => createSavepointVarObj_states_ne w) hex

theorem packOk_resurrect_fold (pk : String) (tbl : List Variable) :
    ∀ s : Store, (∃ p, findPack s pk = some p ∧ packOkT p) →
    ∃ p, findPack (tbl.foldl (fun st v => resurrectVarStep st pk v.name) s) pk
      = some p ∧ packOkT p := by
  induction tbl with
  | nil => intro s hex; exact hex
  | cons a t ih =>
    intro s hex
    exact ih _ (packOk_resurrectVarStep s pk a.name hex)

/-- The package signature preserved by the changes-stack bookkeeping of
`createPackage`: head validity, stack emptiness, and both tables. -/
def packSig (p : Package) :
    Bool × Bool × Option (List Variable) × Option (List Variable) :=
  ((packHeadState p).is_valid, p.states.isEmpty, p.varHashTransact, p.varHashRegular)

theorem packSig_packMutateHead (g : PackState → PackState)
    (hg : ∀ h, (g h).is_valid = h.is_valid) (p : Package) :
    packSig (packMutateHead g p) = packSig p := by
  obtain ⟨nm, vr, vt, sts⟩ := p
  cases sts with
  | nil => rfl
  | cons h t => simp [packSig, packMutateHead, packHeadState, hg h]

theorem packOkT_of_sig (a b : Package) (h : packSig a = packSig b) (hb : packOkT b) :
    packOkT a := by
  obtain ⟨h1, h2, h3, h4⟩ := hb
  have e1 : (packHeadState a).is_valid = (packHeadState b).is_valid :=
    congrArg (fun x => x.1) h
  have e2 : a.states.isEmpty = b.states.isEmpty := congrArg (fun x => x.2.1) h
  have e3 : a.varHashTransact = b.varHashTransact := congrArg (fun x => x.2.2.1) h
  have e4 : a.varHashRegular = b.varHashRegular := congrArg (fun x => x.2.2.2) h
  refine ⟨by rw [e1]; exact h1, ?_, ?_, ?_⟩
  · intro he
    rw [he] at e2
    cases hbs : b.states with
    | nil => exact h2 hbs
    | cons c r =>
      rw [hbs] at e2
      simp [List.isEmpty] at e2
  · intro w hw
    apply h3
    have ht : pack_htab b true = pack_htab a true := by
      show b.varHashTransact = a.varHashTransact
      rw [e3]
    rw [ht]
    exact hw
  · intro w hw
    apply h4
    have ht : pack_htab b false = pack_htab a false := by
      show b.varHashRegular = a.varHashRegular
      rw [e4]
    rw [ht]
    exact hw

theorem pack_htab_eq_of_sig (a b : Package) (h : packSig a = packSig b) (c : Bool) :
    pack_htab a c = pack_htab b c := by
  cases c
  · show a.varHashRegular = b.varHashRegular
    exact congrArg (fun x => x.2.2.2) h
  · show a.varHashTransact = b.varHashTransact
    exact congrArg (fun x => x.2.2.1) h

theorem packOkT_materialize (p : Package) (b : Bool) (hok : packOkT p) :
    packOkT (match pack_htab p b with
      | none => set_pack_htab p b (some [])
      | some _ => p) ∧
    pack_htab (match pack_htab p b with
      | none => set_pack_htab p b (some [])
      | some _ => p) b = some ((pack_htab p b).getD []) ∧
    pack_htab (match pack_htab p b with
      | none => set_pack_htab p b (some [])
      | some _ => p) (!b) = pack_htab p (!b) := by
  cases htab : pack_htab p b with
  | some tb =>
    refine ⟨hok, ?_, rfl⟩
    rw [htab]
    rfl
  | none =>
    obtain ⟨h1, h2, h3, h4⟩ := hok
    refine ⟨⟨?_, ?_, ?_, ?_⟩, ?_, ?_⟩
    · rw [packHeadState_set_pack_htab]
      exact h1
    · rw [set_pack_htab_states]
      exact h2
    · cases b
      · intro w hw
        apply h3
        have he : pack_htab (set_pack_htab p false (some [])) true
            = pack_htab p true := pack_htab_set_pack_htab_other p false _
        rw [← he]
        exact hw
      · intro w hw
        exact absurd hw (List.not_mem_nil w)
    · cases b
      · intro w hw
        exact absurd hw (List.not_mem_nil w)
      · intro w hw
        apply h4
        have he : pack_htab (set_pack_htab p true (some [])) false
            = pack_htab p false := pack_htab_set_pack_htab_other p true _
        rw [← he]
        exact hw
    · cases b <;> rfl
    · cases b <;> rfl

/-- Through `finishCreatePackage` of either flavor, a well-formed found
package stays well-formed, the requested flavor's table is materialized,
and the other table is untouched. -/
theorem finishCreatePackage_ok (s : Store) (pk : String) (b : Bool) (P : Package)
    (hf : findPack s pk = some P) (hw : packOkT P) :
    ∃ p1, findPack (finishCreatePackage s pk b) pk = some p1 ∧ packOkT p1 ∧
      pack_htab p1 b = some ((pack_htab P b).getD []) ∧
      pack_htab p1 (!b) = pack_htab P (!b) := by
  have hgname : ∀ p : Package, (match pack_htab p b with
      | none => set_pack_htab p b (some [])
      | some _ => p).name = p.name := by
    intro p
    cases htab : pack_htab p b with
    | none => exact set_pack_htab_name p b (some [])
    | some tb => rfl
  obtain ⟨hokG, htabG, hotherG⟩ := packOkT_materialize P b hw
  have hf5 : findPack (modifyPack s pk (fun p => match pack_htab p b with
      | none => set_pack_htab p b (some [])
      | some _ => p)) pk
      = some (match pack_htab P b with
        | none => set_pack_htab P b (some [])
        | some _ => P) := by
    rw [findPack_modifyPack_same s pk _ hgname, hf]
    rfl
  unfold finishCreatePackage
  by_cases hch : isObjectChangedInCurrentTransPack (modifyPack s pk (fun p =>
      match pack_htab p b with
      | none => set_pack_htab p b (some [])
      | some _ => p)) (match pack_htab P b with
        | none => set_pack_htab P b (some [])
        | some _ => P) = true
  · simp only [hf5, hch, Bool.not_true, Bool.false_eq_true, if_false]
    exact ⟨_, rfl, hokG, htabG, hotherG⟩
  · have hch' : isObjectChangedInCurrentTransPack (modifyPack s pk (fun p =>
        match pack_htab p b with
        | none => set_pack_htab p b (some [])
        | some _ => p)) (match pack_htab P b with
          | none => set_pack_htab P b (some [])
          | some _ => P) = false :=
      Bool.eq_false_iff.mpr (fun he => hch he)
    simp only [hf5, hch', Bool.not_false, if_true]
    have hproj := findPack_proj_addToChangesStackPack packSig
      (fun lvl p => packSig_packMutateHead (fun h => { h with level := lvl })
        (fun h => rfl) p)
      (modifyPack s pk (fun p => match pack_htab p b with
        | none => set_pack_htab p b (some [])
        | some _ => p)) pk pk
    rw [hf5] at hproj
    cases hf6 : findPack (addToChangesStackPack (modifyPack s pk (fun p =>
        match pack_htab p b with
        | none => set_pack_htab p b (some [])
        | some _ => p)) pk) pk with
    | none =>
      rw [hf6] at hproj
      exact absurd hproj (by simp)
    | some p1 =>
      rw [hf6] at hproj
      simp only [Option.map_some', Option.some_inj] at hproj
      refine ⟨p1, rfl, packOkT_of_sig p1 _ hproj hokG, ?_, ?_⟩
      · rw [pack_htab_eq_of_sig p1 _ hproj b]
        exact htabG
      · rw [pack_htab_eq_of_sig p1 _ hproj (!b)]
        exact hotherG

/-- Success inversion of `createPackage` (either flavor) on a store whose
package entry, if present, has a nonempty state stack and tables of
variables with nonempty state stacks — covering the absent, valid-head
and invalid-head (resurrection) cases alike: the key is the name and the
resulting package is valid with a materialized table of the requested
flavor, both tables well-formed. -/
theorem createPackage_inv (s : Store) (pname k : String) (s₁ : Store) (tr : Bool)
    (hcase : findPack s pname = none ∨
      ∃ p0, findPack s pname = some p0 ∧ p0.states ≠ [] ∧
        (∀ w ∈ (p0.varHashTransact.getD []), w.states ≠ []) ∧
        (∀ w ∈ (p0.varHashRegular.getD []), w.states ≠ []))
    (hok : createPackage s pname tr = .ok (k, s₁)) :
    k = pname ∧ pname.length ≤ NAMEDATALEN - 2 ∧
    ∃ p1 tblA, findPack s₁ pname = some p1 ∧
      (packHeadState p1).is_valid = true ∧ p1.states ≠ [] ∧
      pack_htab p1 tr = some tblA ∧ (∀ w ∈ tblA, w.states ≠ []) ∧
      (∀ w ∈ (pack_htab p1 (!tr)).getD [], w.states ≠ []) := by
  cases hkey : getKeyFromName pname with
  | error e =>
    unfold createPackage at hok
    rw [hkey] at hok
    simp only [bind, Except.bind] at hok
    exact Except.noConfusion hok
  | ok key =>
    have hkv : key = pname := getKeyFromName_ok_inv pname key hkey
    have hlen : pname.length ≤ NAMEDATALEN - 2 := getKeyFromName_ok_len pname key hkey
    unfold createPackage at hok
    rw [hkey] at hok
    simp only [bind, Except.bind] at hok
    rw [hkv] at hok
    have hmain : ∀ S3 : Store, (∃ P, findPack S3 pname = some P ∧ packOkT P) →
        ∃ p1 tblA, findPack (finishCreatePackage S3 pname tr) pname = some p1 ∧
          (packHeadState p1).is_valid = true ∧ p1.states ≠ [] ∧
          pack_htab p1 tr = some tblA ∧ (∀ w ∈ tblA, w.states ≠ []) ∧
          (∀ w ∈ (pack_htab p1 (!tr)).getD [], w.states ≠ []) := by
      intro S3 hpre
      obtain ⟨P, hfP, hokP⟩ := hpre
      obtain ⟨p1, hf1, hok1, htab1, hother1⟩ :=
        finishCreatePackage_ok S3 pname tr P hfP hokP
      refine ⟨p1, (pack_htab P tr).getD [], hf1, hok1.1, hok1.2.1, htab1, ?_, ?_⟩
      · intro w hw
        apply packOkT_tbl p1 tr hok1
        rw [htab1]
        exact hw
      · exact packOkT_tbl p1 (!tr) hok1
    cases hcase with
    | inl habs =>
      rw [findPack_ensurePackagesHashExists] at hok
      simp only [habs] at hok
      have hphe : ∃ l', (ensurePackagesHashExists s).packagesHash = some l' := by
        unfold ensurePackagesHashExists
        cases hph : s.packagesHash with
        | some l => exact ⟨l, by simp [hph]⟩
        | none => exact ⟨[], by simp [hph]⟩
      obtain ⟨l', hl'⟩ := hphe
      have hnone' : l'.find? (fun p => p.name == pname) = none := by
        have h1 : findPack (ensurePackagesHashExists s) pname = none := by
          rw [findPack_ensurePackagesHashExists]
          exact habs
        unfold findPack at h1
        rw [hl'] at h1
        exact h1
      have hfnew : findPack { ensurePackagesHashExists s with
          packagesHash := (ensurePackagesHashExists s).packagesHash.map (fun tbl =>
            tbl ++ [{ name := pname, varHashRegular := none, varHashTransact := none,
                      states := [initObjectHistoryPackState] }]) } pname
          = some { name := pname, varHashRegular := none, varHashTransact := none,
                   states := [initObjectHistoryPackState] } := by
        unfold findPack
        show ((((ensurePackagesHashExists s).packagesHash).map _).getD []).find? _ = _
        rw [hl']
        simp only [Option.map_some', Option.getD_some]
        exact find?_append_some _ l' _ hnone' (by simp)
      injection hok with hpair
      rw [Prod.mk.injEq] at hpair
      obtain ⟨hk, hs⟩ := hpair
      subst hs
      refine ⟨hk.symm, hlen, ?_⟩
      apply hmain
      refine ⟨_, hfnew, rfl, by simp, ?_, ?_⟩
      · intro w hw
        exact absurd hw (List.not_mem_nil w)
      · intro w hw
        exact absurd hw (List.not_mem_nil w)
    | inr hfound =>
      obtain ⟨p0, hfp, hpst, hwT, hwR⟩ := hfound
      obtain ⟨c0, r0, hst0⟩ : ∃ c0 r0, p0.states = c0 :: r0 := by
        cases hc : p0.states with
        | nil => exact absurd hc hpst
        | cons c0 r0 => exact ⟨c0, r0, rfl⟩
      have hens : ensurePackagesHashExists s = s := by
        unfold ensurePackagesHashExists
        cases hph : s.packagesHash with
        | some l => rfl
        | none =>
          have hnone : findPack s pname = none := by
            unfold findPack
            rw [hph]
            rfl
          rw [hnone] at hfp
          exact Option.noConfusion hfp
      rw [hens] at hok
      simp only [hfp] at hok
      have hheadp0 : packHeadState p0 = c0 := by
        unfold packHeadState
        rw [hst0]
        rfl
      by_cases hch : isObjectChangedInCurrentTransPack s p0 = true
      · simp only [hch, Bool.not_true, Bool.false_eq_true, if_false] at hok
        simp only [hfp, Option.getD_some] at hok
        by_cases hv0 : (packHeadState p0).is_valid = true
        · simp only [hv0, Bool.not_true, Bool.false_eq_true, if_false] at hok
          injection hok with hpair
          rw [Prod.mk.injEq] at hpair
          obtain ⟨hk, hs⟩ := hpair
          subst hs
          exact ⟨hk.symm, hlen, hmain s ⟨p0, hfp, hv0, hpst, hwT, hwR⟩⟩
        · have hv0' : (packHeadState p0).is_valid = false := by
            cases hb : (packHeadState p0).is_valid
            · rfl
            · exact absurd hb hv0
          simp only [hv0', Bool.not_false, if_true] at hok
          have hfV : findPack (modifyPack s pname
              (packMutateHead (fun h => { h with is_valid := true }))) pname
              = some (packMutateHead (fun h => { h with is_valid := true }) p0) := by
            rw [findPack_modifyPack_same s pname _ (packMutateHead_name _), hfp]
            rfl
          have hstV : (packMutateHead (fun h => { h with is_valid := true }) p0).states
              = { level := c0.level, is_valid := true, trans_var_num := c0.trans_var_num }
                :: r0 := by
            rw [packMutateHead_states_cons _ p0 c0 r0 hst0]
          have hokV : packOkT
              (packMutateHead (fun h => { h with is_valid := true }) p0) := by
            refine ⟨?_, ?_, ?_, ?_⟩
            · unfold packHeadState
              rw [hstV]
              rfl
            · rw [hstV]
              simp
            · intro w hw
              apply hwT
              rw [← packMutateHead_varHashTransact p0
                (fun h => { h with is_valid := true })]
              exact hw
            · intro w hw
              apply hwR
              rw [← packMutateHead_varHashRegular p0
                (fun h => { h with is_valid := true })]
              exact hw
          simp only [hfV, Option.getD_some] at hok
          cases htv : (packMutateHead (fun h => { h with is_valid := true })
              p0).varHashTransact with
          | none =>
            simp only [htv] at hok
            injection hok with hpair
            rw [Prod.mk.injEq] at hpair
            obtain ⟨hk, hs⟩ := hpair
            subst hs
            exact ⟨hk.symm, hlen, hmain _ ⟨_, hfV, hokV⟩⟩
          | some tbl =>
            simp only [htv] at hok
            injection hok with hpair
            rw [Prod.mk.injEq] at hpair
            obtain ⟨hk, hs⟩ := hpair
            subst hs
            exact ⟨hk.symm, hlen,
              hmain _ (packOk_resurrect_fold pname tbl _ ⟨_, hfV, hokV⟩)⟩
      · have hch' : isObjectChangedInCurrentTransPack s p0 = false :=
          Bool.eq_false_iff.mpr (fun he => hch he)
        simp only [hch', Bool.not_false, if_true] at hok
        have hf2 : findPack (createSavepointPack s pname) pname
            = some (createSavepointPackObj p0) := by
          unfold createSavepointPack
          rw [findPack_modifyPack_same s pname _ createSavepointPackObj_name, hfp]
          rfl
        simp only [hf2, Option.getD_some] at hok
        have hcspst : (createSavepointPackObj p0).states
            = { level := 0, is_valid := c0.is_valid, trans_var_num := c0.trans_var_num }
              :: c0 :: r0 := by
          simp only [createSavepointPackObj, hst0]
        have hhead2 : packHeadState (createSavepointPackObj p0)
            = { level := 0, is_valid := c0.is_valid,
                trans_var_num := c0.trans_var_num } := by
          unfold packHeadState
          rw [hcspst]
          rfl
        by_cases hv0 : (packHeadState p0).is_valid = true
        · have hvalC : (packHeadState (createSavepointPackObj p0)).is_valid = true := by
            rw [hhead2]
            show c0.is_valid = true
            rw [← hheadp0]
            exact hv0
          simp only [hvalC, Bool.not_true, Bool.false_eq_true, if_false] at hok
          injection hok with hpair
          rw [Prod.mk.injEq] at hpair
          obtain ⟨hk, hs⟩ := hpair
          subst hs
          refine ⟨hk.symm, hlen, hmain _ ⟨_, hf2, hvalC, ?_, ?_, ?_⟩⟩
          · rw [hcspst]
            simp
          · intro w hw
            apply hwT
            rw [← createSavepointPackObj_varHashTransact p0]
            exact hw
          · intro w hw
            apply hwR
            rw [← createSavepointPackObj_varHashRegular p0]
            exact hw
        · have hv0' : (packHeadState p0).is_valid = false := by
            cases hb : (packHeadState p0).is_valid
            · rfl
            · exact absurd hb hv0
          have hvalC : (packHeadState (createSavepointPackObj p0)).is_valid = false := by
            rw [hhead2]
            show c0.is_valid = false
            rw [← hheadp0]
            exact hv0'
          simp only [hvalC, Bool.not_false, if_true] at hok
          have hfV : findPack (modifyPack (createSavepointPack s pname) pname
              (packMutateHead (fun h => { h with is_valid := true }))) pname
              = some (packMutateHead (fun h => { h with is_valid := true })
                  (createSavepointPackObj p0)) := by
            rw [findPack_modifyPack_same _ pname _ (packMutateHead_name _), hf2]
            rfl
          have hstV : (packMutateHead (fun h => { h with is_valid := true })
              (createSavepointPackObj p0)).states
              = { level := 0, is_valid := true, trans_var_num := c0.trans_var_num }
                :: c0 :: r0 := by
            rw [packMutateHead_states_cons _ _ _ _ hcspst]
          have hokV : packOkT (packMutateHead (fun h => { h with is_valid := true })
              (createSavepointPackObj p0)) := by
            refine ⟨?_, ?_, ?_, ?_⟩
            · unfold packHeadState
              rw [hstV]
              rfl
            · rw [hstV]
              simp
            · intro w hw
              apply hwT
              rw [← createSavepointPackObj_varHashTransact p0,
                ← packMutateHead_varHashTransact (createSavepointPackObj p0)
                  (fun h => { h with is_valid := true })]
              exact hw
            · intro w hw
              apply hwR
              rw [← createSavepointPackObj_varHashRegular p0,
                ← packMutateHead_varHashRegular (createSavepointPackObj p0)
                  (fun h => { h with is_valid := true })]
              exact hw
          simp only [hfV, Option.getD_some] at hok
          cases htv : (packMutateHead (fun h => { h with is_valid := true })
              (createSavepointPackObj p0)).varHashTransact with
          | none =>
            simp only [htv] at hok
            injection hok with hpair
            rw [Prod.mk.injEq] at hpair
            obtain ⟨hk, hs⟩ := hpair
            subst hs
            exact ⟨hk.symm, hlen, hmain _ ⟨_, hfV, hokV⟩⟩
          | some tbl =>
            simp only [htv] at hok
            injection hok with hpair
            rw [Prod.mk.injEq] at hpair
            obtain ⟨hk, hs⟩ := hpair
            subst hs
            exact ⟨hk.symm, hlen,
              hmain _ (packOk_resurrect_fold pname tbl _ ⟨_, hfV, hokV⟩)⟩

/-- The head-validity projection of a package, tracked through the
regular-flavor variable-creation steps. -/
def packValid (p : Package) : Bool := (packHeadState p).is_valid

theorem packValid_set_pack_htab (p : Package) (b : Bool)
    (t : Option (List Variable)) :
    packValid (set_pack_htab p b t) = packValid p := by
  unfold packValid
  rw [packHeadState_set_pack_htab]

theorem packValid_packMutateHead (g : PackState → PackState)
    (hg : ∀ h, (g h).is_valid = h.is_valid) (p : Package) :
    packValid (packMutateHead g p) = packValid p := by
  obtain ⟨nm, vr, vt, sts⟩ := p
  cases sts with
  | nil => rfl
  | cons h t => simp [packValid, packMutateHead, packHeadState, hg h]

theorem packValid_createSavepointPackObj (p : Package) :
    packValid (createSavepointPackObj p) = packValid p := by
  obtain ⟨nm, vr, vt, sts⟩ := p
  cases sts <;> rfl

/-- Object-level effect of the regular flavor of `createVariableFinish`:
no counter bump and no changes-stack entry, just the head validated in
place with its value kept. -/
theorem createVariableFinish_object_reg (s1 : Store) (pname vname : String)
    (found : Bool) (v' : Variable) (c : VarState) (r : List VarState)
    (hfv : findVarIn s1 pname false vname = some v')
    (hst : v'.states = c :: r) :
    ∃ v2, findVarIn (createVariableFinish s1 pname vname false found)
        pname false vname = some v2 ∧
      v2.typid = v'.typid ∧ v2.is_record = v'.is_record ∧
      (varHeadState v2).is_valid = true ∧
      (varHeadState v2).value = c.value ∧
      (∃ c2 r2, v2.states = c2 :: r2) := by
  simp only [createVariableFinish, hfv, Bool.false_and, Bool.false_eq_true, if_false]
  have hvb : findVarIn (modifyVarIn s1 pname false vname
      (varMutateHead fun h => { h with is_valid := true })) pname false vname
      = some (varMutateHead (fun h => { h with is_valid := true }) v') := by
    rw [findVarIn_modifyVarIn_same _ _ _ _ _ (varMutateHead_name _), hfv]
    rfl
  have hvbst : (varMutateHead (fun h => { h with is_valid := true }) v').states
      = { level := c.level, is_valid := true, value := c.value } :: r := by
    rw [varMutateHead_states_cons _ _ _ _ hst]
  have hvbhd : varHeadState (varMutateHead (fun h => { h with is_valid := true }) v')
      = { level := c.level, is_valid := true, value := c.value } := by
    unfold varHeadState
    rw [hvbst]
    rfl
  refine ⟨_, hvb, varMutateHead_typid _ v', varMutateHead_is_record _ v', ?_, ?_, ?_⟩
  · rw [hvbhd]
  · rw [hvbhd]
  · exact ⟨_, _, hvbst⟩

theorem findPack_packValid_finish_reg (s2 : Store) (pname vname : String)
    (found : Bool) (k : String) :
    (findPack (createVariableFinish s2 pname vname false found) k).map packValid
      = (findPack s2 k).map packValid := by
  unfold createVariableFinish
  cases hfv2 : findVarIn s2 pname false vname with
  | none => simp only [hfv2]
  | some v' =>
    simp only [hfv2, Bool.false_and, Bool.false_eq_true, if_false]
    unfold modifyVarIn
    exact findPack_proj_modifyPack packValid s2 pname _
      (fun p => set_pack_htab_name _ _ _) (fun p => packValid_set_pack_htab p _ _) k

theorem findVarIn_addToChangesStackPack_any (s : Store) (pk k : String) (b : Bool)
    (n : String) :
    findVarIn (addToChangesStackPack s pk) k b n = findVarIn s k b n := by
  apply findVarIn_proj_eq
  exact findPack_proj_addToChangesStackPack (varLookup b n)
    (fun lvl p => by unfold varLookup; rw [pack_htab_packMutateHead]) s pk k

theorem findVarIn_createSavepointPack_any (s : Store) (pk k : String) (b : Bool)
    (n : String) :
    findVarIn (createSavepointPack s pk) k b n = findVarIn s k b n := by
  apply findVarIn_proj_eq
  unfold createSavepointPack
  exact findPack_proj_modifyPack (varLookup b n) s pk _ createSavepointPackObj_name
    (fun p => by unfold varLookup; rw [pack_htab_createSavepointPackObj]) k

/-- Object-level success inversion of `createVariableInternal` (regular
flavor): the key is the name (thus short), the package's head validity is
untouched, and the named regular variable ends with type `typid`, scalar
kind, and a valid head. -/
theorem createVariableInternal_object_reg (s₁ : Store) (pname vname : String)
    (typid : Nat) (k2 : String) (s₂ : Store) (p1 : Package) (tblA : List Variable)
    (hfp1 : findPack s₁ pname = some p1)
    (htabA : pack_htab p1 false = some tblA)
    (hwne : ∀ w ∈ tblA, w.states ≠ [])
    (hok : createVariableInternal s₁ pname vname typid false false = .ok (k2, s₂)) :
    k2 = vname ∧ vname.length ≤ NAMEDATALEN - 2 ∧
    (findPack s₂ pname).map packValid = some (packValid p1) ∧
    ∃ v2, findVarIn s₂ pname false vname = some v2 ∧
      v2.typid = typid ∧ v2.is_record = false ∧
      (varHeadState v2).is_valid = true ∧
      (∃ c2 r2, v2.states = c2 :: r2) := by
  cases hkey : getKeyFromName vname with
  | error e =>
    unfold createVariableInternal at hok
    rw [hkey] at hok
    simp only [bind, Except.bind] at hok
    exact Except.noConfusion hok
  | ok key =>
    have hkv : key = vname := getKeyFromName_ok_inv vname key hkey
    have hlen : vname.length ≤ NAMEDATALEN - 2 := getKeyFromName_ok_len vname key hkey
    unfold createVariableInternal at hok
    rw [hkey] at hok
    simp only [bind, Except.bind, hfp1, Bool.not_false] at hok
    rw [hkv] at hok
    have hnoconf : (match pack_htab p1 true with
        | some tbl => (findVar tbl vname).isSome
        | none => false) = false := by
      cases hop : pack_htab p1 true with
      | none => rfl
      | some tblO =>
        cases hfo : (findVar tblO vname).isSome with
        | false =>
          show (findVar tblO vname).isSome = false
          exact hfo
        | true =>
          simp only [hop, hfo, if_true] at hok
          exact Except.noConfusion hok
    simp only [hnoconf, Bool.false_eq_true, if_false, htabA, Option.getD_some] at hok
    cases hfv0 : findVar tblA vname with
    | some v1 =>
      simp only [hfv0] at hok
      cases hty : (v1.typid != typid) with
      | true =>
        rw [hty] at hok
        simp only [if_true] at hok
        exact Except.noConfusion hok
      | false =>
        rw [hty] at hok
        simp only [Bool.false_eq_true, if_false] at hok
        cases hkind : (v1.is_record != false) with
        | true =>
          rw [hkind] at hok
          simp only [if_true] at hok
          exact Except.noConfusion hok
        | false =>
          rw [hkind] at hok
          simp only [Bool.false_eq_true, if_false, Bool.false_and] at hok
          injection hok with hpair
          rw [Prod.mk.injEq] at hpair
          obtain ⟨hk, hs⟩ := hpair
          subst hs
          have htyv : v1.typid = typid := by simpa using hty
          have hkindv : v1.is_record = false := by simpa using hkind
          have hvne : v1.states ≠ [] := hwne v1 (List.mem_of_find?_eq_some hfv0)
          have hfvs : findVarIn s₁ pname false vname = some v1 := by
            simp only [findVarIn, hfp1, htabA]
            exact hfv0
          refine ⟨hk.symm, hlen, ?_, ?_⟩
          · rw [findPack_packValid_finish_reg, hfp1]
            rfl
          · cases hst1 : v1.states with
            | nil => exact absurd hst1 hvne
            | cons c1 r1 =>
              obtain ⟨v2, hv2, ht2, hr2, hval2, hvalue2, hst2⟩ :=
                createVariableFinish_object_reg s₁ pname vname true v1 c1 r1 hfvs hst1
              refine ⟨v2, hv2, ?_, ?_, hval2, hst2⟩
              · rw [ht2, htyv]
              · rw [hr2, hkindv]
    | none =>
      simp only [hfv0] at hok
      injection hok with hpair
      rw [Prod.mk.injEq] at hpair
      obtain ⟨hk, hs⟩ := hpair
      subst hs
      have hfq1 : findPack (modifyPack s₁ pname (fun p =>
          set_pack_htab p false (some ((pack_htab p false).getD []
            ++ [{ name := vname, typid := typid, is_record := false,
                  is_transactional := false, is_deleted := false,
                  states := [initObjectHistoryVarState false] }])))) pname
          = some (set_pack_htab p1 false (some (tblA
            ++ [{ name := vname, typid := typid, is_record := false,
                  is_transactional := false, is_deleted := false,
                  states := [initObjectHistoryVarState false] }]))) := by
        rw [findPack_modifyPack_same s₁ pname _ (fun p => set_pack_htab_name _ _ _),
          hfp1]
        simp only [Option.map_some', htabA, Option.getD_some]
      have htabq1 : pack_htab (set_pack_htab p1 false (some (tblA
          ++ [{ name := vname, typid := typid, is_record := false,
                is_transactional := false, is_deleted := false,
                states := [initObjectHistoryVarState false] }]))) false
          = some (tblA
            ++ [{ name := vname, typid := typid, is_record := false,
                  is_transactional := false, is_deleted := false,
                  states := [initObjectHistoryVarState false] }]) :=
        pack_htab_set_pack_htab _ _ _
      have hfvnew : findVarIn (modifyPack s₁ pname (fun p =>
          set_pack_htab p false (some ((pack_htab p false).getD []
            ++ [{ name := vname, typid := typid, is_record := false,
                  is_transactional := false, is_deleted := false,
                  states := [initObjectHistoryVarState false] }])))) pname false vname
          = some { name := vname, typid := typid, is_record := false,
                   is_transactional := false, is_deleted := false,
                   states := [initObjectHistoryVarState false] } := by
        simp only [findVarIn, hfq1, htabq1]
        exact findVar_append_new tblA vname _ hfv0 (by simp)
      simp only [hfq1]
      have hmain2 : ∀ s2 : Store,
          (findPack s2 pname).map packValid = some (packValid p1) →
          findVarIn s2 pname false vname
            = some { name := vname, typid := typid, is_record := false,
                     is_transactional := false, is_deleted := false,
                     states := [initObjectHistoryVarState false] } →
          ((findPack (createVariableFinish s2 pname vname false false) pname).map
              packValid = some (packValid p1) ∧
          ∃ v2, findVarIn (createVariableFinish s2 pname vname false false)
              pname false vname = some v2 ∧
            v2.typid = typid ∧ v2.is_record = false ∧
            (varHeadState v2).is_valid = true ∧
            (∃ c2 r2, v2.states = c2 :: r2)) := by
        intro s2 hproj hfv2
        constructor
        · rw [findPack_packValid_finish_reg]
          exact hproj
        · obtain ⟨v2, hv2, ht2, hr2, hval2, hvalue2, hst2⟩ :=
            createVariableFinish_object_reg s2 pname vname false _
              (initObjectHistoryVarState false) [] hfv2 rfl
          exact ⟨v2, hv2, ht2, hr2, hval2, hst2⟩
      refine ⟨hk.symm, hlen, ?_⟩
      by_cases hch2 : isObjectChangedInCurrentTransPack (modifyPack s₁ pname (fun p =>
          set_pack_htab p false (some ((pack_htab p false).getD []
            ++ [{ name := vname, typid := typid, is_record := false,
                  is_transactional := false, is_deleted := false,
                  states := [initObjectHistoryVarState false] }]))))
          (set_pack_htab p1 false (some (tblA
            ++ [{ name := vname, typid := typid, is_record := false,
                  is_transactional := false, is_deleted := false,
                  states := [initObjectHistoryVarState false] }]))) = true
      · simp only [hch2, Bool.not_true, Bool.false_eq_true, if_false]
        exact hmain2 _ (by rw [hfq1]; simp only [Option.map_some',
          packValid_set_pack_htab]) hfvnew
      · have hch2' : isObjectChangedInCurrentTransPack (modifyPack s₁ pname (fun p =>
            set_pack_htab p false (some ((pack_htab p false).getD []
              ++ [{ name := vname, typid := typid, is_record := false,
                    is_transactional := false, is_deleted := false,
                    states := [initObjectHistoryVarState false] }]))))
            (set_pack_htab p1 false (some (tblA
              ++ [{ name := vname, typid := typid, is_record := false,
                    is_transactional := false, is_deleted := false,
                    states := [initObjectHistoryVarState false] }]))) = false :=
          Bool.eq_false_iff.mpr (fun he => hch2 he)
        simp only [hch2', Bool.not_false, if_true]
        apply hmain2
        · rw [findPack_proj_addToChangesStackPack packValid
            (fun lvl q => packValid_packMutateHead
              (fun h => { h with level := lvl }) (fun h => rfl) q)]
          unfold createSavepointPack
          rw [findPack_proj_modifyPack packValid _ pname _ createSavepointPackObj_name
            packValid_createSavepointPackObj pname]
          rw [hfq1]
          simp only [Option.map_some', packValid_set_pack_htab]
        · rw [findVarIn_addToChangesStackPack_any, findVarIn_createSavepointPack_any]
          exact hfvnew

/-- Reading a present, valid regular scalar variable: `variable_get`
finds it in the regular table first and returns its head scalar. -/
theorem variable_get_of_facts_reg (s' : Store) (pname vname : String) (typid : Nat)
    (strict : Bool) (x : Int) (nullf : Bool) (p' : Package) (v' : Variable)
    (hlenp : pname.length ≤ NAMEDATALEN - 2)
    (hlenv : vname.length ≤ NAMEDATALEN - 2)
    (hfp : findPack s' pname = some p')
    (hpv : (packHeadState p').is_valid = true)
    (hfv : findVarIn s' pname false vname = some v')
    (hty : v'.typid = typid)
    (hrec : v'.is_record = false)
    (hvv : (varHeadState v').is_valid = true)
    (hval : (varHeadState v').value = .scalar { value := x, is_null := nullf }) :
    variable_get s' pname vname typid strict = .ok (x, nullf) := by
  have hreg : (match p'.varHashRegular with
      | some tbl => findVar tbl vname
      | none => none) = some v' := by
    have h1 : findVarIn s' pname false vname
        = (match p'.varHashRegular with
          | some tbl => findVar tbl vname
          | none => none) := by
      simp only [findVarIn, hfp]
      show (match p'.varHashRegular with
        | none => none
        | some tbl => findVar tbl vname) = _
      cases p'.varHashRegular with
      | none => rfl
      | some tbl => rfl
    rw [← h1]
    exact hfv
  unfold variable_get getPackage getVariableInternal
  rw [getKeyFromName_ok pname hlenp, getKeyFromName_ok vname hlenv]
  simp only [bind, Except.bind, hfp, hpv, if_true, hreg]
  have hnostrict : (!(varHeadState v').is_valid && strict) = false := by
    rw [hvv]
    rfl
  by_cases hio : (typid != InvalidOid) = true
  · have htyok : (v'.typid != typid) = false := by
      rw [hty]
      simp
    have hkindok : (v'.is_record != false) = false := by
      rw [hrec]
      rfl
    simp only [hio, if_true, htyok, hkindok, Bool.false_eq_true, if_false, hnostrict,
      hval]
  · have hio' : (typid != InvalidOid) = false := Bool.eq_false_iff.mpr (fun he => hio he)
    simp only [hio', Bool.false_eq_true, if_false, hnostrict, hval]

/-- The set/get roundtrip, regular flavor. -/
theorem C3_roundtrip_reg (s : Store) (pname vname : String) (typid : Nat)
    (value : Int) (s' : Store) (strict : Bool)
    (hcase : findPack s pname = none ∨
      ∃ p0, findPack s pname = some p0 ∧ p0.states ≠ [] ∧
        (∀ w ∈ (p0.varHashTransact.getD []), w.states ≠ []) ∧
        (∀ w ∈ (p0.varHashRegular.getD []), w.states ≠ []))
    (hok : variable_set s pname vname typid value false false = .ok s') :
    variable_get s' pname vname typid strict = .ok (value, false) := by
  unfold variable_set at hok
  simp only [bind, Except.bind] at hok
  cases hA : createPackage s pname false with
  | error e =>
    simp only [hA] at hok
    exact Except.noConfusion hok
  | ok a =>
    obtain ⟨k1, s₁⟩ := a
    simp only [hA] at hok
    obtain ⟨hk1, hlenp, p1, tblA, hfp1, hpv1, hps1, htabA, hwne, hwneO⟩ :=
      createPackage_inv s pname k1 s₁ false hcase hA
    rw [hk1] at hok
    cases hB : createVariableInternal s₁ pname vname typid false false with
    | error e =>
      simp only [hB] at hok
      exact Except.noConfusion hok
    | ok b =>
      obtain ⟨k2, s₂⟩ := b
      simp only [hB] at hok
      obtain ⟨hk2, hlenv, hproj, v2, hv2, hty2, hrec2, hval2, c2, r2, hst2⟩ :=
        createVariableInternal_object_reg s₁ pname vname typid k2 s₂ p1 tblA
          hfp1 htabA hwne hB
      rw [hk2] at hok
      injection hok with hs'
      subst hs'
      have hprojW : (findPack (modifyVarIn s₂ pname false vname
          (varMutateHead (fun h => { h with value := .scalar ⟨if false then 0 else value, false⟩ }))) pname).map
          packValid = some (packValid p1) := by
        unfold modifyVarIn
        rw [findPack_proj_modifyPack packValid s₂ pname _
          (fun p => set_pack_htab_name _ _ _)
          (fun p => packValid_set_pack_htab p _ _) pname]
        exact hproj
      obtain ⟨p', hfp', hpp'⟩ : ∃ p', findPack (modifyVarIn s₂ pname false vname
          (varMutateHead (fun h => { h with value := .scalar ⟨if false then 0 else value, false⟩ }))) pname
          = some p' ∧ packValid p' = packValid p1 := by
        cases hf : findPack (modifyVarIn s₂ pname false vname
            (varMutateHead (fun h => { h with value := .scalar ⟨if false then 0 else value, false⟩ }))) pname with
        | none =>
          rw [hf] at hprojW
          exact absurd hprojW (by simp)
        | some p' =>
          rw [hf] at hprojW
          simp only [Option.map_some', Option.some_inj] at hprojW
          exact ⟨p', rfl, hprojW⟩
      have hpv' : (packHeadState p').is_valid = true := by
        have h1 : packValid p' = packValid p1 := hpp'
        unfold packValid at h1
        rw [h1]
        exact hpv1
      have hfvW : findVarIn (modifyVarIn s₂ pname false vname
          (varMutateHead (fun h => { h with value := .scalar ⟨if false then 0 else value, false⟩ }))) pname false vname
          = some (varMutateHead (fun h => { h with value := .scalar ⟨if false then 0 else value, false⟩ }) v2) := by
        rw [findVarIn_modifyVarIn_same _ _ _ _ _ (varMutateHead_name _), hv2]
        rfl
      have hhd2 : varHeadState v2 = c2 := by
        unfold varHeadState
        rw [hst2]
        rfl
      have hheadW : varHeadState (varMutateHead (fun h => { h with value := .scalar ⟨if false then 0 else value, false⟩ }) v2)
          = { level := c2.level, is_valid := c2.is_valid, value := .scalar ⟨if false then 0 else value, false⟩ } :=
        varHeadState_varMutateHead_cons _ v2 c2 r2 hst2
      apply variable_get_of_facts_reg _ pname vname typid strict value false p' _
        hlenp hlenv hfp' hpv' hfvW
      · rw [varMutateHead_typid]
        exact hty2
      · rw [varMutateHead_is_record]
        exact hrec2
      · rw [hheadW]
        show c2.is_valid = true
        rw [← hhd2]
        exact hval2
      · rw [hheadW]
        rfl

/-- The set/get roundtrip, transactional flavor. -/
theorem C3_roundtrip_trans (s : Store) (pname vname : String) (typid : Nat)
    (value : Int) (s' : Store) (strict : Bool)
    (hcase : findPack s pname = none ∨
      ∃ p0, findPack s pname = some p0 ∧ p0.states ≠ [] ∧
        (∀ w ∈ (p0.varHashTransact.getD []), w.states ≠ []) ∧
        (∀ w ∈ (p0.varHashRegular.getD []), w.states ≠ []))
    (hok : variable_set s pname vname typid value false true = .ok s') :
    variable_get s' pname vname typid strict = .ok (value, false) := by
  unfold variable_set at hok
  simp only [bind, Except.bind] at hok
  cases hA : createPackage s pname true with
  | error e =>
    simp only [hA] at hok
    exact Except.noConfusion hok
  | ok a =>
    obtain ⟨k1, s₁⟩ := a
    simp only [hA] at hok
    obtain ⟨hk1, hlenp, p1, tblA, hfp1, hpv1, hps1, htabA, hwne, hwneO⟩ :=
      createPackage_inv s pname k1 s₁ true hcase hA
    rw [hk1] at hok
    cases hB : createVariableInternal s₁ pname vname typid false true with
    | error e =>
      simp only [hB] at hok
      exact Except.noConfusion hok
    | ok b =>
      obtain ⟨k2, s₂⟩ := b
      simp only [hB] at hok
      obtain ⟨hk2, hlenv, hvl, hproj, v2, hv2, hty2, hrec2, hval2, c2, r2, hst2⟩ :=
        createVariableInternal_object s₁ pname vname typid k2 s₂ p1 tblA
          hfp1 htabA hwne hB
      rw [hk2] at hok
      injection hok with hs'
      subst hs'
      have hprojW : (findPack (modifyVarIn s₂ pname true vname
          (varMutateHead (fun h => { h with value := .scalar ⟨if false then 0 else value, false⟩ }))) pname).map
          packProjV = some (packProjV p1) := by
        unfold modifyVarIn
        rw [findPack_proj_modifyPack packProjV s₂ pname _
          (fun p => set_pack_htab_name _ _ _)
          (fun p => packProjV_set_pack_htab_true p _) pname]
        exact hproj
      obtain ⟨p', hfp', hpp'⟩ : ∃ p', findPack (modifyVarIn s₂ pname true vname
          (varMutateHead (fun h => { h with value := .scalar ⟨if false then 0 else value, false⟩ }))) pname
          = some p' ∧ packProjV p' = packProjV p1 := by
        cases hf : findPack (modifyVarIn s₂ pname true vname
            (varMutateHead (fun h => { h with value := .scalar ⟨if false then 0 else value, false⟩ }))) pname with
        | none =>
          rw [hf] at hprojW
          exact absurd hprojW (by simp)
        | some p' =>
          rw [hf] at hprojW
          simp only [Option.map_some', Option.some_inj] at hprojW
          exact ⟨p', rfl, hprojW⟩
      have hpv' : (packHeadState p').is_valid = true := by
        have h1 := congrArg (fun x => x.1) hpp'
        simp only [packProjV] at h1
        rw [h1]
        exact hpv1
      have hregeq : p'.varHashRegular = p1.varHashRegular := by
        have h1 := congrArg (fun x => x.2.2) hpp'
        simpa [packProjV] using h1
      have hreg' : (match p'.varHashRegular with
          | some tbl => findVar tbl vname
          | none => none) = none := by
        rw [hregeq]
        have hvl' := hvl
        unfold varLookup at hvl'
        cases hx : p1.varHashRegular with
        | none => rfl
        | some tbl =>
          have hx' : pack_htab p1 false = some tbl := hx
          rw [hx'] at hvl'
          exact hvl'
      have hfvW : findVarIn (modifyVarIn s₂ pname true vname
          (varMutateHead (fun h => { h with value := .scalar ⟨if false then 0 else value, false⟩ }))) pname true vname
          = some (varMutateHead (fun h => { h with value := .scalar ⟨if false then 0 else value, false⟩ }) v2) := by
        rw [findVarIn_modifyVarIn_same _ _ _ _ _ (varMutateHead_name _), hv2]
        rfl
      have hhd2 : varHeadState v2 = c2 := by
        unfold varHeadState
        rw [hst2]
        rfl
      have hheadW : varHeadState (varMutateHead (fun h => { h with value := .scalar ⟨if false then 0 else value, false⟩ }) v2)
          = { level := c2.level, is_valid := c2.is_valid, value := .scalar ⟨if false then 0 else value, false⟩ } :=
        varHeadState_varMutateHead_cons _ v2 c2 r2 hst2
      apply variable_get_of_facts _ pname vname typid strict value false p' _
        hlenp hlenv hfp' hpv' hreg' hfvW
      · rw [varMutateHead_typid]
        exact hty2
      · rw [varMutateHead_is_record]
        exact hrec2
      · rw [hheadW]
        show c2.is_valid = true
        rw [← hhd2]
        exact hval2
      · rw [hheadW]
        rfl

/-- C3: the set/get roundtrip for a scalar variable.  On a store where
the package entry, if present, carries well-formed savepoint stacks, a
successful `variable_set` of a non-null value — of either
transactionality, whether the package is created fresh, found valid, or
resurrected from a logically removed (invalid-head) state — is observed
by `variable_get` of the same names and type: it returns exactly the
written value with the null flag false, under either strictness. -/
theorem C3_set_get_roundtrip (s : Store) (pname vname : String) (typid : Nat)
    (value : Int) (s' : Store) (tr strict : Bool)
    (hcase : findPack s pname = none ∨
      ∃ p0, findPack s pname = some p0 ∧ p0.states ≠ [] ∧
        (∀ w ∈ (p0.varHashTransact.getD []), w.states ≠ []) ∧
        (∀ w ∈ (p0.varHashRegular.getD []), w.states ≠ []))
    (hok : variable_set s pname vname typid value false tr = .ok s') :
    variable_get s' pname vname typid strict = .ok (value, false) := by
  cases tr with
  | true => exact C3_roundtrip_trans s pname vname typid value s' strict hcase hok
  | false => exact C3_roundtrip_reg s pname vname typid value s' strict hcase hok

/-- A fresh session after `set('p','x',42,true)`. -/
def c3After : Store := okD (variable_set emptyStore "p" "x" 25 42 false true)

/-- C3, witness: the roundtrip theorem applied to a fresh store. -/
theorem C3_set_get_roundtrip_witness :
    variable_get c3After "p" "x" 25 true = .ok (42, false) :=
  C3_set_get_roundtrip emptyStore "p" "x" 25 42 c3After true true
    (Or.inl (by decide)) rfl

/-- `rollbackSavepoint` on a variable with an older state beneath the
head: the pop restores exactly the stack captured at the savepoint. -/
theorem rollbackSavepointVar_restores (s : Store) (pk n : String) (v : Variable)
    (c : VarState) (rest : List VarState)
    (hf : findVarIn s pk true n = some v)
    (hst : v.states = c :: rest)
    (hrest : rest ≠ []) :
    (findVarIn (rollbackSavepointVar s pk n) pk true n).map (fun v => v.states)
      = some rest := by
  have hne : v.states.isEmpty = false := by
    rw [hst]
    rfl
  simp only [rollbackSavepointVar, hf, hne, Bool.false_eq_true, if_false]
  have hpop : findVarIn (modifyVarIn s pk true n
      (fun v => { v with states := v.states.tail })) pk true n
      = some { v with states := rest } := by
    rw [findVarIn_modifyVarIn_same s pk true n
      (fun v => { v with states := v.states.tail }) (fun w => rfl), hf]
    simp only [Option.map_some', Option.some_inj]
    rw [hst]
    rfl
  have hne2 : ({ v with states := rest } : Variable).states.isEmpty = false := by
    cases hr : rest with
    | nil => exact absurd hr hrest
    | cons a t => simp [hr, List.isEmpty]
  simp only [hpop, hne2, Bool.false_eq_true, if_false, Option.map_some']

/-- `rollbackSavepoint` on a non-emptied package with an older state: the
pop restores exactly the stack captured at the savepoint. -/
theorem rollbackSavepointPack_restores (s : Store) (pk : String) (p : Package)
    (c : PackState) (rest : List PackState)
    (hf : findPack s pk = some p)
    (hst : p.states = c :: rest)
    (hrest : rest ≠ [])
    (hne : isPackageEmpty { p with states := rest } = false) :
    (findPack (rollbackSavepointPack s pk) pk).map (fun p => p.states) = some rest := by
  have hne0 : p.states.isEmpty = false := by
    rw [hst]
    rfl
  simp only [rollbackSavepointPack, hf, hne0, Bool.false_eq_true, if_false]
  have hpop : findPack (modifyPack s pk
      (fun p => { p with states := p.states.tail })) pk
      = some { p with states := rest } := by
    rw [findPack_modifyPack_same s pk
      (fun p => { p with states := p.states.tail }) (fun q => rfl), hf]
    simp only [Option.map_some', Option.some_inj]
    rw [hst]
    rfl
  have hne2 : ({ p with states := rest } : Package).states.isEmpty = false := by
    cases hr : rest with
    | nil => exact absurd hr hrest
    | cons a t => simp [hr, List.isEmpty]
  simp only [hpop, hne2, Bool.false_eq_true, if_false, hne, Option.map_some']

/-- Store after `set('p','x',1,true)` at top level: the state every C1
scenario starts from before opening the subtransaction. -/
def c1Pre : Store := okD (variable_set emptyStore "p" "x" 25 1 false true)

/-- Scenario A: set at top level, mutate inside a subtransaction, abort. -/
def c1ScenA : Store :=
  okD (do
    let s ← variable_set emptyStore "p" "x" 25 1 false true
    let s := subTransStart s
    let s ← variable_set s "p" "x" 25 2 false true
    .ok (subTransAbort s))

/-- Scenario B: create a fresh transactional variable inside a
subtransaction, abort. -/
def c1ScenB : Store :=
  okD (do
    let s ← variable_set emptyStore "p" "x" 25 1 false true
    let s := subTransStart s
    let s ← variable_set s "p" "y" 25 5 false true
    .ok (subTransAbort s))

/-- Counterexample store: inside a subtransaction create package `q` by
storing a REGULAR variable in it, then abort the subtransaction. -/
def c1CE : Store :=
  okD (do
    let s := subTransStart emptyStore
    let s ← variable_set s "q" "r" 25 1 false false
    .ok (subTransAbort s))

/-- The package `q` of `c1CE`. -/
def c1CEPack : Package := (findPack c1CE "q").getD defaultPackage

/-- Store with package `p` holding only the regular variable `r`, set at
top level. -/
def c1Pre2 : Store := okD (variable_set emptyStore "p" "r" 25 1 false false)

/-- Second counterexample store: starting from `c1Pre2`, open a
subtransaction, `remove_package('p')` (which frees the regular arena at
once), then abort. -/
def c1CE2 : Store :=
  okD (do
    let s ← variable_set emptyStore "p" "r" 25 1 false false
    let s := subTransStart s
    let s ← remove_package s "p"
    .ok (subTransAbort s))

/-- Intermediate store for the witness: `set('p','x',1,true)`, open a
subtransaction, `set('p','x',2,true)` — not yet aborted. -/
def c1Mid : Store :=
  okD (do
    let s ← variable_set emptyStore "p" "x" 25 1 false true
    let s := subTransStart s
    variable_set s "p" "x" 25 2 false true)

/-- C1 counterexample, in two parts.  (a) Package existence does NOT
always revert on rollback: package `q` did not exist before the
subtransaction (`findPack emptyStore "q" = none`), was created inside it
by storing a regular variable, yet after the abort it still exists with a
VALID head state and still holds one regular variable — `rollbackSavepoint`
pops the package's only state and, because `numOfRegVars > 0`, synthesizes
a fresh valid state at the parent level instead of erasing the package.
(b) A pre-existing package's popped stack is NOT always restored exactly:
package `p` of `c1Pre2` holds only the regular variable `r` and has head
state `⟨1, valid⟩`; removing it inside a subtransaction frees its regular
arena at once, so after the abort pops the savepointed state the package
is empty and the restored head is invalidated in place — `⟨1, invalid⟩`
instead of the pre-subtransaction `⟨1, valid⟩`. -/
theorem C1_counterexample :
    (findPack emptyStore "q" = none ∧
     findPack c1CE "q" = some c1CEPack ∧
     (packHeadState c1CEPack).is_valid = true ∧
     numOfRegVars c1CEPack = 1) ∧
    (((findPack c1Pre2 "p").map (fun p => p.states) = some [⟨1, true, 0⟩]) ∧
     ((findPack c1CE2 "p").map (fun p => p.states) = some [⟨1, false, 0⟩])) := by
  refine ⟨⟨by decide, by decide, by decide, by decide⟩, by decide, by decide⟩

/-- C1: what rollback actually erases.  (a) For a transactional variable
with a savepointed history, popping the head on rollback restores exactly
the pre-savepoint stack; (b) likewise for a package whose popped stack is
nonempty and non-empty as a container; (c) in the concrete scenario
`set(p,x,1); SAVEPOINT; set(p,x,2); ROLLBACK` the variable's stack, the
package's stack and the read value all coincide with the
pre-subtransaction store `c1Pre`; (d) a variable created inside the
aborted subtransaction is gone.  Package existence, however, is not
always reverted (see the counterexample). -/
theorem C1_rollback_erasure :
    (∀ (s : Store) (pk n : String) (v : Variable) (c : VarState)
        (rest : List VarState),
      findVarIn s pk true n = some v → v.states = c :: rest → rest ≠ [] →
      (findVarIn (rollbackSavepointVar s pk n) pk true n).map
          (fun v => v.states) = some rest) ∧
    (∀ (s : Store) (pk : String) (p : Package) (c : PackState)
        (rest : List PackState),
      findPack s pk = some p → p.states = c :: rest → rest ≠ [] →
      isPackageEmpty { p with states := rest } = false →
      (findPack (rollbackSavepointPack s pk) pk).map
          (fun p => p.states) = some rest) ∧
    ((findVarIn c1ScenA "p" true "x").map (fun v => v.states)
        = (findVarIn c1Pre "p" true "x").map (fun v => v.states) ∧
      (findPack c1ScenA "p").map (fun p => p.states)
        = (findPack c1Pre "p").map (fun p => p.states) ∧
      variable_get c1ScenA "p" "x" 25 true = .ok (1, false) ∧
      variable_get c1Pre "p" "x" 25 true = .ok (1, false)) ∧
    findVarIn c1ScenB "p" true "y" = none :=
  ⟨rollbackSavepointVar_restores, rollbackSavepointPack_restores,
   ⟨by decide, by decide, rfl, rfl⟩, by decide⟩

/-- C1 witness: the two general conjuncts applied at the concrete store
`c1Mid` (variable `x` and package `p` each carry a two-state stack). -/
theorem C1_rollback_erasure_witness :
    ((findVarIn (rollbackSavepointVar c1Mid "p" "x") "p" true "x").map
        (fun v => v.states)
      = some [⟨1, true, .scalar ⟨1, false⟩⟩]) ∧
    ((findPack (rollbackSavepointPack c1Mid "p") "p").map
        (fun p => p.states)
      = some [⟨1, true, 1⟩]) :=
  ⟨C1_rollback_erasure.1 c1Mid "p" "x"
      ((findVarIn c1Mid "p" true "x").getD defaultVariable)
      ⟨2, true, .scalar ⟨2, false⟩⟩ [⟨1, true, .scalar ⟨1, false⟩⟩]
      (by decide) (by decide) (by decide),
   C1_rollback_erasure.2.1 c1Mid "p"
      ((findPack c1Mid "p").getD defaultPackage)
      ⟨2, true, 1⟩ [⟨1, true, 1⟩]
      (by decide) (by decide) (by decide) (by decide)⟩

end PgVariables
